import Mathlib

/-!
# Credential lifecycle of `auth-service`

A shallow embedding of the token and password code of the repository
(`internal/token/generator.go`, `internal/token/validator.go`,
`internal/postgres/models/models.go`, `internal/service/reward.go`,
`api/server/middleware/middleware.go`, `api/server/router/network/network.go`,
`api/server/router/network/config.go`, `api/server/server.go`, `cmd/app/main.go`,
`pkg/consts`, `pkg/errormsg`) together with theorems about it.

Conventions of the embedding

* Go strings are Lean strings; the two separators the code splits on (`"|"`, `":"`)
  are single ASCII bytes, so splitting on the character agrees with Go's byte-wise split.
* `time.Time` is an integer number of nanoseconds since the Unix epoch, `time.Duration`
  an integer number of nanoseconds.  Every reading of `time.Now()` is an explicit argument.
* Libraries outside the repository that implement cryptography (`bcrypt`, `jwt`) are
  parameters (`Bcrypt`, `JwtLib`); the secure random source is a parameter (`RandRead`).
  For validation the control flow of the jwt library (v3: segments, key function, claim
  times, HMAC verification) is embedded over the parameters `JwtPrims`: JSON marshalling
  and the MAC.
* The `medods` table is a list of rows whose columns are nullable; a statement
  may also fail in transport (`DB.fault`): timeout, lost connection.
* The helper `queryRow` of the repository cancels the context of its query before it
  returns the row, so every `Scan` on such a row races with that cancellation; whether
  the scan sees it is an input of the model (`DB.cancelled`).
* The pattern matcher of the chi router is a parameter (`chi.Matcher`).
-/

set_option autoImplicit false
set_option maxRecDepth 100000

/-! ## Go errors -/

/-- Go error values: `errors.New text`, `fmt.Errorf (pre ++ "%w") inner`, or
`fmt.Errorf ("%w" ++ post) inner`. -/
inductive GoError where
  | New (text : String)
  | Errorf (pre : String) (inner : GoError)
  | Wrapf (inner : GoError) (post : String)
deriving DecidableEq, Repr

namespace GoError

/-- The `Error()` method: the message of an error value. -/
def Error : GoError → String
  | New text => text
  | Errorf pre inner => pre ++ inner.Error
  | Wrapf inner post => inner.Error ++ post

end GoError

namespace errors

/-- Go `errors.Is err target`: some error of the unwrap chain of `err` equals `target`. -/
def Is : GoError → GoError → Bool
  | GoError.New text, target => decide (GoError.New text = target)
  | GoError.Errorf pre inner, target =>
    decide (GoError.Errorf pre inner = target) || Is inner target
  | GoError.Wrapf inner post, target =>
    decide (GoError.Wrapf inner post = target) || Is inner target

end errors

namespace errormsg

def ErrPasswordLength : GoError := .New "password must be at least 8 characters long"
def ErrUserNotExist : GoError := .New "user with this email does not exist"
def ErrInvalidPassword : GoError := .New "invalid password"
def ErrFetchUser : GoError := .New "couldn't fetch user"
def ErrUserNotFound : GoError := .New "user does not exist"
def ErrInvalidID : GoError := .New "provided ID is invalid"
def ErrInvalidToken : GoError := .New "invalid access token from errormsg"
def ErrEmptyID : GoError := .New "empty ID parameter"
def ErrUnexpectedSigningMethod : GoError := .New "unexpected signing method"
def ErrTokenValidation : GoError := .New "token validation failed"
def ErrTokenExpired : GoError := .New "your auth has expired, please, authenticate again"
def ErrInvalidIP : GoError := .New "invalid IP while working with tokens"
def ErrInvalidRefreshToken : GoError := .New "invalid refresh token from errormsg"
def ErrCompareHash : GoError := .New "error during comparing hash and sotre token"
def ErrDSNRequired : GoError := .New "DSN is required"
def ErrServerPortRequired : GoError := .New "server port is required"
def ErrConnectDB : GoError := .New "error during connecting to DB"
def ErrApplyMigrations : GoError := .New "error during applying migrations"
def ErrJSONDecode : GoError := .New "JSON decode has failed"
def ErrJSONMustContain : GoError := .New "must contain at least one JSON value"

end errormsg

namespace sql

/-- The sentinel `sql.ErrNoRows`. -/
def ErrNoRows : GoError := .New "sql: no rows in result set"

end sql

namespace context

/-- The sentinel `context.Canceled`. -/
def Canceled : GoError := .New "context canceled"

end context

namespace http

/-- The sentinel `http.ErrNoCookie`. -/
def ErrNoCookie : GoError := .New "http: named cookie not present"

def StatusOK : Nat := 200
def StatusAccepted : Nat := 202
def StatusBadRequest : Nat := 400
def StatusUnauthorized : Nat := 401
def StatusInternalServerError : Nat := 500

end http

/-! ## Time and constants -/

/-- Go `time.Time`: nanoseconds since the Unix epoch. -/
abbrev Time := Int

/-- Go `time.Duration`: nanoseconds. -/
abbrev Duration := Int

namespace time

def Second : Duration := 1000000000
def Minute : Duration := 60 * Second
def Hour : Duration := 60 * Minute

/-- The zero value of `time.Time`, January 1 of year 1, 00:00:00 UTC. -/
def zero : Time := -62135596800 * Second

/-- Go `t.After u`: strictly later. -/
def After (t u : Time) : Bool := decide (u < t)

/-- Go `t.Add d`. -/
def Add (t : Time) (d : Duration) : Time := t + d

/-- Go `t.Unix()`: whole seconds since the Unix epoch, rounded down. -/
def Unix (t : Time) : Int := t / Second

end time

namespace consts

def RefreshTokenExpireTime : Duration := 30 * 24 * time.Hour
def AccessTokenExpireTime : Duration := 15 * time.Minute
def RefreshTokenLength : Nat := 32
def TokenParts : Nat := 2

end consts

/-! ## Strings -/

namespace strings

/-- Pieces of a character list between the occurrences of `sep`. -/
def splitChars (sep : Char) : List Char → List (List Char)
  | [] => [[]]
  | c :: cs =>
    if c = sep then [] :: splitChars sep cs
    else
      match splitChars sep cs with
      | [] => [[c]]
      | p :: ps => (c :: p) :: ps

/-- Go `strings.Split s sep` for a one-byte separator: the substrings of `s` between the
occurrences of `sep`, one more than there are occurrences. -/
def Split (s : String) (sep : Char) : List String :=
  (splitChars sep s.data).map String.mk

/-- Go `strings.Contains s sep` for a one-byte `sep`. -/
def Contains (s : String) (sep : Char) : Bool := s.data.contains sep

end strings

/-! ## base64 (`encoding/base64`, `URLEncoding`) -/

abbrev Byte := Fin 256

namespace base64

/-- The URL-safe alphabet of `base64.URLEncoding`. -/
def encodeURL : List Char :=
  "ABCDEFGHIJKLMNOPQRSTUVWXYZabcdefghijklmnopqrstuvwxyz0123456789-_".data

/-- The padding character `base64.StdPadding`. -/
def StdPadding : Char := '='

/-- The lookup `enc.encode[v & 0x3F]`. -/
def enc (v : Nat) : Char := encodeURL.getD (v &&& 0x3F) 'A'

/-- The method `Encoding.Encode` of `URLEncoding`: three source bytes give four characters,
a remainder of one or two bytes gives two or three characters and padding. -/
def Encode : List Byte → List Char
  | b0 :: b1 :: b2 :: rest =>
    let val := (b0.val <<< 16) ||| (b1.val <<< 8) ||| b2.val
    enc (val >>> 18) :: enc (val >>> 12) :: enc (val >>> 6) :: enc val :: Encode rest
  | [b0, b1] =>
    let val := (b0.val <<< 16) ||| (b1.val <<< 8)
    [enc (val >>> 18), enc (val >>> 12), enc (val >>> 6), StdPadding]
  | [b0] =>
    let val := b0.val <<< 16
    [enc (val >>> 18), enc (val >>> 12), StdPadding, StdPadding]
  | [] => []

/-- Go `base64.URLEncoding.EncodeToString`. -/
def EncodeToString (src : List Byte) : String := String.mk (Encode src)

end base64

/-! ## External libraries taken as parameters -/

/-- The secure random source `crypto/rand`: `rand n` is the outcome of `rand.Read` on a buffer of
`n` bytes, the bytes read or an error. -/
abbrev RandRead := Nat → Except GoError (List Byte)

/-- The package `golang.org/x/crypto/bcrypt`.  `GenerateFromPassword password cost salt`
hashes with the given random salt; `CompareHashAndPassword hash password` returns `none`
(Go `nil`) when the password is accepted and an error otherwise. -/
structure Bcrypt where
  GenerateFromPassword : String → Nat → List Byte → Except GoError String
  CompareHashAndPassword : String → String → Option GoError

namespace Bcrypt

def DefaultCost : Nat := 10

/-- Correctness of bcrypt: a hash generated from a password accepts that password. -/
def Correct (bc : Bcrypt) : Prop :=
  ∀ password cost salt hash,
    bc.GenerateFromPassword password cost salt = .ok hash →
    bc.CompareHashAndPassword hash password = none

end Bcrypt

/-! ## The store (`database/sql` over the table `medods`) -/

/-- A row of the table `medods`: the columns the statements of the repository read or
write.  `none` is SQL `NULL`: `Insert` leaves both credential columns unset. -/
structure MedodsRow where
  id : Int
  email : Option String
  refresh_token : Option String
  refresh_token_expires : Option Time
  first_name : Option String
  last_name : Option String
  password : Option String
  active : Option Int
  created_at : Option Time
  updated_at : Option Time
deriving DecidableEq, Repr

/-- The SQL statements of the token code. -/
inductive Stmt where
  | selectEmail
  | selectRefreshToken
  | updateRefreshToken
  | insertUser
  | selectByEmail
deriving DecidableEq, Repr

/-- The handle `*sql.DB`: the rows of `medods`; for each statement whether sending it now
fails in transport and with which error; and for each query sent through the helper
`queryRow`, whether the cancellation of its context has closed the row by the time the
caller scans it.  `queryRow` runs its deferred `cancel()` before it returns the row, and
`database/sql` closes the rows of a cancelled context from a goroutine of its own: the
scan that follows sees the cancellation or not, as the scheduler has it. -/
structure DB where
  medods : List MedodsRow
  fault : Stmt → Option GoError
  cancelled : Stmt → Bool

namespace sql

/-- The value `*sql.Row` returned by `QueryRowContext`: a deferred error, or the first row of
the result set when there is one.  A failed query assigns no destination of `Scan`. -/
inductive Row (α : Type) where
  | failed (e : GoError)
  | result (first : Option α)

/-- Assignment of one column to a `*string` destination inside `Row.Scan`: a `NULL` column
is a conversion error and leaves the destination untouched. -/
def assignString (dest : String) : Option String → String × Option GoError
  | some v => (v, none)
  | none => (dest, some (.New "sql: Scan error: converting NULL to string is unsupported"))

/-- Assignment of one column to a `*time.Time` destination inside `Row.Scan`. -/
def assignTime (dest : Time) : Option Time → Time × Option GoError
  | some v => (v, none)
  | none => (dest, some (.New "sql: Scan error: unsupported Scan, storing <nil> into *time.Time"))

/-- The call `row.Scan(&s)` with one string destination: the new value of `s` and the error. -/
def Row.Scan1 (row : Row (Option String)) (s : String) : String × Option GoError :=
  match row with
  | .failed e => (s, some e)
  | .result none => (s, some ErrNoRows)
  | .result (some col) => assignString s col

/-- The call `row.Scan(&s, &t)`: columns are assigned in order and the first failing column
ends the scan, leaving the later destinations untouched. -/
def Row.Scan2 (row : Row (Option String × Option Time)) (s : String) (t : Time) :
    String × Time × Option GoError :=
  match row with
  | .failed e => (s, t, some e)
  | .result none => (s, t, some ErrNoRows)
  | .result (some (c0, c1)) =>
    match assignString s c0 with
    | (s1, some e) => (s1, t, some e)
    | (s1, none) =>
      match assignTime t c1 with
      | (t1, err) => (s1, t1, err)

end sql

/-- The repository `models.PostgresRepository`. -/
structure PostgresRepository where
  Conn : DB

namespace PostgresRepository

/-- First row of `medods` with the given id. -/
def find (u : PostgresRepository) (id : Int) : Option MedodsRow :=
  u.Conn.medods.find? (fun r => decide (r.id = id))

/-- The helper `queryRow`: `QueryRowContext` under a context with timeout, whose deferred
`cancel()` runs before the row is returned.  `first` is the first row of the result set
when the store answers.  A query that fails in transport gives a row that carries the
error; an answered query gives a row whose context is already cancelled when the caller
scans it, and a scan that sees the cancellation reports `context.Canceled`, whatever the
result set holds. -/
def queryRow {α : Type} (u : PostgresRepository) (stmt : Stmt) (first : Option α) : sql.Row α :=
  match u.Conn.fault stmt with
  | some e => .failed e
  | none => if u.Conn.cancelled stmt then .failed context.Canceled else .result first

/-- The query `SELECT email FROM medods WHERE id = $1` through `queryRow`. -/
def queryRowEmail (u : PostgresRepository) (id : Int) : sql.Row (Option String) :=
  u.queryRow .selectEmail ((u.find id).map (fun r => r.email))

/-- The query `SELECT refresh_token, refresh_token_expires FROM medods WHERE id = $1`
through `queryRow`. -/
def queryRowRefreshToken (u : PostgresRepository) (id : Int) :
    sql.Row (Option String × Option Time) :=
  u.queryRow .selectRefreshToken
    ((u.find id).map (fun r => (r.refresh_token, r.refresh_token_expires)))

/-- The statement `UPDATE medods SET refresh_token = $1, refresh_token_expires = $2
WHERE id = $3` through `execQuery`: on a transport failure nothing is written and the error
is wrapped; otherwise every row with that id gets the two columns.  The deferred
`cancel()` of `execQuery` runs after `ExecContext` has returned the result, so it changes
nothing. -/
def execUpdateRefreshToken (u : PostgresRepository) (hashedToken : String) (expires : Time)
    (id : Int) : PostgresRepository × Option GoError :=
  match u.Conn.fault .updateRefreshToken with
  | some e => (u, some (.Errorf "failed to execute query : " e))
  | none =>
    (⟨⟨u.Conn.medods.map (fun r =>
        if r.id = id then
          { r with refresh_token := some hashedToken, refresh_token_expires := some expires }
        else r), u.Conn.fault, u.Conn.cancelled⟩⟩, none)

end PostgresRepository

/-- The function `models.HashRefreshToken`. -/
def HashRefreshToken (bc : Bcrypt) (salt : List Byte) (token : String) : Except GoError String :=
  match bc.GenerateFromPassword token Bcrypt.DefaultCost salt with
  | .error err => .error (.Errorf "failed to hash refresh token: " err)
  | .ok hashedToken => .ok hashedToken

namespace PostgresRepository

/-- The method `StoreRefreshToken`, run when the clock reads `now`. -/
def StoreRefreshToken (bc : Bcrypt) (salt : List Byte) (u : PostgresRepository) (now : Time)
    (id : Int) (rawToken : String) : PostgresRepository × Option GoError :=
  match HashRefreshToken bc salt rawToken with
  | .error err => (u, some err)
  | .ok hashedToken =>
    u.execUpdateRefreshToken hashedToken (time.Add now consts.RefreshTokenExpireTime) id

/-- The method `UpdateRefreshToken`, run when the clock reads `now`. -/
def UpdateRefreshToken (bc : Bcrypt) (salt : List Byte) (u : PostgresRepository) (now : Time)
    (id : Int) (rawToken : String) : PostgresRepository × Option GoError :=
  match HashRefreshToken bc salt rawToken with
  | .error err => (u, some err)
  | .ok hashedToken =>
    u.execUpdateRefreshToken hashedToken (time.Add now consts.RefreshTokenExpireTime) id

/-- What a call of `ValidateRefreshToken` returns and does: the two return values, the
statements it sent to the store in order, and the recipient of the printed e-mail
warning when one was printed. -/
structure Validation where
  ok : Bool
  err : Option GoError
  queries : List Stmt
  warnedTo : Option String
deriving DecidableEq, Repr

/-- The method `ValidateRefreshToken`, run when the clock reads `now`. -/
def ValidateRefreshToken (bc : Bcrypt) (u : PostgresRepository) (now : Time)
    (rawToken clientIP : String) (id : Int) : Validation :=
  let parts := strings.Split rawToken '|'
  if parts.length ≠ consts.TokenParts then
    ⟨false, some errormsg.ErrInvalidRefreshToken, [], none⟩
  else
    let tokenIP := parts.headD ""
    if tokenIP ≠ clientIP then
      let scanned := (u.queryRowEmail id).Scan1 ""
      let userEmail := if scanned.2.isSome then "mock_user@example.com" else scanned.1
      ⟨false, some errormsg.ErrInvalidIP, [.selectEmail], some userEmail⟩
    else
      let scanned := (u.queryRowRefreshToken id).Scan2 "" time.zero
      let hashedToken := scanned.1
      let expiresAt := scanned.2.1
      let err := scanned.2.2
      if (match err with
          | some e => errors.Is e sql.ErrNoRows
          | none => false) then
        ⟨false, some errormsg.ErrUserNotFound, [.selectRefreshToken], none⟩
      else if time.After now expiresAt then
        ⟨false, some errormsg.ErrTokenExpired, [.selectRefreshToken], none⟩
      else
        match bc.CompareHashAndPassword hashedToken rawToken with
        | some _ => ⟨false, some errormsg.ErrCompareHash, [.selectRefreshToken], none⟩
        | none => ⟨true, none, [.selectRefreshToken], none⟩

end PostgresRepository

/-! ## Token generation (`internal/token/generator.go`) -/

/-- The function `token.GenerateRefreshToken`. -/
def GenerateRefreshToken (rand : RandRead) (clientIP : String) : Except GoError String :=
  match rand consts.RefreshTokenLength with
  | .error err => .error (.Errorf "failed to generate random bytes: " err)
  | .ok tokenBytes => .ok (clientIP ++ "|" ++ base64.EncodeToString tokenBytes)

/-- A claim value of `jwt.MapClaims`: a number or a string. -/
inductive ClaimValue where
  | num (n : Int)
  | str (s : String)
deriving DecidableEq, Repr

/-- The type `jwt.MapClaims`, keys in the order of the literal. -/
abbrev MapClaims := List (String × ClaimValue)

/-- The package `github.com/golang-jwt/jwt`, signing side: `SignedString alg claims key` is
`jwt.NewWithClaims(method, claims).SignedString(key)` for the signing method named `alg`. -/
structure JwtLib where
  SignedString : String → MapClaims → String → Except GoError String

/-- The method `ServiceToken.GenerateAccessToken`; `nowExp` and `nowIat` are the two
readings of `time.Now()` in the claims literal, `getenv` is `os.Getenv`. -/
def GenerateAccessToken (jwt : JwtLib) (getenv : String → String) (nowExp nowIat : Time)
    (clientIP : String) : Except GoError String :=
  let claims : MapClaims :=
    [("exp", .num (time.Unix (time.Add nowExp consts.AccessTokenExpireTime))),
     ("iat", .num (time.Unix nowIat)),
     ("ip", .str clientIP)]
  match jwt.SignedString "HS512" claims (getenv "SECRET_KEY") with
  | .error err => .error (.Errorf "failed to sign the token: " err)
  | .ok signedToken => .ok signedToken

/-- The method `ServiceToken.GenerateTokens`. -/
def GenerateTokens (jwt : JwtLib) (getenv : String → String) (rand : RandRead)
    (nowExp nowIat : Time) (clientIP : String) : Except GoError (String × String) :=
  match GenerateAccessToken jwt getenv nowExp nowIat clientIP with
  | .error err => .error (.Errorf "failed to generate access token: " err)
  | .ok accessToken =>
    match GenerateRefreshToken rand clientIP with
    | .error err => .error (.Errorf "failed to generate refresh token: " err)
    | .ok refreshToken => .ok (accessToken, refreshToken)

/-! ## The HTTP layer (`net/http`, `chi`, `api/server/httputils`) -/

namespace unicode

/-- Go `unicode.IsSpace`. -/
def IsSpace (c : Char) : Bool :=
  [0x09, 0x0A, 0x0B, 0x0C, 0x0D, 0x20, 0x85, 0xA0, 0x1680, 0x2028, 0x2029, 0x202F, 0x205F,
    0x3000].contains c.toNat || (decide (0x2000 ≤ c.toNat) && decide (c.toNat ≤ 0x200A))

end unicode

namespace strings

/-- Go `strings.TrimSpace`: leading and trailing white space removed. -/
def TrimSpace (s : String) : String :=
  String.mk ((s.data.dropWhile unicode.IsSpace).reverse.dropWhile unicode.IsSpace).reverse

end strings

namespace strconv

def ErrSyntax : GoError := .New "invalid syntax"
def ErrRange : GoError := .New "value out of range"

/-- Go `strconv.Atoi` with a 64-bit `int`: an optional sign, then one or more ASCII digits
whose value fits. -/
def Atoi (s : String) : Except GoError Int :=
  let neg := s.data.head? = some '-'
  let digits := if s.data.head? = some '-' ∨ s.data.head? = some '+' then s.data.tail else s.data
  if digits = [] ∨ ¬ digits.all (fun ch => decide ('0' ≤ ch) && decide (ch ≤ '9')) then
    .error (.Errorf "strconv.Atoi: parsing: " ErrSyntax)
  else
    let un : Nat := digits.foldl (fun n ch => n * 10 + (ch.toNat - '0'.toNat)) 0
    if neg then
      if un > 2 ^ 63 then .error (.Errorf "strconv.Atoi: parsing: " ErrRange)
      else .ok (-(un : Int))
    else
      if un ≥ 2 ^ 63 then .error (.Errorf "strconv.Atoi: parsing: " ErrRange)
      else .ok (un : Int)

end strconv

namespace http

/-- The value `http.SameSite`. -/
inductive SameSite where
  | SameSiteDefaultMode
  | SameSiteLaxMode
  | SameSiteStrictMode
  | SameSiteNoneMode
deriving DecidableEq, Repr

/-- The fields of `http.Cookie` the handlers set. -/
structure Cookie where
  Name : String
  Value : String
  Path : String
  HttpOnly : Bool
  Secure : Bool
  SameSite : SameSite
  Expires : Time
deriving DecidableEq, Repr

/-- The parts of `*http.Request` the handlers read: the peer address, the route parameters
chi matched (keys and values in matching order) and the cookies of the `Cookie` header. -/
structure Request where
  RemoteAddr : String
  URLParams : List (String × String)
  Cookies : List (String × String)
deriving DecidableEq, Repr

/-- The method `r.Cookie name`: the first cookie of that name, or `ErrNoCookie`. -/
def Request.Cookie (r : Request) (name : String) : Except GoError String :=
  match r.Cookies.find? (fun c => decide (c.1 = name)) with
  | some c => .ok c.2
  | none => .error ErrNoCookie

end http

namespace chi

/-- The function `chi.URLParam`: the value of the last parameter of that key, or the empty
string. -/
def URLParam (r : http.Request) (key : String) : String :=
  match r.URLParams.reverse.find? (fun p => decide (p.1 = key)) with
  | some p => p.2
  | none => ""

end chi

namespace httputils

/-- The struct `JSONResponse` written to the body (the `data` field is never set on the
paths modelled here). -/
structure JSONResponse where
  Error : Bool
  Message : String
deriving DecidableEq, Repr

end httputils

/-- What a handler leaves in the `http.ResponseWriter`: status code, body and the cookies
set before the header was written. -/
structure Response where
  Code : Nat
  Body : httputils.JSONResponse
  Cookies : List http.Cookie
deriving DecidableEq, Repr

namespace httputils

/-- The function `ErrorJSON w err status`; the result is `none` when `err` is nil, where
`err.Error()` dereferences a nil interface and the handler panics. -/
def ErrorJSON (err : Option GoError) (status : Nat) : Option Response :=
  match err with
  | none => none
  | some e => some ⟨status, ⟨true, e.Error⟩, []⟩

end httputils

/-! ## The service (`internal/service/reward.go`) -/

/-- The function `service.GetIDFromURL`. -/
def GetIDFromURL (r : http.Request) (paramName : String) : Except GoError Int :=
  let idStr := strings.TrimSpace (chi.URLParam r paramName)
  if idStr = "" then .error errormsg.ErrEmptyID
  else if idStr.data.any (fun c =>
      !(decide (c = '-') && decide (idStr.utf8ByteSize > 1)) &&
        (decide (c < '0') || decide (c > '9'))) then
    .error errormsg.ErrInvalidID
  else
    match strconv.Atoi idStr with
    | .error _ => .error errormsg.ErrInvalidID
    | .ok id => .ok id

/-- The function `service.GetClientIP`. -/
def GetClientIP (r : http.Request) : String :=
  if strings.Contains r.RemoteAddr ':' then (strings.Split r.RemoteAddr ':').headD ""
  else r.RemoteAddr

/-- The struct `service.RewardService` with the Postgres repository behind `Repo`. -/
structure RewardService where
  Repo : PostgresRepository

/-- Everything a handler call reads from outside its arguments: the libraries, the
environment variables, the bytes of the random source, the salt bcrypt draws, and the
successive readings of `time.Now()` during the call. -/
structure World where
  bcrypt : Bcrypt
  jwt : JwtLib
  Getenv : String → String
  rand : RandRead
  salt : List Byte
  clock : Nat → Time

/-- Result of a handler call: the response (`none` when the handler panicked) and the
service with its store afterwards. -/
structure Handled where
  out : Option Response
  svc : RewardService

/-- The cookie both handlers build for a token. -/
def tokenCookie (name value : String) (expires : Time) : http.Cookie :=
  ⟨name, value, "/", true, false, .SameSiteStrictMode, expires⟩

/-- The handler `RewardService.Refresh`.  Readings of the clock: `0` in
`ValidateRefreshToken`, `1` and `2` in the access-token claims, `3` in
`UpdateRefreshToken`, `4` and `5` for the two cookies. -/
def Refresh (w : World) (s : RewardService) (r : http.Request) : Handled :=
  match GetIDFromURL r "id" with
  | .error _ => ⟨httputils.ErrorJSON (some errormsg.ErrInvalidID) http.StatusBadRequest, s⟩
  | .ok id =>
    match r.Cookie "refreshToken" with
    | .error err => ⟨httputils.ErrorJSON (some err) http.StatusUnauthorized, s⟩
    | .ok refreshCookie =>
      let ip := GetClientIP r
      let v := s.Repo.ValidateRefreshToken w.bcrypt (w.clock 0) refreshCookie ip id
      match v.err with
      | some err => ⟨httputils.ErrorJSON (some err) http.StatusUnauthorized, s⟩
      | none =>
        if !v.ok then ⟨httputils.ErrorJSON none http.StatusUnauthorized, s⟩
        else
          match GenerateTokens w.jwt w.Getenv w.rand (w.clock 1) (w.clock 2) ip with
          | .error err => ⟨httputils.ErrorJSON (some err) http.StatusInternalServerError, s⟩
          | .ok (accessToken, hashedRefreshToken) =>
            match s.Repo.UpdateRefreshToken w.bcrypt w.salt (w.clock 3) id
                hashedRefreshToken with
            | (repo, some err) =>
              ⟨httputils.ErrorJSON (some err) http.StatusInternalServerError, ⟨repo⟩⟩
            | (repo, none) =>
              ⟨some ⟨http.StatusOK, ⟨false, "Tokens has been successfully refreshed"⟩,
                [tokenCookie "accessToken" accessToken
                    (time.Add (w.clock 4) consts.AccessTokenExpireTime),
                 tokenCookie "refreshToken" hashedRefreshToken
                    (time.Add (w.clock 5) consts.RefreshTokenExpireTime)]⟩, ⟨repo⟩⟩

/-! ## base64 decoding and the segment encoding of the jwt library -/

namespace base64

/-- The value of a character of the URL-safe alphabet (the table `decodeMap`), `none` for
any other character. -/
def decodeChar (c : Char) : Option Nat := encodeURL.indexOf? c

/-- The bytes of a run of 6-bit values: four values give three bytes; a final group of
three or two values gives two bytes or one byte, its unused low bits being dropped
(the decoding is not strict). -/
def decodeQuads : List Nat → List Byte
  | d0 :: d1 :: d2 :: d3 :: rest =>
    let val := (d0 <<< 18) ||| (d1 <<< 12) ||| (d2 <<< 6) ||| d3
    Fin.ofNat (val >>> 16) :: Fin.ofNat (val >>> 8) :: Fin.ofNat val :: decodeQuads rest
  | [d0, d1, d2] =>
    let val := (d0 <<< 18) ||| (d1 <<< 12) ||| (d2 <<< 6)
    [Fin.ofNat (val >>> 16), Fin.ofNat (val >>> 8)]
  | [d0, d1] =>
    let val := (d0 <<< 18) ||| (d1 <<< 12)
    [Fin.ofNat (val >>> 16)]
  | _ => []

/-- Go `base64.URLEncoding.DecodeString`: carriage returns and line feeds are skipped, the
rest must be whole groups of four characters, the last group ending in at most two padding
characters; `none` is a `CorruptInputError`. -/
def DecodeString (s : String) : Option (List Byte) :=
  let chars := s.data.filter (fun c => !(decide (c = '\r') || decide (c = '\n')))
  let data := chars.takeWhile (fun c => !decide (c = StdPadding))
  let pad := chars.dropWhile (fun c => !decide (c = StdPadding))
  if chars.length % 4 ≠ 0 ∨ 2 < pad.length ∨ pad.any (fun c => !decide (c = StdPadding)) then
    none
  else
    match data.mapM decodeChar with
    | none => none
    | some vals => some (decodeQuads vals)

/-- The 6-bit values `Encode` looks up in the alphabet, without the padding. -/
def sextets : List Byte → List Nat
  | b0 :: b1 :: b2 :: rest =>
    let val := (b0.val <<< 16) ||| (b1.val <<< 8) ||| b2.val
    ((val >>> 18) &&& 0x3F) :: ((val >>> 12) &&& 0x3F) :: ((val >>> 6) &&& 0x3F) ::
      (val &&& 0x3F) :: sextets rest
  | [b0, b1] =>
    let val := (b0.val <<< 16) ||| (b1.val <<< 8)
    [(val >>> 18) &&& 0x3F, (val >>> 12) &&& 0x3F, (val >>> 6) &&& 0x3F]
  | [b0] =>
    let val := b0.val <<< 16
    [(val >>> 18) &&& 0x3F, (val >>> 12) &&& 0x3F]
  | [] => []

end base64

namespace strings

/-- Go `strings.TrimRight s cutset` for a one-character cutset. -/
def TrimRight (s : String) (cut : Char) : String :=
  String.mk (s.data.reverse.dropWhile (fun c => decide (c = cut))).reverse

end strings

/-! ## The jwt library (`github.com/golang-jwt/jwt`, v3) -/

/-- What the jwt library builds on, taken as parameters: `encoding/json` for the header
(`MarshalHeader alg` is the JSON of the header with that `alg` and `typ` JWT,
`UnmarshalHeader` gives the `alg` entry when it is a string) and for the claims,
`crypto/hmac` (`HMAC alg key message` is the MAC of the method named `alg`), and whether
`MapClaims.Valid` lets a time claim of a wrong type pass (v3.2.0) or not (later v3). -/
structure JwtPrims where
  MarshalHeader : String → List Byte
  UnmarshalHeader : List Byte → Option (Option String)
  MarshalClaims : MapClaims → List Byte
  UnmarshalClaims : List Byte → Option MapClaims
  HMAC : String → String → String → List Byte
  LenientTimeClaims : Bool

namespace JwtPrims

/-- The JSON codec gives back the header and the claims of a token it encoded: decoding
succeeds and every key has the value it had. -/
def RoundTrip (p : JwtPrims) (alg : String) (claims : MapClaims) : Prop :=
  p.UnmarshalHeader (p.MarshalHeader alg) = some (some alg) ∧
  ∃ decoded, p.UnmarshalClaims (p.MarshalClaims claims) = some decoded ∧
    ∀ key, decoded.lookup key = claims.lookup key

end JwtPrims

namespace jwt

def ErrSignatureInvalid : GoError := .New "signature is invalid"
def ErrInvalidKeyType : GoError := .New "key is of invalid type"

/-- The function `jwt.EncodeSegment`: URL-safe base64 with the padding stripped. -/
def EncodeSegment (seg : List Byte) : String :=
  strings.TrimRight (base64.EncodeToString seg) '='

/-- The function `jwt.DecodeSegment`: the padding is put back, then the segment is decoded. -/
def DecodeSegment (seg : String) : Option (List Byte) :=
  let l := seg.utf8ByteSize % 4
  base64.DecodeString (if l > 0 then seg ++ String.mk (List.replicate (4 - l) '=') else seg)

/-- The HMAC signing methods. -/
def hmacMethods : List String := ["HS256", "HS384", "HS512"]

/-- The names `jwt.GetSigningMethod` knows. -/
def signingMethods : List String :=
  hmacMethods ++ ["RS256", "RS384", "RS512", "PS256", "PS384", "PS512", "ES256", "ES384",
    "ES512", "none"]

/-- The method `Token.SigningString`: the encoded header and claims joined by a dot. -/
def SigningString (p : JwtPrims) (alg : String) (claims : MapClaims) : String :=
  EncodeSegment (p.MarshalHeader alg) ++ "." ++ EncodeSegment (p.MarshalClaims claims)

/-- The call `method.Sign(signingString, key)` with a byte-slice key: the HMAC methods
return the encoded MAC, the other methods refuse the key type. -/
def Sign (p : JwtPrims) (alg signingString key : String) : Except GoError String :=
  if hmacMethods.contains alg then .ok (EncodeSegment (p.HMAC alg key signingString))
  else .error ErrInvalidKeyType

/-- The call `method.Verify(signingString, signature, key)` with a byte-slice key: `none`
is Go `nil`. -/
def Verify (p : JwtPrims) (alg signingString signature key : String) : Option GoError :=
  if hmacMethods.contains alg then
    match DecodeSegment signature with
    | none => some (.New "illegal base64 data")
    | some sig =>
      if sig = p.HMAC alg key signingString then none else some ErrSignatureInvalid
  else some ErrInvalidKeyType

/-- The call `jwt.NewWithClaims(method, claims).SignedString(key)`. -/
def SignedString (p : JwtPrims) (alg : String) (claims : MapClaims) (key : String) :
    Except GoError String :=
  match Sign p alg (SigningString p alg claims) key with
  | .error err => .error err
  | .ok sig => .ok (SigningString p alg claims ++ "." ++ sig)

/-- The signing side of the library as a `JwtLib`. -/
def lib (p : JwtPrims) : JwtLib := ⟨SignedString p⟩

/-- The fields of `jwt.Token` the code reads. -/
structure Token where
  Raw : String
  Method : String
  Claims : MapClaims
  Signature : String
  Valid : Bool
deriving DecidableEq, Repr

/-- The helpers `verifyExp`, `verifyIat`, `verifyNbf`: a zero value counts as unset. -/
def verifyExp (exp now : Int) (required : Bool) : Bool :=
  if exp = 0 then !required else decide (now ≤ exp)

def verifyIat (iat now : Int) (required : Bool) : Bool :=
  if iat = 0 then !required else decide (iat ≤ now)

def verifyNbf (nbf now : Int) (required : Bool) : Bool :=
  if nbf = 0 then !required else decide (nbf ≤ now)

/-- The methods `MapClaims.VerifyExpiresAt`, `VerifyIssuedAt`, `VerifyNotBefore` for the
claim `key` checked by `verify`. -/
def verifyTimeClaim (lenient : Bool) (m : MapClaims) (key : String)
    (verify : Int → Int → Bool → Bool) (cmp : Int) (req : Bool) : Bool :=
  match m.lookup key with
  | none => !req
  | some (.num v) => verify v cmp req
  | some (.str _) => lenient && !req

/-- The method `MapClaims.Valid` at Unix time `now`: `none` when `exp`, `iat` and `nbf`
all pass, otherwise the error of the last check that failed. -/
def Valid (lenient : Bool) (m : MapClaims) (now : Int) : Option GoError :=
  if !verifyTimeClaim lenient m "nbf" verifyNbf now false then
    some (.New "Token is not valid yet")
  else if !verifyTimeClaim lenient m "iat" verifyIat now false then
    some (.New "Token used before issued")
  else if !verifyTimeClaim lenient m "exp" verifyExp now false then
    some (.New "Token is expired")
  else none

/-- The method `Parser.ParseUnverified`: three dot-separated segments, header and claims
decoded, the declared method looked up. -/
def ParseUnverified (p : JwtPrims) (tokenString : String) : Except GoError (Token × List String) :=
  let parts := strings.Split tokenString '.'
  if parts.length ≠ 3 then .error (.New "token contains an invalid number of segments")
  else
    match (DecodeSegment (parts.getD 0 "")).bind p.UnmarshalHeader with
    | none => .error (.New "token is malformed")
    | some header =>
      match (DecodeSegment (parts.getD 1 "")).bind p.UnmarshalClaims with
      | none => .error (.New "token is malformed")
      | some claims =>
        match header with
        | none => .error (.New "signing method (alg) is unspecified.")
        | some alg =>
          if signingMethods.contains alg then .ok (⟨tokenString, alg, claims, "", false⟩, parts)
          else .error (.New "signing method (alg) is unavailable.")

/-- The function `jwt.Parse` run when `time.Now().Unix()` is `now`: the key function is
asked for the key, the claims are validated, the signature is verified; the token is
returned valid only when nothing failed. -/
def Parse (p : JwtPrims) (tokenString : String) (keyFunc : Token → Except GoError String)
    (now : Int) : Except GoError Token :=
  match ParseUnverified p tokenString with
  | .error err => .error err
  | .ok (token, parts) =>
    match keyFunc token with
    | .error err => .error err
    | .ok key =>
      let claimsErr := Valid p.LenientTimeClaims token.Claims now
      let signatureErr := Verify p token.Method (parts.getD 0 "" ++ "." ++ parts.getD 1 "")
        (parts.getD 2 "") key
      match signatureErr, claimsErr with
      | some err, _ => .error err
      | none, some err => .error err
      | none, none => .ok ⟨token.Raw, token.Method, token.Claims, parts.getD 2 "", true⟩

end jwt

/-! ## Access-token validation (`internal/token/validator.go`) -/

/-- The struct `token.ServiceToken`. -/
structure ServiceToken where
  SecretKey : String
deriving DecidableEq, Repr

/-- The function `token.NewTokenService`; `getenv` is `os.Getenv`. -/
def NewTokenService (getenv : String → String) : ServiceToken := ⟨getenv "SECRET_KEY"⟩

/-- The key function `ValidateAccessToken` hands to `jwt.Parse`. -/
def accessKeyFunc (ts : ServiceToken) (t : jwt.Token) : Except GoError String :=
  if t.Method ≠ "HS512" then
    .error (.Wrapf errormsg.ErrUnexpectedSigningMethod (": " ++ t.Method))
  else .ok ts.SecretKey

/-- The method `ServiceToken.ValidateAccessToken`, run when the clock reads `now`: the
claims, or the error. -/
def ValidateAccessToken (p : JwtPrims) (ts : ServiceToken) (now : Time) (tokenString : String) :
    Except GoError MapClaims :=
  match jwt.Parse p (strings.TrimSpace tokenString) (accessKeyFunc ts) (time.Unix now) with
  | .error _ => .error errormsg.ErrTokenValidation
  | .ok token =>
    match token.Claims.lookup "exp" with
    | some (.num _) =>
      match token.Claims.lookup "iat" with
      | some (.num _) =>
        if !token.Valid then .error errormsg.ErrInvalidToken else .ok token.Claims
      | _ => .error errormsg.ErrInvalidToken
    | _ => .error errormsg.ErrInvalidToken

/-- The claims literal of `GenerateAccessToken`. -/
def accessClaims (nowExp nowIat : Time) (clientIP : String) : MapClaims :=
  [("exp", .num (time.Unix (time.Add nowExp consts.AccessTokenExpireTime))),
   ("iat", .num (time.Unix nowIat)),
   ("ip", .str clientIP)]

/-- The tampering of `TestTokenValidation`: the last two characters replaced by `xx`. -/
def tamper (tkn : String) : String :=
  String.mk (tkn.data.take (tkn.data.length - 2)) ++ "xx"

/-! ## Configuration and start-up (`router/network/config.go`, `server.go`, `cmd/app/main.go`) -/

namespace network

/-- The struct `network.Config`: `DB.DSN`, `Server.Port` and `JWT.Secret`. -/
structure Config where
  DSN : String
  Port : String
  Secret : String
deriving DecidableEq, Repr

/-- The function `network.Load`; `getenv` is `os.Getenv`, which gives the empty string
for a variable that is not set. -/
def Load (getenv : String → String) : Except GoError Config :=
  let cfg : Config := ⟨getenv "DSN", getenv "PORT", ""⟩
  if cfg.DSN = "" then .error errormsg.ErrDSNRequired
  else if cfg.Port = "" then .error errormsg.ErrServerPortRequired
  else .ok cfg

end network

namespace server

/-- The struct `server.Server`, with the service its routes are bound to. -/
structure Server where
  cfg : network.Config
  svc : RewardService

/-- The function `server.NewServer`; `connect` is `db.Connect` and `migrate` is
`migrations.Apply`. -/
def NewServer (connect : String → Except GoError DB) (migrate : DB → Option GoError)
    (cfg : network.Config) : Except GoError Server :=
  match connect cfg.DSN with
  | .error _ => .error errormsg.ErrConnectDB
  | .ok conn =>
    match migrate conn with
    | some _ => .error errormsg.ErrApplyMigrations
    | none => .ok ⟨cfg, ⟨⟨conn⟩⟩⟩

end server

namespace app

/-- The function `main` up to `srv.Start()`: the server that starts listening, or the
error logged by `log.Fatalf`. -/
def main (getenv : String → String) (connect : String → Except GoError DB)
    (migrate : DB → Option GoError) : Except GoError server.Server :=
  match network.Load getenv with
  | .error err => .error err
  | .ok cfg => server.NewServer connect migrate cfg

end app

/-! ## Users and passwords (`models.go`, `Registrate`) -/

namespace consts

def PassMinLength : Nat := 8
def AtLeastPassLength : Nat := 8
def BcryptCost : Nat := 12

end consts

namespace Bcrypt

/-- The sentinel `bcrypt.ErrMismatchedHashAndPassword`. -/
def ErrMismatchedHashAndPassword : GoError :=
  .New "crypto/bcrypt: hashedPassword is not the hash of the given password"

/-- The UTF-8 bytes of a string. -/
def utf8 (s : String) : List Byte := (s.data.flatMap String.utf8EncodeChar).map (fun b => b.val)

/-- The key material bcrypt reads from a password: the password followed by a NUL byte,
repeated, cut after 72 bytes (the 18 words of the Blowfish key schedule). -/
def key (password : String) : List Byte :=
  (List.replicate 72 (utf8 password ++ [0])).flatten.take 72

/-- The comparison of bcrypt depends on the password through its key material only. -/
def KeyOnly (bc : Bcrypt) : Prop :=
  ∀ hash password other, key password = key other →
    bc.CompareHashAndPassword hash password = bc.CompareHashAndPassword hash other

/-- The idealisation of bcrypt as a binding hash of its key material: a hash generated
from a password rejects, with the mismatch error, every password of another key
material. -/
def KeyBinding (bc : Bcrypt) : Prop :=
  ∀ password cost salt hash other,
    bc.GenerateFromPassword password cost salt = .ok hash →
    key other ≠ key password →
    bc.CompareHashAndPassword hash other = some ErrMismatchedHashAndPassword

end Bcrypt

namespace calltypes

/-- The struct `calltypes.User`. -/
structure User where
  ID : Int
  Email : String
  FirstName : String
  LastName : String
  Password : String
  Active : Int
  CreatedAt : Time
  UpdatedAt : Time
deriving DecidableEq, Repr

end calltypes

namespace PostgresRepository

/-- What a call of `Insert` returns and does: the two return values, the bcrypt hash when
one was computed, and the repository afterwards. -/
structure Insertion where
  id : Int
  err : Option GoError
  hashed : Option String
  repo : PostgresRepository

/-- The method `Insert`; `created` and `updated` are the two readings of `time.Now()` in
the statement, `newID` is the id the database assigns to the row.  The credential columns
of a new row are NULL.  The statement goes through `queryRow`: it has run when the row is
returned, so the new row is in the table also when the scan of the returned id sees the
cancelled context and `Insert` reports that error. -/
def Insert (bc : Bcrypt) (salt : List Byte) (u : PostgresRepository) (created updated : Time)
    (newID : Int) (user : calltypes.User) : Insertion :=
  if user.Password.utf8ByteSize < consts.PassMinLength then
    ⟨0, some errormsg.ErrPasswordLength, none, u⟩
  else
    match bc.GenerateFromPassword user.Password consts.BcryptCost salt with
    | .error err => ⟨0, some (.Errorf "failed to hash password: " err), none, u⟩
    | .ok hashedPassword =>
      match u.Conn.fault .insertUser with
      | some err =>
        ⟨0, some (.Errorf "failed to insert new user: " err), some hashedPassword, u⟩
      | none =>
        let repo : PostgresRepository :=
          ⟨⟨u.Conn.medods ++ [⟨newID, some user.Email, none, none, some user.FirstName,
            some user.LastName, some hashedPassword, some user.Active, some created,
            some updated⟩], u.Conn.fault, u.Conn.cancelled⟩⟩
        if u.Conn.cancelled .insertUser then
          ⟨0, some (.Errorf "failed to insert new user: " context.Canceled),
            some hashedPassword, repo⟩
        else ⟨newID, none, some hashedPassword, repo⟩

/-- The method `PasswordMatches`. -/
def PasswordMatches (bc : Bcrypt) (plainText : String) (user : calltypes.User) :
    Bool × Option GoError :=
  match bc.CompareHashAndPassword user.Password plainText with
  | some err =>
    if errors.Is err Bcrypt.ErrMismatchedHashAndPassword then (false, none)
    else (false, some (.Errorf "failed to compare passwords: " err))
  | none => (true, none)

end PostgresRepository

/-- The request payload of `Registrate`. -/
structure RegisterPayload where
  Email : String
  FirstName : String
  LastName : String
  Password : String
  Active : Int
deriving DecidableEq, Repr

/-- Result of `Registrate`: the response, the service afterwards, and the users handed to
`Repo.Insert`, in order. -/
structure Registration where
  out : Option Response
  svc : RewardService
  inserts : List calltypes.User

/-- The handler `RewardService.Registrate`; `payload` is the outcome of
`httputils.ReadJSON` on the request body, `newID` the id the database would assign.
Readings of the clock: `0` and `1` in `Insert`. -/
def Registrate (w : World) (newID : Int) (s : RewardService)
    (payload : Except GoError RegisterPayload) : Registration :=
  match payload with
  | .error err => ⟨httputils.ErrorJSON (some err) http.StatusBadRequest, s, []⟩
  | .ok requestPayload =>
    if requestPayload.Password.utf8ByteSize < consts.AtLeastPassLength then
      ⟨httputils.ErrorJSON (some errormsg.ErrPasswordLength) http.StatusBadRequest, s, []⟩
    else
      let user : calltypes.User :=
        ⟨0, requestPayload.Email, requestPayload.FirstName, requestPayload.LastName,
          requestPayload.Password, requestPayload.Active, time.zero, time.zero⟩
      let ins := s.Repo.Insert w.bcrypt w.salt (w.clock 0) (w.clock 1) newID user
      match ins.err with
      | some err => ⟨httputils.ErrorJSON (some err) http.StatusBadRequest, ⟨ins.repo⟩, [user]⟩
      | none =>
        ⟨some ⟨http.StatusAccepted,
          ⟨false, "Successfully created new user, id: " ++ toString ins.id⟩, []⟩,
          ⟨ins.repo⟩, [user]⟩

-- Equality of results is decidable when it is on errors and values.
deriving instance DecidableEq for Except

/-! ## Lookup by e-mail (`GetByEmail`) -/

namespace sql

/-- Assignment of one column to an `*int` destination inside `Row.Scan`. -/
def assignInt (dest : Int) : Option Int → Int × Option GoError
  | some v => (v, none)
  | none => (dest, some (.New "sql: Scan error: converting NULL to int is unsupported"))

/-- The call `row.Scan(&user.ID, &user.Email, &user.FirstName, &user.LastName,
&user.Password, &user.Active, &user.CreatedAt, &user.UpdatedAt)`: columns are assigned in
order and the first failing column ends the scan. -/
def Row.ScanUser (row : Row MedodsRow) (user : calltypes.User) :
    calltypes.User × Option GoError :=
  match row with
  | .failed e => (user, some e)
  | .result none => (user, some ErrNoRows)
  | .result (some r) =>
    let u0 := { user with ID := r.id }
    match assignString u0.Email r.email with
    | (v, some e) => ({ u0 with Email := v }, some e)
    | (v, none) =>
      let u1 := { u0 with Email := v }
      match assignString u1.FirstName r.first_name with
      | (v, some e) => ({ u1 with FirstName := v }, some e)
      | (v, none) =>
        let u2 := { u1 with FirstName := v }
        match assignString u2.LastName r.last_name with
        | (v, some e) => ({ u2 with LastName := v }, some e)
        | (v, none) =>
          let u3 := { u2 with LastName := v }
          match assignString u3.Password r.password with
          | (v, some e) => ({ u3 with Password := v }, some e)
          | (v, none) =>
            let u4 := { u3 with Password := v }
            match assignInt u4.Active r.active with
            | (v, some e) => ({ u4 with Active := v }, some e)
            | (v, none) =>
              let u5 := { u4 with Active := v }
              match assignTime u5.CreatedAt r.created_at with
              | (v, some e) => ({ u5 with CreatedAt := v }, some e)
              | (v, none) =>
                let u6 := { u5 with CreatedAt := v }
                match assignTime u6.UpdatedAt r.updated_at with
                | (v, err) => ({ u6 with UpdatedAt := v }, err)

end sql

namespace calltypes

/-- The zero value of `calltypes.User`. -/
def User.zero : User := ⟨0, "", "", "", "", 0, time.zero, time.zero⟩

end calltypes

namespace PostgresRepository

/-- The query `select id, email, first_name, last_name, password, active, created_at,
updated_at from medods where email = $1` through `queryRow`: the first row of that e-mail. -/
def queryRowByEmail (u : PostgresRepository) (email : String) : sql.Row MedodsRow :=
  u.queryRow .selectByEmail (u.Conn.medods.find? (fun r => decide (r.email = some email)))

/-- The method `GetByEmail`. -/
def GetByEmail (u : PostgresRepository) (email : String) : Except GoError calltypes.User :=
  match (u.queryRowByEmail email).ScanUser calltypes.User.zero with
  | (_, some err) => .error (.Errorf "failed to fecth user's password by email: " err)
  | (user, none) => .ok user

end PostgresRepository

/-! ## The handlers `Authenticate` and `Provide` -/

/-- The request payload of `Authenticate`. -/
structure LoginPayload where
  Email : String
  Password : String
deriving DecidableEq, Repr

/-- Result of `Authenticate` and of `Provide`: the response (`none` when the handler
panicked), the `user_id` entry of the `data` field of the body when one is written, the
service with its store afterwards, and the arguments of the calls of
`Repo.StoreRefreshToken`, in order. -/
structure Issuance where
  out : Option Response
  data : Option Int
  svc : RewardService
  stores : List (Int × String)

/-- The handler `RewardService.Authenticate`; `payload` is the outcome of
`httputils.ReadJSON` on the request body.  Readings of the clock: `1` and `2` in the
access-token claims, `3` in `StoreRefreshToken`, `4` and `5` for the two cookies. -/
def Authenticate (w : World) (s : RewardService) (r : http.Request)
    (payload : Except GoError LoginPayload) : Issuance :=
  match payload with
  | .error err => ⟨httputils.ErrorJSON (some err) http.StatusBadRequest, none, s, []⟩
  | .ok requestPayload =>
    if requestPayload.Email = "" ∨ requestPayload.Password = "" then
      ⟨httputils.ErrorJSON (some errormsg.ErrUserNotFound) http.StatusBadRequest, none, s, []⟩
    else
      match s.Repo.GetByEmail requestPayload.Email with
      | .error _ =>
        ⟨httputils.ErrorJSON (some errormsg.ErrUserNotExist) http.StatusBadRequest, none, s, []⟩
      | .ok user =>
        let matched := PostgresRepository.PasswordMatches w.bcrypt requestPayload.Password user
        if matched.2.isSome ∨ matched.1 = false then
          ⟨httputils.ErrorJSON (some errormsg.ErrInvalidPassword) http.StatusBadRequest, none,
            s, []⟩
        else
          let ip := GetClientIP r
          if ip = "" then
            ⟨httputils.ErrorJSON (some errormsg.ErrInvalidIP) http.StatusBadRequest, none, s, []⟩
          else
            match GenerateTokens w.jwt w.Getenv w.rand (w.clock 1) (w.clock 2) ip with
            | .error err =>
              ⟨httputils.ErrorJSON (some err) http.StatusInternalServerError, none, s, []⟩
            | .ok (accessToken, hashedRefreshToken) =>
              match s.Repo.StoreRefreshToken w.bcrypt w.salt (w.clock 3) user.ID
                  hashedRefreshToken with
              | (repo, some err) =>
                ⟨httputils.ErrorJSON (some err) http.StatusInternalServerError, none, ⟨repo⟩,
                  [(user.ID, hashedRefreshToken)]⟩
              | (repo, none) =>
                ⟨some ⟨http.StatusOK, ⟨false, "Welcome back, " ++ user.FirstName ++ "!"⟩,
                  [tokenCookie "accessToken" accessToken
                      (time.Add (w.clock 4) consts.AccessTokenExpireTime),
                   tokenCookie "refreshToken" hashedRefreshToken
                      (time.Add (w.clock 5) consts.RefreshTokenExpireTime)]⟩,
                  some user.ID, ⟨repo⟩, [(user.ID, hashedRefreshToken)]⟩

/-- The handler `RewardService.Provide`.  Readings of the clock as in `Authenticate`. -/
def Provide (w : World) (s : RewardService) (r : http.Request) : Issuance :=
  match GetIDFromURL r "id" with
  | .error _ =>
    ⟨httputils.ErrorJSON (some errormsg.ErrInvalidID) http.StatusBadRequest, none, s, []⟩
  | .ok id =>
    let ip := GetClientIP r
    if ip = "" then
      ⟨httputils.ErrorJSON (some errormsg.ErrInvalidIP) http.StatusBadRequest, none, s, []⟩
    else
      match GenerateTokens w.jwt w.Getenv w.rand (w.clock 1) (w.clock 2) ip with
      | .error err =>
        ⟨httputils.ErrorJSON (some err) http.StatusInternalServerError, none, s, []⟩
      | .ok (accessToken, hashedRefreshToken) =>
        match s.Repo.StoreRefreshToken w.bcrypt w.salt (w.clock 3) id hashedRefreshToken with
        | (repo, some err) =>
          ⟨httputils.ErrorJSON (some err) http.StatusInternalServerError, none, ⟨repo⟩,
            [(id, hashedRefreshToken)]⟩
        | (repo, none) =>
          ⟨some ⟨http.StatusOK, ⟨false, "Tokens has been successfully provided"⟩,
            [tokenCookie "accessToken" accessToken
                (time.Add (w.clock 4) consts.AccessTokenExpireTime),
             tokenCookie "refreshToken" hashedRefreshToken
                (time.Add (w.clock 5) consts.RefreshTokenExpireTime)]⟩,
            none, ⟨repo⟩, [(id, hashedRefreshToken)]⟩

/-! ## The middleware `Auth` and the routes (`middleware.go`, `network.go`) -/

namespace middleware

/-- The function `handleAuthError`: status 401 and the JSON object with `error` true and
the message behind `Authentication failed: `. -/
def handleAuthError (message : String) : Response :=
  ⟨http.StatusUnauthorized, ⟨true, "Authentication failed: " ++ message⟩, []⟩

/-- What happens to a request on its way to a handler: a middleware answers it, or the
handler is called, with the `clientIP` value of the request context when one was set. -/
inductive Gate (α : Type) where
  | rejected (resp : Response)
  | passed (clientIP : Option String) (served : α)

/-- The handler `Auth()(next)`; `now` is the reading of the clock in
`ValidateAccessToken`, `next` gets the `clientIP` value of the context and the request. -/
def Auth {α : Type} (p : JwtPrims) (getenv : String → String) (now : Time)
    (next : String → http.Request → α) (r : http.Request) : Gate α :=
  match r.Cookie "accessToken" with
  | .error _ => .rejected (handleAuthError "missing access token")
  | .ok accessCookie =>
    let ip :=
      if strings.Contains r.RemoteAddr ':' then (strings.Split r.RemoteAddr ':').headD ""
      else r.RemoteAddr
    match ValidateAccessToken p (NewTokenService getenv) now accessCookie with
    | .error err => .rejected (handleAuthError ("invalid access token: " ++ err.Error))
    | .ok _ => .passed (some ip) (next ip r)

/-- The response of the middleware itself, `none` when the request went on to the handler. -/
def Gate.answer {α : Type} : Gate α → Option Response
  | .rejected resp => some resp
  | .passed _ _ => none

end middleware

namespace network

/-- The handlers of `*service.RewardService` that `SetupRoutes` registers. -/
structure Handlers (α : Type) where
  RetrieveOne : http.Request → α
  GetLeaderboard : http.Request → α
  Refresh : http.Request → α
  Authenticate : http.Request → α
  Registrate : http.Request → α
  Provide : http.Request → α

/-- A route of the router: method, pattern, and the handler behind the middlewares of its
group. -/
structure Route (α : Type) where
  method : String
  pattern : String
  serve : http.Request → middleware.Gate α

/-- The function `SetupRoutes`: the three routes of the group that uses `auth`, then the
three routes registered on the router itself, which no middleware guards. -/
def SetupRoutes {α : Type}
    (auth : (String → http.Request → α) → http.Request → middleware.Gate α)
    (svc : Handlers α) : List (Route α) :=
  [⟨"GET", "/users/{id}/status", auth (fun _ => svc.RetrieveOne)⟩,
   ⟨"GET", "/users/leaderboard", auth (fun _ => svc.GetLeaderboard)⟩,
   ⟨"GET", "/refresh/{id}", auth (fun _ => svc.Refresh)⟩,
   ⟨"POST", "/authenticate", fun r => .passed none (svc.Authenticate r)⟩,
   ⟨"POST", "/registrate", fun r => .passed none (svc.Registrate r)⟩,
   ⟨"GET", "/provide/{id}", fun r => .passed none (svc.Provide r)⟩]

end network

namespace chi

/-- The pattern matcher of the router, a parameter: `matcher pattern path` gives the URL
parameters when the path matches the pattern. -/
abbrev Matcher := String → String → Option (List (String × String))

/-- The method `Mux.ServeHTTP` on the routes of `SetupRoutes`: the route of that method
whose pattern matches the path serves the request, with the URL parameters of the match;
`none` when there is none (404 or 405). -/
def ServeHTTP {α : Type} (matcher : Matcher) (routes : List (network.Route α))
    (method path : String) (r : http.Request) : Option (network.Route α × middleware.Gate α) :=
  match routes with
  | [] => none
  | route :: rest =>
    if route.method = method then
      match matcher route.pattern path with
      | some params => some (route, route.serve { r with URLParams := params })
      | none => ServeHTTP matcher rest method path r
    else ServeHTTP matcher rest method path r

end chi

/-! ## The contract of id parsing -/

/-- The reading of an id in the words of the contract of `GetIDFromURL`: the text is an
optional leading "-" followed by one or more ASCII decimal digits, and `n` is their
decimal value, negated behind the "-", within the range of a 64-bit `int`. -/
def decimalID (s : String) (n : Int) : Prop :=
  ∃ (neg : Bool) (digits : List Char),
    s.data = (if neg then ['-'] else []) ++ digits ∧
    digits ≠ [] ∧
    (∀ c ∈ digits, '0' ≤ c ∧ c ≤ '9') ∧
    n = (if neg then -1 else 1) *
      ((Nat.ofDigits 10 (digits.reverse.map (fun c => c.toNat - '0'.toNat)) : Nat) : Int) ∧
    -(2 : Int) ^ 63 ≤ n ∧ n < (2 : Int) ^ 63

/-! ## Instances used to evaluate the theorems on concrete inputs -/

/-- A stand-in for bcrypt with which the theorems are evaluated on concrete inputs: the
hash of a password is the password behind a fixed tag. -/
def tagBcrypt : Bcrypt where
  GenerateFromPassword := fun password _ _ => .ok ("$2a$10$" ++ password)
  CompareHashAndPassword := fun hash password =>
    if hash = "$2a$10$" ++ password then none
    else some (.New "crypto/bcrypt: hashedPassword is not the hash of the given password")

/-- A store that answers every statement. -/
def noFault : Stmt → Option GoError := fun _ => none

/-- Every scan reads its row before the cancellation of the context is seen. -/
def noCancel : Stmt → Bool := fun _ => false

/-- The row of account 1: a credential for the token `10.0.0.1|abc` expiring at Unix second
1700000000, password `correct horse`. -/
def sampleAccount1 : MedodsRow :=
  ⟨1, some "a@example.com", some "$2a$10$10.0.0.1|abc", some (1700000000 * time.Second),
    some "Anna", some "Ivanova", some "$2a$10$correct horse", some 1,
    some (1500000000 * time.Second), some (1500000000 * time.Second)⟩

/-- The row of account 2: registered and never issued a token, password `battery staple`. -/
def sampleAccount2 : MedodsRow :=
  ⟨2, some "b@example.com", none, none, some "Boris", some "Petrov",
    some "$2a$10$battery staple", some 1, some (1500000000 * time.Second),
    some (1500000000 * time.Second)⟩

/-- A store with two accounts: account 1 holds a credential for the token `10.0.0.1|abc`
expiring at Unix second 1700000000, account 2 was registered and never issued a token. -/
def sampleRepo : PostgresRepository :=
  ⟨⟨[sampleAccount1, sampleAccount2], noFault, noCancel⟩⟩

/-- The store of `sampleRepo`, answering every statement, when the scan of the credential
query sees the cancellation that `queryRow` issued. -/
def cancelledRepo : PostgresRepository :=
  ⟨⟨[sampleAccount1, sampleAccount2], noFault, fun stmt => decide (stmt = .selectRefreshToken)⟩⟩

/-- A random source that always yields zero bytes. -/
def zeroRand : RandRead := fun n => .ok (List.replicate n 0)

/-- A stand-in for the jwt library with which the theorems are evaluated on concrete
inputs: the signed string names the algorithm and lists the claim keys. -/
def tagJwt : JwtLib where
  SignedString := fun alg claims _ =>
    .ok (alg ++ "." ++ String.intercalate "," (claims.map Prod.fst))

/-- A world for concrete evaluation: Unix second 1600000000 at every reading of the clock,
zero bytes from the random source. -/
def sampleWorld : World where
  bcrypt := tagBcrypt
  jwt := tagJwt
  Getenv := fun key => if key = "SECRET_KEY" then "test_secret_key_1234567890" else ""
  rand := zeroRand
  salt := []
  clock := fun _ => 1600000000 * time.Second

/-- A refresh request of account 1 from `10.0.0.1` presenting the token `10.0.0.1|abc`. -/
def sampleRequest : http.Request :=
  ⟨"10.0.0.1:51234", [("id", "1")], [("refreshToken", "10.0.0.1|abc")]⟩

/-- The response of `Refresh` to `sampleRequest` in `sampleWorld` on `sampleRepo`. -/
def sampleRefreshed : Response :=
  ⟨200, ⟨false, "Tokens has been successfully refreshed"⟩,
    [tokenCookie "accessToken" "HS512.exp,iat,ip" (1600000900 * time.Second),
     tokenCookie "refreshToken" "10.0.0.1|AAAAAAAAAAAAAAAAAAAAAAAAAAAAAAAAAAAAAAAAAAA="
       (1602592000 * time.Second)]⟩

/-! ### A small JSON codec and a checksum MAC for concrete evaluation -/

namespace miniJson

/-- JSON text of a flat object whose values are integers and plain strings. -/
def render (m : MapClaims) : String :=
  "\x7b" ++ String.intercalate "," (m.map (fun kv =>
    "\"" ++ kv.1 ++ "\":" ++
      (match kv.2 with
       | .num n => toString n
       | .str s => "\"" ++ s ++ "\""))) ++ "\x7d"

/-- States of the reader of such objects. -/
inductive State where
  | start
  | member (acc : MapClaims)
  | inKey (acc : MapClaims) (key : List Char)
  | colon (acc : MapClaims) (key : String)
  | value (acc : MapClaims) (key : String)
  | inString (acc : MapClaims) (key : String) (val : List Char)
  | inNumber (acc : MapClaims) (key : String) (neg : Bool) (n : Nat)
  | next (acc : MapClaims)
  | done (acc : MapClaims)

/-- The value of a number read so far. -/
def number (neg : Bool) (n : Nat) : ClaimValue := .num (if neg then -(n : Int) else (n : Int))

/-- One character of input. -/
def step (st : State) (c : Char) : Option State :=
  match st with
  | .start => if c = '\x7b' then some (.member []) else none
  | .member acc => if c = '"' then some (.inKey acc []) else none
  | .inKey acc key =>
    if c = '"' then some (.colon acc (String.mk key.reverse)) else some (.inKey acc (c :: key))
  | .colon acc key => if c = ':' then some (.value acc key) else none
  | .value acc key =>
    if c = '"' then some (.inString acc key [])
    else if c = '-' then some (.inNumber acc key true 0)
    else if '0' ≤ c ∧ c ≤ '9' then some (.inNumber acc key false (c.toNat - '0'.toNat))
    else none
  | .inString acc key val =>
    if c = '"' then some (.next (acc ++ [(key, .str (String.mk val.reverse))]))
    else some (.inString acc key (c :: val))
  | .inNumber acc key neg n =>
    if '0' ≤ c ∧ c ≤ '9' then some (.inNumber acc key neg (n * 10 + (c.toNat - '0'.toNat)))
    else if c = ',' then some (.member (acc ++ [(key, number neg n)]))
    else if c = '\x7d' then some (.done (acc ++ [(key, number neg n)]))
    else none
  | .next acc =>
    if c = ',' then some (.member acc)
    else if c = '\x7d' then some (.done acc)
    else none
  | .done _ => none

/-- The object read from a text, `none` when the text is not such an object. -/
def parse (s : String) : Option MapClaims :=
  match s.data.foldlM step .start with
  | some (.done acc) => some acc
  | _ => none

/-- The bytes of an ASCII text and back. -/
def bytes (s : String) : List Byte := s.data.map (fun c => Fin.ofNat c.toNat)

def text (b : List Byte) : String := String.mk (b.map (fun x => Char.ofNat x.val))

end miniJson

/-- A checksum standing in for HMAC: 64 bytes, each the sum of the character codes of the
method name, the key and the message modulo 256. -/
def checksumMAC (alg key message : String) : List Byte :=
  List.replicate 64
    (Fin.ofNat ((alg.data ++ key.data ++ message.data).foldl (fun n c => n + c.toNat) 0))

/-- Primitives for concrete evaluation: the small JSON codec and the checksum MAC. -/
def miniPrims : JwtPrims where
  MarshalHeader := fun alg => miniJson.bytes (miniJson.render [("alg", .str alg), ("typ", .str "JWT")])
  UnmarshalHeader := fun b =>
    (miniJson.parse (miniJson.text b)).map (fun m =>
      match m.lookup "alg" with
      | some (.str alg) => some alg
      | _ => none)
  MarshalClaims := fun m => miniJson.bytes (miniJson.render m)
  UnmarshalClaims := fun b => miniJson.parse (miniJson.text b)
  HMAC := checksumMAC
  LenientTimeClaims := false

/-- An environment with the three settings of the service. -/
def sampleEnv : String → String := fun name =>
  if name = "SECRET_KEY" then "test_secret_key_1234567890"
  else if name = "DSN" then "postgres://auth@db/auth"
  else if name = "PORT" then "8080"
  else ""

/-- The instant 2020-09-13T12:26:40Z. -/
def sampleIssued : Time := 1600000000 * time.Second

/-- The token service of the sample environment. -/
def sampleService : ServiceToken := NewTokenService sampleEnv

/-- The claims of an access token issued at `sampleIssued` for 10.10.10.10. -/
def sampleClaims : MapClaims := accessClaims sampleIssued sampleIssued "10.10.10.10"

/-- Claims with an expiry but no issued-at. -/
def sampleClaimsNoIat : MapClaims :=
  [("exp", .num (time.Unix (time.Add sampleIssued consts.AccessTokenExpireTime))),
   ("ip", .str "10.10.10.10")]

/-- An environment in which DSN and PORT are set and SECRET_KEY is not. -/
def noSecretEnv : String → String := fun name =>
  if name = "DSN" then "postgres://auth@db/auth"
  else if name = "PORT" then "8080"
  else ""

/-- A database that accepts the connection and the migrations. -/
def sampleConnect : String → Except GoError DB := fun _ => .ok sampleRepo.Conn

def sampleMigrate : DB → Option GoError := fun _ => none

/-- A registration whose password has 7 characters and 13 bytes. -/
def shortPayload : RegisterPayload := ⟨"c@example.com", "Ivan", "Petrov", "пароль1", 1⟩

def shortUser : calltypes.User :=
  ⟨0, "c@example.com", "Ivan", "Petrov", "пароль1", 1, time.zero, time.zero⟩

/-- A stand-in for bcrypt that, like bcrypt, reads the key material of the password only:
the hash is the key material behind a fixed tag. -/
def keyBcrypt : Bcrypt where
  GenerateFromPassword := fun password _ _ =>
    .ok ("$2a$12$" ++ String.mk ((Bcrypt.key password).map (fun b => Char.ofNat b.val)))
  CompareHashAndPassword := fun hash password =>
    if hash = "$2a$12$" ++ String.mk ((Bcrypt.key password).map (fun b => Char.ofNat b.val))
    then none
    else some Bcrypt.ErrMismatchedHashAndPassword

/-- A password of 72 bytes and the same password with one more byte. -/
def longPassword : String := String.mk (List.replicate 72 'a')

def longerPassword : String := String.mk (List.replicate 73 'a')

/-- A user record holding the given password or hash. -/
def userWith (password : String) : calltypes.User :=
  ⟨0, "c@example.com", "Ivan", "Petrov", password, 1, time.zero, time.zero⟩

/-! ### SHA-512 and HMAC (FIPS 180-4, RFC 2104), for evaluation with the real MAC of HS512 -/

namespace sha512

/-- The first eighty primes. -/
def primes : List Nat :=
  [2, 3, 5, 7, 11, 13, 17, 19, 23, 29, 31, 37, 41, 43, 47, 53, 59, 61, 67, 71, 73, 79, 83, 89,
   97, 101, 103, 107, 109, 113, 127, 131, 137, 139, 149, 151, 157, 163, 167, 173, 179, 181,
   191, 193, 197, 199, 211, 223, 227, 229, 233, 239, 241, 251, 257, 263, 269, 271, 277, 281,
   283, 293, 307, 311, 313, 317, 331, 337, 347, 349, 353, 359, 367, 373, 379, 383, 389, 397,
   401, 409]

/-- Bisection for the integer root: the largest `r` in `[lo, hi]` with `r ^ k ≤ n`, given
that `lo` is one such and enough steps. -/
def bisect (k n : Nat) : Nat → Nat → Nat → Nat
  | 0, lo, _ => lo
  | steps + 1, lo, hi =>
    let mid := (lo + hi + 1) / 2
    if mid ^ k ≤ n then bisect k n steps mid hi else bisect k n steps lo (mid - 1)

/-- The first 64 bits of the fractional part of the `k`-th root of `p`, for `p < 512`. -/
def fracRoot (k p : Nat) : Nat := bisect k (p <<< (64 * k)) 80 0 (2 ^ 73) % 2 ^ 64

/-- The round constants: cube roots of the first eighty primes. -/
def K : List Nat := primes.map (fracRoot 3)

/-- The initial hash value: square roots of the first eight primes. -/
def H0 : List Nat := (primes.take 8).map (fracRoot 2)

def rotr (x n : Nat) : Nat := ((x >>> n) ||| (x <<< (64 - n))) % 2 ^ 64

def bigSigma0 (x : Nat) : Nat := rotr x 28 ^^^ rotr x 34 ^^^ rotr x 39

def bigSigma1 (x : Nat) : Nat := rotr x 14 ^^^ rotr x 18 ^^^ rotr x 41

def smallSigma0 (x : Nat) : Nat := rotr x 1 ^^^ rotr x 8 ^^^ (x >>> 7)

def smallSigma1 (x : Nat) : Nat := rotr x 19 ^^^ rotr x 61 ^^^ (x >>> 6)

def Ch (x y z : Nat) : Nat := (x &&& y) ^^^ ((x ^^^ (2 ^ 64 - 1)) &&& z)

def Maj (x y z : Nat) : Nat := (x &&& y) ^^^ (x &&& z) ^^^ (y &&& z)

/-- The message with the padding: a one bit, zeros, and the bit length on 16 bytes. -/
def pad (msg : List Nat) : List Nat :=
  msg ++ [0x80] ++ List.replicate ((128 - (msg.length + 17) % 128) % 128) 0 ++
    (List.range 16).map (fun i => ((8 * msg.length) >>> (8 * (15 - i))) % 256)

/-- Pieces of `n` elements. -/
def chunks {α : Type} (n : Nat) : Nat → List α → List (List α)
  | 0, _ => []
  | fuel + 1, l => if l.isEmpty then [] else l.take n :: chunks n fuel (l.drop n)

/-- The big-endian value of a list of bytes. -/
def word (bytes : List Nat) : Nat := bytes.foldl (fun acc b => acc * 256 + b) 0

/-- The message schedule, most recent word first. -/
def extend : Nat → List Nat → List Nat
  | 0, r => r
  | n + 1, r =>
    extend n (((smallSigma1 (r.getD 1 0) + r.getD 6 0 + smallSigma0 (r.getD 14 0) +
      r.getD 15 0) % 2 ^ 64) :: r)

/-- One round on the working variables `[a, b, c, d, e, f, g, h]`. -/
def round (v : List Nat) (kw : Nat × Nat) : List Nat :=
  match v with
  | [a, b, c, d, e, f, g, h] =>
    let t1 := (h + bigSigma1 e + Ch e f g + kw.1 + kw.2) % 2 ^ 64
    let t2 := (bigSigma0 a + Maj a b c) % 2 ^ 64
    [(t1 + t2) % 2 ^ 64, a, b, c, (d + t1) % 2 ^ 64, e, f, g]
  | _ => v

/-- The compression of one block of 128 bytes into the hash value. -/
def compress (h : List Nat) (block : List Nat) : List Nat :=
  let w := (extend 64 (((chunks 8 16 block).map word).reverse)).reverse
  List.zipWith (fun x y => (x + y) % 2 ^ 64) h ((K.zip w).foldl round h)

/-- The digest of a message of bytes, 64 bytes. -/
def sum (msg : List Nat) : List Nat :=
  let h := (chunks 128 (msg.length / 128 + 2) (pad msg)).foldl compress H0
  h.flatMap (fun x => (List.range 8).map (fun i => (x >>> (8 * (7 - i))) % 256))

end sha512

/-- HMAC with SHA-512 (block size 128) of a message under a key, both as bytes. -/
def hmacSHA512 (key msg : List Nat) : List Nat :=
  let k := if 128 < key.length then sha512.sum key else key
  let k := k ++ List.replicate (128 - k.length) 0
  sha512.sum (k.map (fun b => b ^^^ 0x5c) ++ sha512.sum (k.map (fun b => b ^^^ 0x36) ++ msg))

/-- Primitives with the real MAC of HS512: the small JSON codec, and HMAC-SHA-512 over the
UTF-8 bytes of key and message for the method HS512 (the checksum for the other methods). -/
def hs512Prims : JwtPrims :=
  { miniPrims with
    HMAC := fun alg key message =>
      if alg = "HS512" then
        (hmacSHA512 ((Bcrypt.utf8 key).map (fun b => b.val))
          ((Bcrypt.utf8 message).map (fun b => b.val))).map (fun b => Fin.ofNat b)
      else checksumMAC alg key message }

/-- The access token HS512 gives for 10.10.10.10 at Unix second 1600000188 under the key of
`sampleEnv`; it ends in "xw". -/
def sampleTokenXw : String :=
  "eyJhbGciOiJIUzUxMiIsInR5cCI6IkpXVCJ9." ++
  "eyJleHAiOjE2MDAwMDEwODgsImlhdCI6MTYwMDAwMDE4OCwiaXAiOiIxMC4xMC4xMC4xMCJ9." ++
  "3OyoJ7P_ip_CP1pxz5xvC9EzTalsyS7pmgopnV-9KiGBX0iAslB9TAMhspGmj_hMr0UItmthdYdDdRAQLRv3xw"

/-- The same token with its last two characters replaced by "xx". -/
def sampleTokenXx : String :=
  "eyJhbGciOiJIUzUxMiIsInR5cCI6IkpXVCJ9." ++
  "eyJleHAiOjE2MDAwMDEwODgsImlhdCI6MTYwMDAwMDE4OCwiaXAiOiIxMC4xMC4xMC4xMCJ9." ++
  "3OyoJ7P_ip_CP1pxz5xvC9EzTalsyS7pmgopnV-9KiGBX0iAslB9TAMhspGmj_hMr0UItmthdYdDdRAQLRv3xx"

/-- The HS512 token over `sampleClaimsNoIat` under the key of `sampleEnv`. -/
def sampleTokenNoIat : String :=
  "eyJhbGciOiJIUzUxMiIsInR5cCI6IkpXVCJ9." ++
  "eyJleHAiOjE2MDAwMDA5MDAsImlwIjoiMTAuMTAuMTAuMTAifQ." ++
  "NwlmX12KyBwQSjC_IPZk7v0L7TrFhhQ43dKq4CJK25xn33DEVJ7mjoh9rFNzui9dpmzuLPSkHc-PMDLkRPDi0g"

/-- The HS512 token with `exp` 1600000899 and `iat` 1600000000 under the key of
`sampleEnv`. -/
def sampleTokenShort : String :=
  "eyJhbGciOiJIUzUxMiIsInR5cCI6IkpXVCJ9." ++
  "eyJleHAiOjE2MDAwMDA4OTksImlhdCI6MTYwMDAwMDAwMCwiaXAiOiIxMC4xMC4xMC4xMCJ9." ++
  "IEBSQcFaR0GxpzFIJ5GCJuzSkEthnS_nNgqkNChFl5WBreBc9MMTwLDIT_MqQIYAznH91mhWEwwrLB-zgmrHEA"

/-- The HS512 token over `sampleClaims` under the empty key. -/
def sampleTokenEmptyKey : String :=
  "eyJhbGciOiJIUzUxMiIsInR5cCI6IkpXVCJ9." ++
  "eyJleHAiOjE2MDAwMDA5MDAsImlhdCI6MTYwMDAwMDAwMCwiaXAiOiIxMC4xMC4xMC4xMCJ9." ++
  "r0CAI6sTfkNciXFPnbtGPyDKHfMo8sZlbZL7fN9sIsxJn8bpjUErmXyVM8eZf2WidtnlfcsX2Qq5uoJSH3vE8g"

/-! ### Instances for the handlers, the middleware and the routes -/

/-- The store of `sampleRepo` on a connection that fails every credential update. -/
def brokenRepo : PostgresRepository :=
  ⟨⟨[sampleAccount1, sampleAccount2], fun stmt =>
    if stmt = .updateRefreshToken then
      some (.New "dial tcp 10.0.0.5:5432: connect: connection refused")
    else none, noCancel⟩⟩

/-- The login of account 1. -/
def sampleLogin : LoginPayload := ⟨"a@example.com", "correct horse"⟩

namespace chi

/-- Matching of pattern segments against path segments: a segment `{name}` takes one
path segment that is not empty, any other segment must be equal. -/
def matchSegments : List String → List String → Option (List (String × String))
  | [], [] => some []
  | pat :: pats, seg :: segs =>
    if pat.data.head? = some '\x7b' ∧ pat.data.getLast? = some '\x7d' then
      if seg = "" then none
      else
        (matchSegments pats segs).map (fun rest =>
          (String.mk (pat.data.drop 1).dropLast, seg) :: rest)
    else if pat = seg then matchSegments pats segs
    else none
  | _, _ => none

/-- A pattern matcher for patterns made of literal segments and `{name}` segments. -/
def segmentMatcher : Matcher := fun pattern path =>
  matchSegments (strings.Split pattern '/') (strings.Split path '/')

end chi

/-- Handlers that answer with their own name, to tell which one served a request. -/
def namedHandlers : network.Handlers String :=
  ⟨fun _ => "RetrieveOne", fun _ => "GetLeaderboard", fun _ => "Refresh",
    fun _ => "Authenticate", fun _ => "Registrate", fun _ => "Provide"⟩

/-- The token issued at `sampleIssued` for 10.10.10.10 under the key of `sampleEnv`. -/
def sampleToken : String :=
  "eyJhbGciOiJIUzUxMiIsInR5cCI6IkpXVCJ9." ++
  "eyJleHAiOjE2MDAwMDA5MDAsImlhdCI6MTYwMDAwMDAwMCwiaXAiOiIxMC4xMC4xMC4xMCJ9." ++
  "xsjc0T7vGJYrqeMWIlp9hmXr3T8sqFTAiONsrcrfCOSjiB6FjLVBMF4Fs0q87lxLgKGR2tName1JF8WNPx28xQ"

/-- A request from 203.0.113.7 carrying `sampleToken` and the refresh token of account 1. -/
def gatedRequest : http.Request :=
  ⟨"203.0.113.7:40000", [], [("accessToken", sampleToken), ("refreshToken", "10.0.0.1|abc")]⟩

/-- The world of a login at `sampleIssued`: the tag bcrypt, HS512 under the key of
`sampleEnv`, zero bytes from the random source. -/
def loginWorld : World where
  bcrypt := tagBcrypt
  jwt := jwt.lib hs512Prims
  Getenv := sampleEnv
  rand := zeroRand
  salt := []
  clock := fun _ => sampleIssued

/-- The world of a refresh one day later, with other bytes from the random source. -/
def refreshWorld : World where
  bcrypt := tagBcrypt
  jwt := jwt.lib hs512Prims
  Getenv := sampleEnv
  rand := fun n => .ok (List.replicate n 1)
  salt := []
  clock := fun _ => sampleIssued + 24 * time.Hour

/-- The refresh token the login of `loginWorld` issues for 10.0.0.1. -/
def issuedRefreshToken : String := "10.0.0.1|AAAAAAAAAAAAAAAAAAAAAAAAAAAAAAAAAAAAAAAAAAA="

/-- The refresh token `refreshWorld` issues for 10.0.0.1. -/
def rotatedRefreshToken : String := "10.0.0.1|AQEBAQEBAQEBAQEBAQEBAQEBAQEBAQEBAQEBAQEBAQE="

/-- The refresh request of account 1 from 10.0.0.1 presenting `issuedRefreshToken`. -/
def rotationRequest : http.Request :=
  ⟨"10.0.0.1:40404", [("id", "1")], [("refreshToken", issuedRefreshToken)]⟩

/-- The access token `loginWorld` issues for 10.0.0.1: `exp` 1600000900. -/
def issuedAccessToken : String :=
  "eyJhbGciOiJIUzUxMiIsInR5cCI6IkpXVCJ9." ++
  "eyJleHAiOjE2MDAwMDA5MDAsImlhdCI6MTYwMDAwMDAwMCwiaXAiOiIxMC4wLjAuMSJ9." ++
  "UuOdU5XeoYwJKxbGj0V98qko6cuw80ZMEvCn3P_mhvJ7JdDlpevOhTJdczw5yVuESv9RFzU9SOv1KkKHiPUZKQ"

/-- The access token `refreshWorld` issues for 10.0.0.1: `exp` 1600087300. -/
def rotatedAccessToken : String :=
  "eyJhbGciOiJIUzUxMiIsInR5cCI6IkpXVCJ9." ++
  "eyJleHAiOjE2MDAwODczMDAsImlhdCI6MTYwMDA4NjQwMCwiaXAiOiIxMC4wLjAuMSJ9." ++
  "rdDPsJxK7rAN0pvXX-dzTqPfKV_wC_0IjGdmBtaeEm5xxvvhpDADwnKwTZGC4i_0g_xDskZsYku-FwEjjZfcbQ"

/-- The answer of `Authenticate` to the login of account 1 in `loginWorld`. -/
def loginResponse : Response :=
  ⟨200, ⟨false, "Welcome back, Anna!"⟩,
    [tokenCookie "accessToken" issuedAccessToken
        (time.Add sampleIssued consts.AccessTokenExpireTime),
     tokenCookie "refreshToken" issuedRefreshToken
        (time.Add sampleIssued consts.RefreshTokenExpireTime)]⟩

/-- The store after the login of account 1 in `loginWorld`. -/
def loggedInRepo : PostgresRepository :=
  (Authenticate loginWorld ⟨sampleRepo⟩ sampleRequest (.ok sampleLogin)).svc.Repo

/-- The answer of `Refresh` to `rotationRequest` in `refreshWorld` on `loggedInRepo`. -/
def rotationResponse : Response :=
  ⟨200, ⟨false, "Tokens has been successfully refreshed"⟩,
    [tokenCookie "accessToken" rotatedAccessToken
        (time.Add (sampleIssued + 24 * time.Hour) consts.AccessTokenExpireTime),
     tokenCookie "refreshToken" rotatedRefreshToken
        (time.Add (sampleIssued + 24 * time.Hour) consts.RefreshTokenExpireTime)]⟩

/-- The request `GET /refresh/1` of account 1 from 10.0.0.1 with the two cookies of
`loginResponse`, as a client sends it to the router. -/
def routedRequest : http.Request :=
  ⟨"10.0.0.1:40404", [],
    [("accessToken", issuedAccessToken), ("refreshToken", issuedRefreshToken)]⟩

/-! ## Lemmas on splitting -/

namespace strings

theorem splitChars_ne_nil (sep : Char) (s : List Char) : splitChars sep s ≠ [] := by
  cases s with
  | nil => simp [splitChars]
  | cons c cs =>
    by_cases h : c = sep
    · simp [splitChars, h]
    · cases hs : splitChars sep cs <;> simp [splitChars, h, hs]

theorem splitChars_length (sep : Char) (s : List Char) :
    (splitChars sep s).length = s.count sep + 1 := by
  induction s with
  | nil => simp [splitChars]
  | cons c cs ih =>
    by_cases h : c = sep
    · subst h
      simp [splitChars, ih]
    · have hne : (c == sep) = false := by simpa using h
      cases hs : splitChars sep cs with
      | nil => exact absurd hs (splitChars_ne_nil sep cs)
      | cons p ps =>
        rw [hs] at ih
        simp only [splitChars, h, if_false, hs, List.count_cons, hne]
        simpa using ih

theorem splitChars_of_not_mem (sep : Char) (a : List Char) (h : sep ∉ a) :
    splitChars sep a = [a] := by
  induction a with
  | nil => simp [splitChars]
  | cons c cs ih =>
    have hc : c ≠ sep := fun e => h (by simp [e])
    have hcs : sep ∉ cs := fun e => h (by simp [e])
    simp [splitChars, hc, ih hcs]

theorem splitChars_append_sep (sep : Char) (a b : List Char) (h : sep ∉ a) :
    splitChars sep (a ++ sep :: b) = a :: splitChars sep b := by
  induction a with
  | nil => simp [splitChars]
  | cons c cs ih =>
    have hc : c ≠ sep := fun e => h (by simp [e])
    have hcs : sep ∉ cs := fun e => h (by simp [e])
    simp [splitChars, hc, ih hcs]

theorem Split_length (s : String) (sep : Char) :
    (Split s sep).length = s.data.count sep + 1 := by
  simp [Split, splitChars_length]

theorem Split_two (a b : String) (sep : Char) (ha : sep ∉ a.data) (hb : sep ∉ b.data) :
    Split (a ++ String.singleton sep ++ b) sep = [a, b] := by
  have hdata : (a ++ String.singleton sep ++ b).data = a.data ++ sep :: b.data := by
    simp [String.singleton]
  simp [Split, hdata, splitChars_append_sep sep a.data b.data ha,
    splitChars_of_not_mem sep b.data hb]

end strings

/-! ## Lemmas on base64 -/

namespace base64

theorem enc_mem (v : Nat) : enc v ∈ encodeURL := by
  have hlt : v &&& 0x3F < 64 := Nat.and_lt_two_pow v (by decide : 0x3F < 2 ^ 6)
  have hlen : encodeURL.length = 64 := by decide
  unfold enc
  rw [List.getD_eq_getElem _ _ (by omega)]
  exact List.getElem_mem _

/-- The encoder on the test vectors of RFC 4648 and on bytes that reach the two URL-safe
characters. -/
theorem Encode_rfc4648 :
    EncodeToString [] = "" ∧
    EncodeToString [102] = "Zg==" ∧
    EncodeToString [102, 111] = "Zm8=" ∧
    EncodeToString [102, 111, 111] = "Zm9v" ∧
    EncodeToString [102, 111, 111, 98] = "Zm9vYg==" ∧
    EncodeToString [102, 111, 111, 98, 97] = "Zm9vYmE=" ∧
    EncodeToString [102, 111, 111, 98, 97, 114] = "Zm9vYmFy" ∧
    EncodeToString [251, 255, 191] = "-_-_" := by
  decide

theorem Encode_length (src : List Byte) : (Encode src).length = 4 * ((src.length + 2) / 3) := by
  induction src using Encode.induct with
  | case1 b0 b1 b2 rest ih =>
    simp only [Encode, List.length_cons, ih]
    omega
  | case2 b0 b1 => simp [Encode]
  | case3 b0 => simp [Encode]
  | case4 => simp [Encode]

theorem Encode_mem (src : List Byte) (c : Char) (h : c ∈ Encode src) :
    c ∈ encodeURL ∨ c = StdPadding := by
  induction src using Encode.induct with
  | case1 b0 b1 b2 rest ih =>
    simp only [Encode, List.mem_cons] at h
    rcases h with h | h | h | h | h
    · exact Or.inl (h ▸ enc_mem _)
    · exact Or.inl (h ▸ enc_mem _)
    · exact Or.inl (h ▸ enc_mem _)
    · exact Or.inl (h ▸ enc_mem _)
    · exact ih h
  | case2 b0 b1 =>
    simp only [Encode, List.mem_cons, List.not_mem_nil, or_false] at h
    rcases h with h | h | h | h
    · exact Or.inl (h ▸ enc_mem _)
    · exact Or.inl (h ▸ enc_mem _)
    · exact Or.inl (h ▸ enc_mem _)
    · exact Or.inr h
  | case3 b0 =>
    simp only [Encode, List.mem_cons, List.not_mem_nil, or_false] at h
    rcases h with h | h | h | h
    · exact Or.inl (h ▸ enc_mem _)
    · exact Or.inl (h ▸ enc_mem _)
    · exact Or.inr h
    · exact Or.inr h
  | case4 => simp [Encode] at h

theorem Encode_padded (src : List Byte) (h : src.length % 3 = 2) :
    ∃ body : List Char, Encode src = body ++ [StdPadding] ∧ ∀ c ∈ body, c ∈ encodeURL := by
  induction src using Encode.induct with
  | case1 b0 b1 b2 rest ih =>
    obtain ⟨body, hbody, hmem⟩ := ih (by simp only [List.length_cons] at h; omega)
    refine ⟨enc ((b0.val <<< 16 ||| b1.val <<< 8 ||| b2.val) >>> 18) ::
      enc ((b0.val <<< 16 ||| b1.val <<< 8 ||| b2.val) >>> 12) ::
      enc ((b0.val <<< 16 ||| b1.val <<< 8 ||| b2.val) >>> 6) ::
      enc (b0.val <<< 16 ||| b1.val <<< 8 ||| b2.val) :: body, ?_, ?_⟩
    · simp [Encode, hbody]
    · intro c hc
      simp only [List.mem_cons] at hc
      rcases hc with hc | hc | hc | hc | hc
      · exact hc ▸ enc_mem _
      · exact hc ▸ enc_mem _
      · exact hc ▸ enc_mem _
      · exact hc ▸ enc_mem _
      · exact hmem c hc
  | case2 b0 b1 =>
    refine ⟨[enc ((b0.val <<< 16 ||| b1.val <<< 8) >>> 18),
      enc ((b0.val <<< 16 ||| b1.val <<< 8) >>> 12),
      enc ((b0.val <<< 16 ||| b1.val <<< 8) >>> 6)], ?_, ?_⟩
    · simp [Encode]
    · intro c hc
      simp only [List.mem_cons, List.not_mem_nil, or_false] at hc
      rcases hc with hc | hc | hc
      · exact hc ▸ enc_mem _
      · exact hc ▸ enc_mem _
      · exact hc ▸ enc_mem _
  | case3 b0 => simp at h
  | case4 => simp at h

theorem bar_not_mem_Encode (src : List Byte) : '|' ∉ Encode src := by
  intro h
  rcases Encode_mem src _ h with h | h
  · revert h
    decide
  · revert h
    decide

theorem EncodeToString_length (src : List Byte) (h : src.length = 32) :
    (EncodeToString src).length = 44 := by
  simp [EncodeToString, String.length, Encode_length, h]

end base64
/-! ## Lemmas on the repository and on token generation -/

namespace PostgresRepository

theorem validate_of_parts (bc : Bcrypt) (u : PostgresRepository) (now : Time)
    (rawToken clientIP suffix : String) (id : Int)
    (hparts : strings.Split rawToken '|' = [clientIP, suffix]) :
    ValidateRefreshToken bc u now rawToken clientIP id =
      (let scanned := (u.queryRowRefreshToken id).Scan2 "" time.zero
       if (match scanned.2.2 with
          | some e => errors.Is e sql.ErrNoRows
          | none => false) then
        ⟨false, some errormsg.ErrUserNotFound, [.selectRefreshToken], none⟩
       else if time.After now scanned.2.1 then
        ⟨false, some errormsg.ErrTokenExpired, [.selectRefreshToken], none⟩
       else
        match bc.CompareHashAndPassword scanned.1 rawToken with
        | some _ => ⟨false, some errormsg.ErrCompareHash, [.selectRefreshToken], none⟩
        | none => ⟨true, none, [.selectRefreshToken], none⟩) := by
  simp [ValidateRefreshToken, hparts, consts.TokenParts]

theorem scan_of_credential (u : PostgresRepository) (id : Int) (row : MedodsRow)
    (hashedToken : String) (expiresAt : Time)
    (hfault : u.Conn.fault .selectRefreshToken = none)
    (hlive : u.Conn.cancelled .selectRefreshToken = false) (hrow : u.find id = some row)
    (hhash : row.refresh_token = some hashedToken)
    (hexp : row.refresh_token_expires = some expiresAt) :
    (u.queryRowRefreshToken id).Scan2 "" time.zero = (hashedToken, expiresAt, none) := by
  simp [queryRowRefreshToken, queryRow, hfault, hlive, hrow, sql.Row.Scan2, hhash, hexp,
    sql.assignString, sql.assignTime]

/-- An answered credential query whose scan sees the cancelled context: the scan reports
`context.Canceled` and assigns nothing. -/
theorem scan_of_cancelled (u : PostgresRepository) (id : Int)
    (hfault : u.Conn.fault .selectRefreshToken = none)
    (hseen : u.Conn.cancelled .selectRefreshToken = true) :
    (u.queryRowRefreshToken id).Scan2 "" time.zero = ("", time.zero, some context.Canceled) := by
  simp [queryRowRefreshToken, queryRow, hfault, hseen, sql.Row.Scan2]

/-- A two-part token with the client's IP, presented when the scan of the credential query
sees the cancelled context: the call ends in `ErrTokenExpired` at every time after the
zero time, whatever the table holds. -/
theorem validate_of_cancelled (bc : Bcrypt) (u : PostgresRepository) (now : Time)
    (rawToken clientIP suffix : String) (id : Int)
    (hparts : strings.Split rawToken '|' = [clientIP, suffix])
    (hfault : u.Conn.fault .selectRefreshToken = none)
    (hseen : u.Conn.cancelled .selectRefreshToken = true)
    (hclock : time.zero < now) :
    ValidateRefreshToken bc u now rawToken clientIP id =
      ⟨false, some errormsg.ErrTokenExpired, [.selectRefreshToken], none⟩ := by
  rw [validate_of_parts bc u now rawToken clientIP suffix id hparts,
    scan_of_cancelled u id hfault hseen]
  have hcanceled : errors.Is context.Canceled sql.ErrNoRows = false := by decide
  simp [hcanceled, time.After, hclock]

end PostgresRepository

theorem PostgresRepository.validate_ok (bc : Bcrypt) (u : PostgresRepository) (now : Time)
    (rawToken clientIP : String) (id : Int)
    (hclock : time.zero < now)
    (hok : (u.ValidateRefreshToken bc now rawToken clientIP id).ok = true) :
    (u.ValidateRefreshToken bc now rawToken clientIP id).err = none ∧
    ∃ suffix hashedToken expiresAt row,
      strings.Split rawToken '|' = [clientIP, suffix] ∧
      u.Conn.fault .selectRefreshToken = none ∧
      u.Conn.cancelled .selectRefreshToken = false ∧
      u.find id = some row ∧
      row.refresh_token = some hashedToken ∧
      row.refresh_token_expires = some expiresAt ∧
      now ≤ expiresAt ∧
      bc.CompareHashAndPassword hashedToken rawToken = none := by
  have hcanceled : errors.Is context.Canceled sql.ErrNoRows = false := by decide
  have hlen : (strings.Split rawToken '|').length = 2 := by
    by_contra hne
    simp [PostgresRepository.ValidateRefreshToken, consts.TokenParts, hne] at hok
  obtain ⟨tokenIP, suffix, hparts⟩ : ∃ a b, strings.Split rawToken '|' = [a, b] := by
    match hs : strings.Split rawToken '|', hlen with
    | [a, b], _ => exact ⟨a, b, rfl⟩
  have hip : tokenIP = clientIP := by
    by_contra hne
    simp [PostgresRepository.ValidateRefreshToken, consts.TokenParts, hparts, hne] at hok
  subst hip
  rw [PostgresRepository.validate_of_parts bc u now rawToken tokenIP suffix id hparts] at hok ⊢
  cases hfault : u.Conn.fault .selectRefreshToken with
  | some e =>
    simp [PostgresRepository.queryRowRefreshToken, PostgresRepository.queryRow, hfault,
      sql.Row.Scan2, time.After, hclock] at hok
    split at hok <;> simp at hok
  | none =>
    cases hlive : u.Conn.cancelled .selectRefreshToken with
    | true =>
      rw [PostgresRepository.scan_of_cancelled u id hfault hlive] at hok
      simp [hcanceled, time.After, hclock] at hok
    | false =>
      cases hrow : u.find id with
      | none =>
        simp [PostgresRepository.queryRowRefreshToken, PostgresRepository.queryRow, hfault,
          hlive, hrow, sql.Row.Scan2, errors.Is, sql.ErrNoRows] at hok
      | some row =>
        cases hhash : row.refresh_token with
        | none =>
          simp [PostgresRepository.queryRowRefreshToken, PostgresRepository.queryRow, hfault,
            hlive, hrow, sql.Row.Scan2, sql.assignString, hhash, errors.Is, sql.ErrNoRows,
            time.After, hclock] at hok
        | some hashedToken =>
          cases hexp : row.refresh_token_expires with
          | none =>
            simp [PostgresRepository.queryRowRefreshToken, PostgresRepository.queryRow, hfault,
              hlive, hrow, sql.Row.Scan2, sql.assignString, sql.assignTime, hhash, hexp,
              errors.Is, sql.ErrNoRows, time.After, hclock] at hok
          | some expiresAt =>
            rw [PostgresRepository.scan_of_credential u id row hashedToken expiresAt hfault
              hlive hrow hhash hexp] at hok ⊢
            simp only [Bool.false_eq_true, if_false] at hok ⊢
            by_cases hafter : time.After now expiresAt = true
            · simp [hafter] at hok
            · cases hcmp : bc.CompareHashAndPassword hashedToken rawToken with
              | some e => simp [hafter, hcmp] at hok
              | none =>
                refine ⟨by simp [hafter, hcmp], suffix, hashedToken, expiresAt, row, hparts,
                  ?_, ?_, ?_, hhash, hexp, ?_, hcmp⟩
                · trivial
                · trivial
                · trivial
                · simpa [time.After] using hafter

theorem PostgresRepository.find_execUpdateRefreshToken (u : PostgresRepository)
    (hashedToken : String) (expires : Time) (id : Int)
    (hfault : u.Conn.fault .updateRefreshToken = none) :
    (u.execUpdateRefreshToken hashedToken expires id).2 = none ∧
    (u.execUpdateRefreshToken hashedToken expires id).1.find id =
      (u.find id).map (fun r =>
        { r with refresh_token := some hashedToken, refresh_token_expires := some expires }) := by
  unfold PostgresRepository.execUpdateRefreshToken
  simp only [hfault, PostgresRepository.find, true_and]
  induction u.Conn.medods with
  | nil => simp
  | cons r rs ih =>
    by_cases h : r.id = id
    · simp [List.find?, h]
    · simp [List.find?, h, ih]

theorem PostgresRepository.update_ok (bc : Bcrypt) (salt : List Byte) (u u' : PostgresRepository)
    (now : Time) (id : Int) (rawToken : String)
    (h : u.UpdateRefreshToken bc salt now id rawToken = (u', none)) :
    ∃ hashedToken, bc.GenerateFromPassword rawToken Bcrypt.DefaultCost salt = .ok hashedToken ∧
      u'.find id = (u.find id).map (fun r =>
        { r with refresh_token := some hashedToken,
                 refresh_token_expires := some (time.Add now consts.RefreshTokenExpireTime) }) := by
  unfold PostgresRepository.UpdateRefreshToken HashRefreshToken at h
  cases hgen : bc.GenerateFromPassword rawToken Bcrypt.DefaultCost salt with
  | error e => simp [hgen] at h
  | ok hashedToken =>
    simp only [hgen] at h
    cases hfault : u.Conn.fault .updateRefreshToken with
    | some e => simp [PostgresRepository.execUpdateRefreshToken, hfault] at h
    | none =>
      have hfind := (PostgresRepository.find_execUpdateRefreshToken u hashedToken
        (time.Add now consts.RefreshTokenExpireTime) id hfault).2
      rw [h] at hfind
      exact ⟨hashedToken, rfl, hfind⟩

theorem PostgresRepository.store_ok (bc : Bcrypt) (salt : List Byte) (u u' : PostgresRepository)
    (now : Time) (id : Int) (rawToken : String)
    (h : u.StoreRefreshToken bc salt now id rawToken = (u', none)) :
    ∃ hashedToken, bc.GenerateFromPassword rawToken Bcrypt.DefaultCost salt = .ok hashedToken ∧
      u'.find id = (u.find id).map (fun r =>
        { r with refresh_token := some hashedToken,
                 refresh_token_expires := some (time.Add now consts.RefreshTokenExpireTime) }) :=
  PostgresRepository.update_ok bc salt u u' now id rawToken h

theorem GenerateRefreshToken_split (rand : RandRead) (clientIP rawValue : String)
    (hip : '|' ∉ clientIP.data)
    (hgen : GenerateRefreshToken rand clientIP = .ok rawValue) :
    ∃ b : List Byte, rand consts.RefreshTokenLength = .ok b ∧
      strings.Split rawValue '|' = [clientIP, base64.EncodeToString b] := by
  unfold GenerateRefreshToken at hgen
  cases hrand : rand consts.RefreshTokenLength with
  | error e => simp [hrand] at hgen
  | ok b =>
    simp only [hrand, Except.ok.injEq] at hgen
    subst hgen
    exact ⟨b, rfl, strings.Split_two clientIP (base64.EncodeToString b) '|' hip
      (base64.bar_not_mem_Encode b)⟩

theorem tagBcrypt_correct : tagBcrypt.Correct := by
  intro password cost salt hash h
  simp only [tagBcrypt, Except.ok.injEq] at h
  simp [tagBcrypt, h]

theorem tagBcrypt_accepts_only (password other hash : String) (cost : Nat) (salt : List Byte)
    (h : tagBcrypt.GenerateFromPassword password cost salt = .ok hash)
    (hcmp : tagBcrypt.CompareHashAndPassword hash other = none) : other = password := by
  simp only [tagBcrypt, Except.ok.injEq] at h
  subst h
  simp only [tagBcrypt, ite_eq_left_iff, reduceCtorEq, imp_false, not_not] at hcmp
  have hdata := congrArg String.data hcmp
  simp only [String.data_append, List.append_cancel_left_eq] at hdata
  exact (String.ext hdata).symm

theorem tagBcrypt_keyBinding : tagBcrypt.KeyBinding := by
  intro password cost salt hash other h hkey
  cases hcmp : tagBcrypt.CompareHashAndPassword hash other with
  | none =>
    have := tagBcrypt_accepts_only password other hash cost salt h hcmp
    exact absurd (by rw [this]) hkey
  | some e =>
    simp only [tagBcrypt] at hcmp
    split at hcmp
    · cases hcmp
    · simp only [Option.some.injEq] at hcmp
      rw [← hcmp]
      rfl

namespace base64

theorem and_0x3F (x : Nat) : x &&& 0x3F = x % 64 := Nat.and_pow_two_sub_one_eq_mod x 6

theorem or_eq_add (x b k a : Nat) (hx : x = 2 ^ k * a) (hb : b < 2 ^ k) : x ||| b = x + b := by
  subst hx
  exact (Nat.mul_add_lt_is_or hb a).symm

theorem val3 (b0 b1 b2 : Nat) (h1 : b1 < 256) (h2 : b2 < 256) :
    (b0 <<< 16) ||| (b1 <<< 8) ||| b2 = b0 * 65536 + b1 * 256 + b2 := by
  simp only [Nat.shiftLeft_eq]
  norm_num
  rw [or_eq_add (b0 * 65536) (b1 * 256) 16 b0 (by omega) (by omega),
    or_eq_add (b0 * 65536 + b1 * 256) b2 8 (b0 * 256 + b1) (by omega) (by omega)]

theorem val4 (d0 d1 d2 d3 : Nat) (h1 : d1 < 64) (h2 : d2 < 64) (h3 : d3 < 64) :
    (d0 <<< 18) ||| (d1 <<< 12) ||| (d2 <<< 6) ||| d3 =
      d0 * 262144 + d1 * 4096 + d2 * 64 + d3 := by
  simp only [Nat.shiftLeft_eq]
  norm_num
  rw [or_eq_add (d0 * 262144) (d1 * 4096) 18 d0 (by omega) (by omega),
    or_eq_add (d0 * 262144 + d1 * 4096) (d2 * 64) 12 (d0 * 64 + d1) (by omega) (by omega),
    or_eq_add (d0 * 262144 + d1 * 4096 + d2 * 64) d3 6 (d0 * 4096 + d1 * 64 + d2) (by omega)
      (by omega)]

theorem decodeQuads_sextets (src : List Byte) : decodeQuads (sextets src) = src := by
  induction src using sextets.induct with
  | case1 b0 b1 b2 rest ih =>
    have h0 := b0.isLt
    have h1 := b1.isLt
    have h2 := b2.isLt
    simp only [sextets, decodeQuads, ih, and_0x3F]
    rw [val3 b0.val b1.val b2.val h1 h2]
    rw [val4 _ _ _ _ (Nat.mod_lt _ (by decide)) (Nat.mod_lt _ (by decide))
      (Nat.mod_lt _ (by decide))]
    simp only [Nat.shiftRight_eq_div_pow]
    norm_num
    refine ⟨?_, ?_, ?_⟩ <;> (apply Fin.ext; simp only [Fin.ofNat, Fin.val_mk]; omega)
  | case2 b0 b1 =>
    have h0 := b0.isLt
    have h1 := b1.isLt
    simp only [sextets, decodeQuads, and_0x3F, Nat.shiftLeft_eq, Nat.shiftRight_eq_div_pow]
    norm_num
    rw [or_eq_add (b0.val * 65536) (b1.val * 256) 16 b0.val (by omega) (by omega)]
    rw [or_eq_add ((b0.val * 65536 + b1.val * 256) / 262144 % 64 * 262144)
        ((b0.val * 65536 + b1.val * 256) / 4096 % 64 * 4096) 18
        ((b0.val * 65536 + b1.val * 256) / 262144 % 64) (by omega) (by omega),
      or_eq_add _ ((b0.val * 65536 + b1.val * 256) / 64 % 64 * 64) 12
        ((b0.val * 65536 + b1.val * 256) / 262144 % 64 * 64 +
          (b0.val * 65536 + b1.val * 256) / 4096 % 64) (by omega) (by omega)]
    refine ⟨?_, ?_⟩ <;> (apply Fin.ext; simp only [Fin.ofNat, Fin.val_mk]; omega)
  | case3 b0 =>
    have h0 := b0.isLt
    simp only [sextets, decodeQuads, and_0x3F, Nat.shiftLeft_eq, Nat.shiftRight_eq_div_pow]
    norm_num
    rw [or_eq_add (b0.val * 65536 / 262144 % 64 * 262144)
        (b0.val * 65536 / 4096 % 64 * 4096) 18
        (b0.val * 65536 / 262144 % 64) (by omega) (by omega)]
    apply Fin.ext
    simp only [Fin.ofNat, Fin.val_mk]
    omega
  | case4 => simp [sextets, decodeQuads]

end base64

namespace base64

/-- The character of the alphabet at an index. -/
theorem alphabet_facts : ∀ i : Fin 64,
    decodeChar (encodeURL.getD i.val 'A') = some i.val ∧
    encodeURL.getD i.val 'A' ≠ StdPadding ∧
    encodeURL.getD i.val 'A' ≠ '.' ∧
    encodeURL.getD i.val 'A' ≠ '\r' ∧
    encodeURL.getD i.val 'A' ≠ '\n' ∧
    unicode.IsSpace (encodeURL.getD i.val 'A') = false ∧
    (encodeURL.getD i.val 'A').utf8Size = 1 := by
  decide

theorem sextets_lt (src : List Byte) : ∀ i ∈ sextets src, i < 64 := by
  induction src using sextets.induct with
  | case1 b0 b1 b2 rest ih =>
    intro i hi
    simp only [sextets, List.mem_cons, and_0x3F] at hi
    rcases hi with hi | hi | hi | hi | hi
    · omega
    · omega
    · omega
    · omega
    · exact ih i hi
  | case2 b0 b1 =>
    intro i hi
    simp only [sextets, List.mem_cons, List.not_mem_nil, or_false, and_0x3F] at hi
    rcases hi with hi | hi | hi <;> omega
  | case3 b0 =>
    intro i hi
    simp only [sextets, List.mem_cons, List.not_mem_nil, or_false, and_0x3F] at hi
    rcases hi with hi | hi <;> omega
  | case4 => simp [sextets]

theorem sextets_length (src : List Byte) :
    (sextets src).length =
      4 * (src.length / 3) + (if src.length % 3 = 0 then 0 else src.length % 3 + 1) := by
  induction src using sextets.induct with
  | case1 b0 b1 b2 rest ih =>
    have h3 : (rest.length + 1 + 1 + 1) / 3 = rest.length / 3 + 1 := by omega
    have h4 : (rest.length + 1 + 1 + 1) % 3 = rest.length % 3 := by omega
    simp only [sextets, List.length_cons, ih, h3, h4]
    omega
  | case2 b0 b1 => simp [sextets]
  | case3 b0 => simp [sextets]
  | case4 => simp [sextets]

theorem Encode_eq_sextets (src : List Byte) :
    Encode src = (sextets src).map (fun i => encodeURL.getD i 'A') ++
      List.replicate ((3 - src.length % 3) % 3) StdPadding := by
  induction src using Encode.induct with
  | case1 b0 b1 b2 rest ih =>
    have h4 : (rest.length + 1 + 1 + 1) % 3 = rest.length % 3 := by omega
    simp only [Encode, sextets, enc, ih, List.map_cons, List.cons_append, List.length_cons, h4]
  | case2 b0 b1 => simp [Encode, sextets, enc, List.replicate]
  | case3 b0 => simp [Encode, sextets, enc, List.replicate]
  | case4 => simp [Encode, sextets]

end base64

namespace base64

theorem body_facts (idxs : List Nat) (h : ∀ i ∈ idxs, i < 64) (c : Char)
    (hc : c ∈ idxs.map (fun i => encodeURL.getD i 'A')) :
    c ≠ StdPadding ∧ c ≠ '.' ∧ c ≠ '\r' ∧ c ≠ '\n' ∧ unicode.IsSpace c = false ∧
      c.utf8Size = 1 := by
  obtain ⟨i, hi, rfl⟩ := List.mem_map.mp hc
  have := alphabet_facts ⟨i, h i hi⟩
  exact this.2

theorem mapM_decodeChar (idxs : List Nat) (h : ∀ i ∈ idxs, i < 64) :
    (idxs.map (fun i => encodeURL.getD i 'A')).mapM decodeChar = some idxs := by
  induction idxs with
  | nil => rfl
  | cons i rest ih =>
    have hi := (alphabet_facts ⟨i, h i (by simp)⟩).1
    have hrest := ih (fun j hj => h j (by simp [hj]))
    simp only [List.map_cons, List.mapM_cons, hrest] at hi ⊢
    rw [hi]
    rfl

theorem utf8ByteSize_body (idxs : List Nat) (h : ∀ i ∈ idxs, i < 64) :
    (String.mk (idxs.map (fun i => encodeURL.getD i 'A'))).utf8ByteSize = idxs.length := by
  simp only [String.utf8ByteSize]
  induction idxs with
  | nil => rfl
  | cons i rest ih =>
    have hi := (alphabet_facts ⟨i, h i (by simp)⟩).2.2.2.2.2.2
    have hrest := ih (fun j hj => h j (by simp [hj]))
    simp only [List.map_cons, String.utf8ByteSize.go, hrest, List.length_cons] at hi ⊢
    rw [hi]

theorem TrimRight_body (idxs : List Nat) (h : ∀ i ∈ idxs, i < 64) (k : Nat) :
    strings.TrimRight
        (String.mk (idxs.map (fun i => encodeURL.getD i 'A') ++ List.replicate k StdPadding))
        StdPadding =
      String.mk (idxs.map (fun i => encodeURL.getD i 'A')) := by
  unfold strings.TrimRight
  congr 1
  simp only [List.reverse_append, List.reverse_replicate]
  rw [List.dropWhile_append_of_pos (by
    intro a ha
    simp [List.eq_of_mem_replicate ha])]
  have hself : List.dropWhile (fun c => decide (c = StdPadding))
      (idxs.map (fun i => encodeURL.getD i 'A')).reverse =
      (idxs.map (fun i => encodeURL.getD i 'A')).reverse := by
    rw [List.dropWhile_eq_self_iff]
    intro hl
    have hmem : (idxs.map (fun i => encodeURL.getD i 'A')).reverse.get ⟨0, hl⟩ ∈
        idxs.map (fun i => encodeURL.getD i 'A') :=
      List.mem_reverse.mp (List.get_mem _ _ _)
    simpa using (body_facts idxs h _ hmem).1
  rw [hself, List.reverse_reverse]

theorem DecodeString_body (idxs : List Nat) (h : ∀ i ∈ idxs, i < 64) (k : Nat) (hk : k ≤ 2)
    (hlen : (idxs.length + k) % 4 = 0) :
    DecodeString
        (String.mk (idxs.map (fun i => encodeURL.getD i 'A') ++ List.replicate k StdPadding)) =
      some (decodeQuads idxs) := by
  have hbody := body_facts idxs h
  have hfilter : List.filter (fun c => !(decide (c = '\r') || decide (c = '\n')))
      (idxs.map (fun i => encodeURL.getD i 'A') ++ List.replicate k StdPadding) =
      idxs.map (fun i => encodeURL.getD i 'A') ++ List.replicate k StdPadding := by
    rw [List.filter_eq_self]
    intro a ha
    rcases List.mem_append.mp ha with ha | ha
    · have := hbody a ha
      simp [this.2.2.1, this.2.2.2.1]
    · rw [List.eq_of_mem_replicate ha]
      decide
  have hpos : ∀ a ∈ idxs.map (fun i => encodeURL.getD i 'A'),
      (fun c => !decide (c = StdPadding)) a = true := by
    intro a ha
    simpa using (hbody a ha).1
  unfold DecodeString
  simp only [hfilter, List.takeWhile_append_of_pos hpos, List.dropWhile_append_of_pos hpos,
    List.takeWhile_replicate, List.dropWhile_replicate, decide_True, Bool.not_true,
    Bool.false_eq_true, if_false, List.append_nil, List.length_append, List.length_map,
    List.length_replicate, mapM_decodeChar idxs h]
  have hany : (List.replicate k StdPadding).any (fun c => !decide (c = StdPadding)) = false := by
    rw [List.any_eq_false]
    intro a ha
    simp [List.eq_of_mem_replicate ha]
  simp [hlen, hany, Nat.not_lt.mpr hk]

end base64

namespace jwt

theorem EncodeSegment_data (src : List Byte) :
    EncodeSegment src =
      String.mk ((base64.sextets src).map (fun i => base64.encodeURL.getD i 'A')) := by
  unfold EncodeSegment base64.EncodeToString
  rw [base64.Encode_eq_sextets]
  exact base64.TrimRight_body _ (base64.sextets_lt src) _

theorem DecodeSegment_body (idxs : List Nat) (h : ∀ i ∈ idxs, i < 64)
    (hlen : idxs.length % 4 ≠ 1) :
    DecodeSegment (String.mk (idxs.map (fun i => base64.encodeURL.getD i 'A'))) =
      some (base64.decodeQuads idxs) := by
  unfold DecodeSegment
  simp only [base64.utf8ByteSize_body idxs h]
  by_cases h0 : idxs.length % 4 = 0
  · simp only [h0, gt_iff_lt, lt_self_iff_false, if_false]
    have := base64.DecodeString_body idxs h 0 (by omega) (by omega)
    simpa using this
  · have hpos : idxs.length % 4 > 0 := by omega
    simp only [hpos, if_true]
    have := base64.DecodeString_body idxs h (4 - idxs.length % 4) (by omega) (by omega)
    simpa [String.ext_iff] using this

theorem DecodeSegment_EncodeSegment (src : List Byte) :
    DecodeSegment (EncodeSegment src) = some src := by
  rw [EncodeSegment_data, DecodeSegment_body _ (base64.sextets_lt src), base64.decodeQuads_sextets]
  rw [base64.sextets_length]
  split <;> omega

end jwt

/-! ## Lemmas on the key material of refresh tokens -/

namespace base64

end base64

namespace Bcrypt

end Bcrypt

/-! ## Lemmas on the rotation of refresh tokens -/

theorem GenerateTokens_ok_iff (jwt : JwtLib) (getenv : String → String) (rand : RandRead)
    (nowExp nowIat : Time) (clientIP accessToken refreshToken : String) :
    GenerateTokens jwt getenv rand nowExp nowIat clientIP = .ok (accessToken, refreshToken) ↔
      jwt.SignedString "HS512" (accessClaims nowExp nowIat clientIP) (getenv "SECRET_KEY") =
        .ok accessToken ∧
      GenerateRefreshToken rand clientIP = .ok refreshToken := by
  unfold GenerateTokens GenerateAccessToken accessClaims
  cases hs : jwt.SignedString "HS512"
      [("exp", .num (time.Unix (time.Add nowExp consts.AccessTokenExpireTime))),
       ("iat", .num (time.Unix nowIat)), ("ip", .str clientIP)] (getenv "SECRET_KEY") with
  | error e => simp [hs]
  | ok a =>
    cases hr : GenerateRefreshToken rand clientIP with
    | error e => simp [hs, hr]
    | ok t => simp [hs, hr]

/-- C1: IP pinning. A raw refresh token that splits on "|" into exactly two parts whose
first part differs from the client IP is rejected with `(false, ErrInvalidIP)`, whatever
the account id, the bcrypt outcome, the clock and the store (rows and transport faults,
hence also whatever becomes of the e-mail lookup made for the warning). -/
theorem ValidateRefreshToken_ip_mismatch (bc : Bcrypt) (u : PostgresRepository) (now : Time)
    (rawToken clientIP : String) (id : Int) (tokenIP suffix : String)
    (hparts : strings.Split rawToken '|' = [tokenIP, suffix])
    (hip : tokenIP ≠ clientIP) :
    (u.ValidateRefreshToken bc now rawToken clientIP id).ok = false ∧
    (u.ValidateRefreshToken bc now rawToken clientIP id).err = some errormsg.ErrInvalidIP := by
  simp [PostgresRepository.ValidateRefreshToken, hparts, consts.TokenParts, hip]

theorem ValidateRefreshToken_ip_mismatch_witness :
    (sampleRepo.ValidateRefreshToken tagBcrypt (1600000000 * time.Second)
        "10.0.0.1|abc" "10.0.0.2" 1).ok = false ∧
    (sampleRepo.ValidateRefreshToken tagBcrypt (1600000000 * time.Second)
        "10.0.0.1|abc" "10.0.0.2" 1).err = some errormsg.ErrInvalidIP :=
  ValidateRefreshToken_ip_mismatch tagBcrypt sampleRepo (1600000000 * time.Second)
    "10.0.0.1|abc" "10.0.0.2" 1 "10.0.0.1" "abc" (by decide) (by decide)

/-- C2: malformed refresh token. The split on "|" has a number of parts other than two
exactly when the token does not hold exactly one "|" (none, or more than one); every such
token is rejected with `(false, ErrInvalidRefreshToken)` and no statement is sent to the
store. -/
theorem ValidateRefreshToken_malformed (bc : Bcrypt) (u : PostgresRepository) (now : Time)
    (rawToken clientIP : String) (id : Int) :
    ((strings.Split rawToken '|').length ≠ 2 ↔ rawToken.data.count '|' ≠ 1) ∧
    ((strings.Split rawToken '|').length ≠ 2 →
      (u.ValidateRefreshToken bc now rawToken clientIP id).ok = false ∧
      (u.ValidateRefreshToken bc now rawToken clientIP id).err =
        some errormsg.ErrInvalidRefreshToken ∧
      (u.ValidateRefreshToken bc now rawToken clientIP id).queries = []) := by
  refine ⟨?_, ?_⟩
  · rw [strings.Split_length]
    omega
  · intro h
    simp [PostgresRepository.ValidateRefreshToken, consts.TokenParts, h]

theorem ValidateRefreshToken_malformed_witness :
    (sampleRepo.ValidateRefreshToken tagBcrypt (1600000000 * time.Second)
        "10.0.0.1|abc|def" "10.0.0.1" 1).ok = false ∧
    (sampleRepo.ValidateRefreshToken tagBcrypt (1600000000 * time.Second)
        "10.0.0.1|abc|def" "10.0.0.1" 1).err = some errormsg.ErrInvalidRefreshToken ∧
    (sampleRepo.ValidateRefreshToken tagBcrypt (1600000000 * time.Second)
        "10.0.0.1|abc|def" "10.0.0.1" 1).queries = [] :=
  (ValidateRefreshToken_malformed tagBcrypt sampleRepo (1600000000 * time.Second)
    "10.0.0.1|abc|def" "10.0.0.1" 1).2 (by decide)

/-- C3: soundness of `ValidateRefreshToken`. With a clock that reads later than the zero
`time.Time`, whenever the call returns true: the error is nil, the token has exactly two
"|"-separated parts, the first is the client IP, the credential query was answered and
scanned before the cancellation of its context was seen, with a row of the account holding
a hash and an expiry (so the lookup did not fail), the clock is not after that expiry, and
bcrypt accepted the raw token against that hash. -/
theorem ValidateRefreshToken_sound (bc : Bcrypt) (u : PostgresRepository) (now : Time)
    (rawToken clientIP : String) (id : Int)
    (hclock : time.zero < now)
    (hok : (u.ValidateRefreshToken bc now rawToken clientIP id).ok = true) :
    (u.ValidateRefreshToken bc now rawToken clientIP id).err = none ∧
    ∃ suffix hashedToken expiresAt row,
      strings.Split rawToken '|' = [clientIP, suffix] ∧
      u.Conn.fault .selectRefreshToken = none ∧
      u.Conn.cancelled .selectRefreshToken = false ∧
      u.find id = some row ∧
      row.refresh_token = some hashedToken ∧
      row.refresh_token_expires = some expiresAt ∧
      now ≤ expiresAt ∧
      bc.CompareHashAndPassword hashedToken rawToken = none :=
  PostgresRepository.validate_ok bc u now rawToken clientIP id hclock hok

theorem ValidateRefreshToken_sound_witness :
    (sampleRepo.ValidateRefreshToken tagBcrypt (1600000000 * time.Second)
        "10.0.0.1|abc" "10.0.0.1" 1).err = none ∧
    ∃ suffix hashedToken expiresAt row,
      strings.Split "10.0.0.1|abc" '|' = ["10.0.0.1", suffix] ∧
      sampleRepo.Conn.fault .selectRefreshToken = none ∧
      sampleRepo.Conn.cancelled .selectRefreshToken = false ∧
      sampleRepo.find 1 = some row ∧
      row.refresh_token = some hashedToken ∧
      row.refresh_token_expires = some expiresAt ∧
      1600000000 * time.Second ≤ expiresAt ∧
      tagBcrypt.CompareHashAndPassword hashedToken "10.0.0.1|abc" = none :=
  ValidateRefreshToken_sound tagBcrypt sampleRepo (1600000000 * time.Second)
    "10.0.0.1|abc" "10.0.0.1" 1 (by decide) (by decide)

/-- C4 (defect in the code): a stored refresh token presented inside its TTL is refused
when the scan of the credential row sees the cancelled context. Let bcrypt be correct,
`ip` contain no "|", `T` be returned by `GenerateRefreshToken ip`, and
`StoreRefreshToken id T` run at time `t0`, after the zero time, without error on a store
that has the account; let `v` be a store that still holds that credential for the account
and answers the credential query. `queryRow` cancels the context of the query before
`ValidateRefreshToken` scans the row. When the scan sees the cancellation,
`ValidateRefreshToken T ip id` evaluated at `t0 + 29 days`, and at every time after the
zero time, returns `(false, ErrTokenExpired)`, although the credential is stored, matches
and has not expired. Only when the scan comes first is the result `(true, nil)`, at
`t0 + 29 days` and at every time up to `t0 + 30 days`. -/
theorem ValidateRefreshToken_inside_ttl (bc : Bcrypt) (rand : RandRead)
    (salt : List Byte) (u u' v : PostgresRepository) (t0 : Time) (id : Int) (ip T : String)
    (hbc : bc.Correct)
    (hip : '|' ∉ ip.data)
    (hgen : GenerateRefreshToken rand ip = .ok T)
    (haccount : (u.find id).isSome = true)
    (hstore : u.StoreRefreshToken bc salt t0 id T = (u', none))
    (hkept : v.find id = u'.find id)
    (hfault : v.Conn.fault .selectRefreshToken = none)
    (hclock : time.zero < t0) :
    (v.Conn.cancelled .selectRefreshToken = true →
      v.ValidateRefreshToken bc (t0 + 29 * 24 * time.Hour) T ip id =
        ⟨false, some errormsg.ErrTokenExpired, [.selectRefreshToken], none⟩ ∧
      ∀ now : Time, time.zero < now →
        v.ValidateRefreshToken bc now T ip id =
          ⟨false, some errormsg.ErrTokenExpired, [.selectRefreshToken], none⟩) ∧
    (v.Conn.cancelled .selectRefreshToken = false →
      v.ValidateRefreshToken bc (t0 + 29 * 24 * time.Hour) T ip id =
        ⟨true, none, [.selectRefreshToken], none⟩ ∧
      ∀ now : Time, now ≤ t0 + consts.RefreshTokenExpireTime →
        v.ValidateRefreshToken bc now T ip id = ⟨true, none, [.selectRefreshToken], none⟩) := by
  obtain ⟨b, _, hparts⟩ := GenerateRefreshToken_split rand ip T hip hgen
  refine ⟨?_, ?_⟩
  · intro hseen
    have hall : ∀ now : Time, time.zero < now →
        v.ValidateRefreshToken bc now T ip id =
          ⟨false, some errormsg.ErrTokenExpired, [.selectRefreshToken], none⟩ :=
      fun now hnow => PostgresRepository.validate_of_cancelled bc v now T ip
        (base64.EncodeToString b) id hparts hfault hseen hnow
    refine ⟨hall _ ?_, hall⟩
    have h29 : (0 : Int) ≤ 29 * 24 * time.Hour := by decide
    exact lt_of_lt_of_le hclock (le_add_of_nonneg_right h29)
  · intro hlive
    obtain ⟨hashedToken, hhash, hfind⟩ :=
      PostgresRepository.store_ok bc salt u u' t0 id T hstore
    obtain ⟨row, hrow⟩ := Option.isSome_iff_exists.mp haccount
    rw [hrow, Option.map_some'] at hfind
    rw [← hkept] at hfind
    have hcmp := hbc T Bcrypt.DefaultCost salt hashedToken hhash
    have hall : ∀ now : Time, now ≤ t0 + consts.RefreshTokenExpireTime →
        v.ValidateRefreshToken bc now T ip id = ⟨true, none, [.selectRefreshToken], none⟩ := by
      intro now hnow
      rw [PostgresRepository.validate_of_parts bc v now T ip (base64.EncodeToString b) id hparts,
        PostgresRepository.scan_of_credential v id _ hashedToken
          (time.Add t0 consts.RefreshTokenExpireTime) hfault hlive hfind rfl rfl]
      have hlt : ¬ time.Add t0 consts.RefreshTokenExpireTime < now := not_lt.mpr hnow
      simp [time.After, hlt, hcmp]
    refine ⟨hall _ ?_, hall⟩
    have h29 : (29 * 24 * time.Hour : Int) ≤ consts.RefreshTokenExpireTime := by decide
    exact add_le_add_left h29 t0

theorem ValidateRefreshToken_inside_ttl_witness :
    (cancelledRepo.StoreRefreshToken tagBcrypt [] (1600000000 * time.Second) 2
        "10.0.0.1|AAAAAAAAAAAAAAAAAAAAAAAAAAAAAAAAAAAAAAAAAAA=").2 = none ∧
    (cancelledRepo.StoreRefreshToken tagBcrypt [] (1600000000 * time.Second) 2
        "10.0.0.1|AAAAAAAAAAAAAAAAAAAAAAAAAAAAAAAAAAAAAAAAAAA=").1.ValidateRefreshToken
      tagBcrypt (1600000000 * time.Second + 29 * 24 * time.Hour)
      "10.0.0.1|AAAAAAAAAAAAAAAAAAAAAAAAAAAAAAAAAAAAAAAAAAA=" "10.0.0.1" 2 =
      ⟨false, some errormsg.ErrTokenExpired, [.selectRefreshToken], none⟩ ∧
    (sampleRepo.StoreRefreshToken tagBcrypt [] (1600000000 * time.Second) 2
        "10.0.0.1|AAAAAAAAAAAAAAAAAAAAAAAAAAAAAAAAAAAAAAAAAAA=").1.ValidateRefreshToken
      tagBcrypt (1600000000 * time.Second + 29 * 24 * time.Hour)
      "10.0.0.1|AAAAAAAAAAAAAAAAAAAAAAAAAAAAAAAAAAAAAAAAAAA=" "10.0.0.1" 2 =
      ⟨true, none, [.selectRefreshToken], none⟩ :=
  ⟨by decide,
    ((ValidateRefreshToken_inside_ttl tagBcrypt zeroRand [] cancelledRepo
      (cancelledRepo.StoreRefreshToken tagBcrypt [] (1600000000 * time.Second) 2
        "10.0.0.1|AAAAAAAAAAAAAAAAAAAAAAAAAAAAAAAAAAAAAAAAAAA=").1
      (cancelledRepo.StoreRefreshToken tagBcrypt [] (1600000000 * time.Second) 2
        "10.0.0.1|AAAAAAAAAAAAAAAAAAAAAAAAAAAAAAAAAAAAAAAAAAA=").1
      (1600000000 * time.Second) 2 "10.0.0.1"
      "10.0.0.1|AAAAAAAAAAAAAAAAAAAAAAAAAAAAAAAAAAAAAAAAAAA="
      tagBcrypt_correct (by decide) rfl (by decide) rfl rfl (by decide) (by decide)).1
        (by decide)).1,
    ((ValidateRefreshToken_inside_ttl tagBcrypt zeroRand [] sampleRepo
      (sampleRepo.StoreRefreshToken tagBcrypt [] (1600000000 * time.Second) 2
        "10.0.0.1|AAAAAAAAAAAAAAAAAAAAAAAAAAAAAAAAAAAAAAAAAAA=").1
      (sampleRepo.StoreRefreshToken tagBcrypt [] (1600000000 * time.Second) 2
        "10.0.0.1|AAAAAAAAAAAAAAAAAAAAAAAAAAAAAAAAAAAAAAAAAAA=").1
      (1600000000 * time.Second) 2 "10.0.0.1"
      "10.0.0.1|AAAAAAAAAAAAAAAAAAAAAAAAAAAAAAAAAAAAAAAAAAA="
      tagBcrypt_correct (by decide) rfl (by decide) rfl rfl (by decide) (by decide)).2
        (by decide)).1⟩

/-- C6 (defect in the code): refresh-token expiry. For a two-part token whose embedded IP
is the client IP and an account whose stored credential `(hashedToken, expiresAt)` the
answered query finds, at a time after the zero time: when the scan of the row sees the
cancelled context, the call returns `(false, ErrTokenExpired)` whatever `expiresAt` is,
also when the clock is not after it; only when the scan comes first does the call return
`(false, ErrTokenExpired)` exactly when the clock is strictly after `expiresAt`, for every
bcrypt outcome (the expiry check comes before the hash check), and not at
`now = expiresAt`. -/
theorem ValidateRefreshToken_expiry (bc : Bcrypt) (u : PostgresRepository) (now : Time)
    (rawToken clientIP suffix : String) (id : Int) (row : MedodsRow)
    (hashedToken : String) (expiresAt : Time)
    (hparts : strings.Split rawToken '|' = [clientIP, suffix])
    (hfault : u.Conn.fault .selectRefreshToken = none) (hrow : u.find id = some row)
    (hhash : row.refresh_token = some hashedToken)
    (hexp : row.refresh_token_expires = some expiresAt)
    (hclock : time.zero < now) :
    (u.Conn.cancelled .selectRefreshToken = true →
      u.ValidateRefreshToken bc now rawToken clientIP id =
        ⟨false, some errormsg.ErrTokenExpired, [.selectRefreshToken], none⟩) ∧
    (u.Conn.cancelled .selectRefreshToken = false →
      (((u.ValidateRefreshToken bc now rawToken clientIP id).ok = false ∧
        (u.ValidateRefreshToken bc now rawToken clientIP id).err =
          some errormsg.ErrTokenExpired) ↔ expiresAt < now) ∧
      (now = expiresAt →
        (u.ValidateRefreshToken bc now rawToken clientIP id).err ≠
          some errormsg.ErrTokenExpired)) := by
  refine ⟨fun hseen => PostgresRepository.validate_of_cancelled bc u now rawToken clientIP
    suffix id hparts hfault hseen hclock, ?_⟩
  intro hlive
  have key : ((u.ValidateRefreshToken bc now rawToken clientIP id).ok = false ∧
      (u.ValidateRefreshToken bc now rawToken clientIP id).err =
        some errormsg.ErrTokenExpired) ↔ expiresAt < now := by
    rw [PostgresRepository.validate_of_parts bc u now rawToken clientIP suffix id hparts,
      PostgresRepository.scan_of_credential u id row hashedToken expiresAt hfault hlive hrow
        hhash hexp]
    by_cases hlt : expiresAt < now
    · simp [time.After, hlt]
    · cases hcmp : bc.CompareHashAndPassword hashedToken rawToken with
      | some e =>
        simp only [time.After, hlt, hcmp, decide_False, Bool.false_eq_true, if_false, iff_false,
          not_and]
        intro _
        decide
      | none => simp [time.After, hlt, hcmp]
  refine ⟨key, ?_⟩
  intro heq hexpired
  have hok : (u.ValidateRefreshToken bc now rawToken clientIP id).ok = false := by
    rw [PostgresRepository.validate_of_parts bc u now rawToken clientIP suffix id hparts,
      PostgresRepository.scan_of_credential u id row hashedToken expiresAt hfault hlive hrow
        hhash hexp] at hexpired ⊢
    cases hcmp : bc.CompareHashAndPassword hashedToken rawToken with
    | some e => simp [time.After, heq, hcmp]
    | none => simp [time.After, heq, hcmp] at hexpired
  have hlt : expiresAt < now := key.mp ⟨hok, hexpired⟩
  rw [heq] at hlt
  exact lt_irrefl _ hlt

theorem ValidateRefreshToken_expiry_witness :
    ¬ (1700000000 * time.Second < 1600000000 * time.Second) ∧
    cancelledRepo.ValidateRefreshToken tagBcrypt (1600000000 * time.Second)
        "10.0.0.1|abc" "10.0.0.1" 1 =
      ⟨false, some errormsg.ErrTokenExpired, [.selectRefreshToken], none⟩ ∧
    (((sampleRepo.ValidateRefreshToken tagBcrypt (1700000001 * time.Second)
        "10.0.0.1|abc" "10.0.0.1" 1).ok = false ∧
      (sampleRepo.ValidateRefreshToken tagBcrypt (1700000001 * time.Second)
        "10.0.0.1|abc" "10.0.0.1" 1).err = some errormsg.ErrTokenExpired) ↔
      1700000000 * time.Second < 1700000001 * time.Second) :=
  ⟨by decide,
    (ValidateRefreshToken_expiry tagBcrypt cancelledRepo (1600000000 * time.Second)
      "10.0.0.1|abc" "10.0.0.1" "abc" 1
      sampleAccount1
      "$2a$10$10.0.0.1|abc" (1700000000 * time.Second)
      (by decide) (by decide) (by decide) (by decide) (by decide) (by decide)).1 (by decide),
    ((ValidateRefreshToken_expiry tagBcrypt sampleRepo (1700000001 * time.Second)
      "10.0.0.1|abc" "10.0.0.1" "abc" 1
      sampleAccount1
      "$2a$10$10.0.0.1|abc" (1700000000 * time.Second)
      (by decide) (by decide) (by decide) (by decide) (by decide) (by decide)).2
        (by decide)).1⟩

/-- C7: hash check. When the token has two parts, its embedded IP is the client IP, the
stored credential `(hashedToken, expiresAt)` is read (the query is answered and scanned
before the cancellation of its context is seen) and the clock is not after `expiresAt`,
any error `e` returned by the bcrypt comparison of the raw token with the stored hash
(mismatch or any other comparison error) makes the call return
`(false, ErrCompareHash)`. -/
theorem ValidateRefreshToken_compare_error (bc : Bcrypt) (u : PostgresRepository) (now : Time)
    (rawToken clientIP suffix : String) (id : Int) (row : MedodsRow)
    (hashedToken : String) (expiresAt : Time) (e : GoError)
    (hparts : strings.Split rawToken '|' = [clientIP, suffix])
    (hfault : u.Conn.fault .selectRefreshToken = none)
    (hlive : u.Conn.cancelled .selectRefreshToken = false) (hrow : u.find id = some row)
    (hhash : row.refresh_token = some hashedToken)
    (hexp : row.refresh_token_expires = some expiresAt)
    (hnow : now ≤ expiresAt)
    (hcmp : bc.CompareHashAndPassword hashedToken rawToken = some e) :
    (u.ValidateRefreshToken bc now rawToken clientIP id).ok = false ∧
    (u.ValidateRefreshToken bc now rawToken clientIP id).err = some errormsg.ErrCompareHash := by
  rw [PostgresRepository.validate_of_parts bc u now rawToken clientIP suffix id hparts,
    PostgresRepository.scan_of_credential u id row hashedToken expiresAt hfault hlive hrow hhash
      hexp]
  have hlt : ¬ expiresAt < now := not_lt.mpr hnow
  simp [time.After, hlt, hcmp]

theorem ValidateRefreshToken_compare_error_witness :
    (sampleRepo.ValidateRefreshToken tagBcrypt (1600000000 * time.Second)
        "10.0.0.1|xyz" "10.0.0.1" 1).ok = false ∧
    (sampleRepo.ValidateRefreshToken tagBcrypt (1600000000 * time.Second)
        "10.0.0.1|xyz" "10.0.0.1" 1).err = some errormsg.ErrCompareHash :=
  ValidateRefreshToken_compare_error tagBcrypt sampleRepo (1600000000 * time.Second)
    "10.0.0.1|xyz" "10.0.0.1" "xyz" 1
    sampleAccount1
    "$2a$10$10.0.0.1|abc" (1700000000 * time.Second)
    (.New "crypto/bcrypt: hashedPassword is not the hash of the given password")
    (by decide) (by decide) (by decide) (by decide) (by decide) (by decide) (by decide)
    (by decide)

/-- C9: refresh-token format. For every client IP string and every 32-byte sequence `b`
returned by the random source, `GenerateRefreshToken` returns, with nil error, exactly
`clientIP ++ "|" ++ base64url(b)`; the encoding has 44 characters: 43 characters of the
URL-safe alphabet followed by one padding character "=". -/
theorem GenerateRefreshToken_format (rand : RandRead) (clientIP : String) (b : List Byte)
    (hrand : rand 32 = .ok b) (hlen : b.length = 32) :
    GenerateRefreshToken rand clientIP =
      .ok (clientIP ++ "|" ++ base64.EncodeToString b) ∧
    (base64.EncodeToString b).length = 44 ∧
    ∃ body : List Char, (base64.EncodeToString b).data = body ++ ['='] ∧
      body.length = 43 ∧ ∀ c ∈ body, c ∈ base64.encodeURL := by
  refine ⟨?_, base64.EncodeToString_length b hlen, ?_⟩
  · simp [GenerateRefreshToken, consts.RefreshTokenLength, hrand]
  · obtain ⟨body, hbody, hmem⟩ := base64.Encode_padded b (by omega)
    refine ⟨body, by simpa [base64.EncodeToString, base64.StdPadding] using hbody, ?_, hmem⟩
    have h44 := base64.Encode_length b
    rw [hbody, hlen] at h44
    simpa using h44

theorem GenerateRefreshToken_format_witness :
    GenerateRefreshToken zeroRand "10.0.0.1" =
      .ok ("10.0.0.1" ++ "|" ++ base64.EncodeToString (List.replicate 32 0)) ∧
    (base64.EncodeToString (List.replicate 32 0)).length = 44 ∧
    ∃ body : List Char, (base64.EncodeToString (List.replicate 32 0)).data = body ++ ['='] ∧
      body.length = 43 ∧ ∀ c ∈ body, c ∈ base64.encodeURL :=
  GenerateRefreshToken_format zeroRand "10.0.0.1" (List.replicate 32 0) rfl (by decide)

/-- C10 (as stated, refuted): for the client IP string `10.0.0.1|x` the value returned by
`GenerateRefreshToken` splits on "|" into three parts, and `ValidateRefreshToken`
rejects it at the parse step. -/
theorem GenerateRefreshToken_shape_counterexample :
    GenerateRefreshToken zeroRand "10.0.0.1|x" =
      .ok "10.0.0.1|x|AAAAAAAAAAAAAAAAAAAAAAAAAAAAAAAAAAAAAAAAAAA=" ∧
    strings.Split "10.0.0.1|x|AAAAAAAAAAAAAAAAAAAAAAAAAAAAAAAAAAAAAAAAAAA=" '|' =
      ["10.0.0.1", "x", "AAAAAAAAAAAAAAAAAAAAAAAAAAAAAAAAAAAAAAAAAAA="] ∧
    (sampleRepo.ValidateRefreshToken tagBcrypt (1600000000 * time.Second)
        "10.0.0.1|x|AAAAAAAAAAAAAAAAAAAAAAAAAAAAAAAAAAAAAAAAAAA=" "10.0.0.1|x" 1).err =
      some errormsg.ErrInvalidRefreshToken := by
  refine ⟨rfl, ?_, ?_⟩ <;> decide

/-- C10 (amended): refresh-token shape. For every client IP that contains no "|", every
value returned by `GenerateRefreshToken` splits on "|" into exactly two parts, the client
IP and the base64url suffix, so it passes the parse step of `ValidateRefreshToken`. -/
theorem GenerateRefreshToken_shape (rand : RandRead) (clientIP rawValue : String)
    (hip : '|' ∉ clientIP.data)
    (hgen : GenerateRefreshToken rand clientIP = .ok rawValue) :
    ∃ b : List Byte, rand consts.RefreshTokenLength = .ok b ∧
      strings.Split rawValue '|' = [clientIP, base64.EncodeToString b] ∧
      (strings.Split rawValue '|').length = consts.TokenParts := by
  obtain ⟨b, hrand, hsplit⟩ := GenerateRefreshToken_split rand clientIP rawValue hip hgen
  exact ⟨b, hrand, hsplit, by rw [hsplit]; rfl⟩

theorem GenerateRefreshToken_shape_witness :
    ∃ b : List Byte, zeroRand consts.RefreshTokenLength = .ok b ∧
      strings.Split "10.0.0.1|AAAAAAAAAAAAAAAAAAAAAAAAAAAAAAAAAAAAAAAAAAA=" '|' =
        ["10.0.0.1", base64.EncodeToString b] ∧
      (strings.Split "10.0.0.1|AAAAAAAAAAAAAAAAAAAAAAAAAAAAAAAAAAAAAAAAAAA=" '|').length =
        consts.TokenParts :=
  GenerateRefreshToken_shape zeroRand "10.0.0.1"
    "10.0.0.1|AAAAAAAAAAAAAAAAAAAAAAAAAAAAAAAAAAAAAAAAAAA=" (by decide) rfl

/-! ## Lemmas on the jwt library and on access tokens -/

namespace jwt

theorem Parse_of_parts (p : JwtPrims) (tokenString a b c alg key : String) (claims : MapClaims)
    (keyFunc : Token → Except GoError String) (now : Int)
    (hparts : strings.Split tokenString '.' = [a, b, c])
    (hheader : (DecodeSegment a).bind p.UnmarshalHeader = some (some alg))
    (hclaims : (DecodeSegment b).bind p.UnmarshalClaims = some claims)
    (hmethod : signingMethods.contains alg = true)
    (hkey : keyFunc ⟨tokenString, alg, claims, "", false⟩ = .ok key) :
    Parse p tokenString keyFunc now =
      match Verify p alg (a ++ "." ++ b) c key, Valid p.LenientTimeClaims claims now with
      | some err, _ => .error err
      | none, some err => .error err
      | none, none => .ok ⟨tokenString, alg, claims, c, true⟩ := by
  have hmem : alg ∈ signingMethods := by simpa using hmethod
  have g0 : [a, b, c].getD 0 "" = a := rfl
  have g1 : [a, b, c].getD 1 "" = b := rfl
  have g2 : [a, b, c].getD 2 "" = c := rfl
  simp only [Parse, ParseUnverified, hparts, hheader, hclaims, hmethod, hkey, g0, g1, g2,
    List.length_cons, List.length_nil, ne_eq, not_true_eq_false, if_false, if_true]

theorem Parse_ok_inv (p : JwtPrims) (tokenString : String)
    (keyFunc : Token → Except GoError String) (now : Int) (token : Token)
    (h : Parse p tokenString keyFunc now = .ok token) :
    ∃ a b c key,
      strings.Split tokenString '.' = [a, b, c] ∧
      (DecodeSegment a).bind p.UnmarshalHeader = some (some token.Method) ∧
      (DecodeSegment b).bind p.UnmarshalClaims = some token.Claims ∧
      keyFunc ⟨tokenString, token.Method, token.Claims, "", false⟩ = .ok key ∧
      Verify p token.Method (a ++ "." ++ b) c key = none ∧
      Valid p.LenientTimeClaims token.Claims now = none ∧
      token.Valid = true := by
  unfold Parse ParseUnverified at h
  by_cases hlen : (strings.Split tokenString '.').length = 3
  · obtain ⟨a, b, c, hparts⟩ : ∃ a b c, strings.Split tokenString '.' = [a, b, c] := by
      match hs : strings.Split tokenString '.', hlen with
      | [a, b, c], _ => exact ⟨a, b, c, rfl⟩
    have g0 : [a, b, c].getD 0 "" = a := rfl
    have g1 : [a, b, c].getD 1 "" = b := rfl
    have g2 : [a, b, c].getD 2 "" = c := rfl
    simp only [hparts, List.length_cons, List.length_nil, ne_eq, not_true_eq_false, if_false,
      g0, g1, g2] at h
    cases hheader : (DecodeSegment a).bind p.UnmarshalHeader with
    | none => simp [hheader] at h
    | some header =>
      cases hclaims : (DecodeSegment b).bind p.UnmarshalClaims with
      | none => simp [hheader, hclaims] at h
      | some claims =>
        cases header with
        | none => simp [hheader, hclaims] at h
        | some alg =>
          by_cases hmethod : signingMethods.contains alg = true
          · simp only [hheader, hclaims, hmethod, if_true] at h
            cases hkey : keyFunc ⟨tokenString, alg, claims, "", false⟩ with
            | error e => simp [hkey] at h
            | ok key =>
              simp only [hkey] at h
              cases hverify : Verify p alg (a ++ "." ++ b) c key with
              | some e => simp [g0, g1, g2, hverify] at h
              | none =>
                cases hvalid : Valid p.LenientTimeClaims claims now with
                | some e => simp [g0, g1, g2, hverify, hvalid] at h
                | none =>
                  simp only [g0, g1, g2, hverify, hvalid, Except.ok.injEq] at h
                  subst h
                  exact ⟨a, b, c, key, hparts, hheader, hclaims, hkey, hverify, hvalid, rfl⟩
          · have hnot : alg ∉ signingMethods := by simpa using hmethod
            simp [hheader, hclaims, hnot] at h
  · simp only [ne_eq, hlen, not_false_eq_true, if_true] at h
    cases h

end jwt

namespace strings

theorem Split_three (a b c : String) (sep : Char) (ha : sep ∉ a.data) (hb : sep ∉ b.data)
    (hc : sep ∉ c.data) :
    Split (a ++ String.singleton sep ++ b ++ String.singleton sep ++ c) sep = [a, b, c] := by
  have hdata : (a ++ String.singleton sep ++ b ++ String.singleton sep ++ c).data =
      a.data ++ sep :: (b.data ++ sep :: c.data) := by
    simp [String.singleton]
  simp [Split, hdata, splitChars_append_sep sep a.data _ ha,
    splitChars_append_sep sep b.data _ hb, splitChars_of_not_mem sep c.data hc]

theorem dropWhile_of_all_false {α : Type} (q : α → Bool) (l : List α)
    (h : ∀ x ∈ l, q x = false) : l.dropWhile q = l := by
  cases l with
  | nil => rfl
  | cons x xs => simp [List.dropWhile, h x (by simp)]

theorem TrimSpace_of_no_space (s : String) (h : ∀ c ∈ s.data, unicode.IsSpace c = false) :
    TrimSpace s = s := by
  unfold TrimSpace
  rw [dropWhile_of_all_false _ _ h,
    dropWhile_of_all_false _ _ (fun c hc => h c (List.mem_reverse.mp hc)), List.reverse_reverse]

end strings

namespace jwt

theorem EncodeSegment_chars (src : List Byte) (c : Char) (hc : c ∈ (EncodeSegment src).data) :
    c ≠ '.' ∧ unicode.IsSpace c = false := by
  rw [EncodeSegment_data] at hc
  have := base64.body_facts _ (base64.sextets_lt src) c hc
  exact ⟨this.2.1, this.2.2.2.2.1⟩

/-- Shape of a token: header, claims and signature segments joined by dots. -/
theorem token_facts (header claims : List Byte) (sig : String)
    (hsig : ∀ c ∈ sig.data, c ≠ '.' ∧ unicode.IsSpace c = false) :
    strings.TrimSpace (EncodeSegment header ++ "." ++ EncodeSegment claims ++ "." ++ sig) =
      EncodeSegment header ++ "." ++ EncodeSegment claims ++ "." ++ sig ∧
    strings.Split (EncodeSegment header ++ "." ++ EncodeSegment claims ++ "." ++ sig) '.' =
      [EncodeSegment header, EncodeSegment claims, sig] := by
  constructor
  · apply strings.TrimSpace_of_no_space
    intro c hc
    have hdot : ("." : String).data = ['.'] := rfl
    simp only [String.data_append, List.mem_append, hdot, List.mem_singleton] at hc
    rcases hc with (((hc | hc) | hc) | hc) | hc
    · exact (EncodeSegment_chars header c hc).2
    · subst hc
      decide
    · exact (EncodeSegment_chars claims c hc).2
    · subst hc
      decide
    · exact (hsig c hc).2
  · exact strings.Split_three (EncodeSegment header) (EncodeSegment claims) sig '.'
      (fun h => (EncodeSegment_chars header _ h).1 rfl)
      (fun h => (EncodeSegment_chars claims _ h).1 rfl)
      (fun h => (hsig _ h).1 rfl)

end jwt

theorem GenerateAccessToken_eq (p : JwtPrims) (getenv : String → String) (nowExp nowIat : Time)
    (clientIP : String) :
    GenerateAccessToken (jwt.lib p) getenv nowExp nowIat clientIP =
      .ok (jwt.EncodeSegment (p.MarshalHeader "HS512") ++ "." ++
        jwt.EncodeSegment (p.MarshalClaims (accessClaims nowExp nowIat clientIP)) ++ "." ++
        jwt.EncodeSegment (p.HMAC "HS512" (getenv "SECRET_KEY")
          (jwt.EncodeSegment (p.MarshalHeader "HS512") ++ "." ++
            jwt.EncodeSegment (p.MarshalClaims (accessClaims nowExp nowIat clientIP))))) := by
  have hm : "HS512" ∈ jwt.hmacMethods := by decide
  simp [GenerateAccessToken, jwt.lib, jwt.SignedString, jwt.Sign, jwt.SigningString, hm,
    accessClaims]

theorem ValidateAccessToken_of_parse_error (p : JwtPrims) (ts : ServiceToken) (now : Time)
    (tokenString : String) (err : GoError)
    (h : jwt.Parse p (strings.TrimSpace tokenString) (accessKeyFunc ts) (time.Unix now) =
      .error err) :
    ValidateAccessToken p ts now tokenString = .error errormsg.ErrTokenValidation := by
  simp [ValidateAccessToken, h]

theorem ValidateAccessToken_error_cases (p : JwtPrims) (ts : ServiceToken) (now : Time)
    (tokenString : String) (err : GoError)
    (h : ValidateAccessToken p ts now tokenString = .error err) :
    err = errormsg.ErrTokenValidation ∨ err = errormsg.ErrInvalidToken := by
  unfold ValidateAccessToken at h
  split at h
  · simp only [Except.error.injEq] at h
    exact Or.inl h.symm
  · split at h
    · split at h
      · split at h
        · simp only [Except.error.injEq] at h
          exact Or.inr h.symm
        · cases h
      · simp only [Except.error.injEq] at h
        exact Or.inr h.symm
    · simp only [Except.error.injEq] at h
      exact Or.inr h.symm

theorem ValidateAccessToken_ok_inv (p : JwtPrims) (ts : ServiceToken) (now : Time)
    (tokenString : String) (claims : MapClaims)
    (h : ValidateAccessToken p ts now tokenString = .ok claims) :
    ∃ a b c exp iat,
      strings.Split (strings.TrimSpace tokenString) '.' = [a, b, c] ∧
      (jwt.DecodeSegment a).bind p.UnmarshalHeader = some (some "HS512") ∧
      (jwt.DecodeSegment b).bind p.UnmarshalClaims = some claims ∧
      jwt.Verify p "HS512" (a ++ "." ++ b) c ts.SecretKey = none ∧
      jwt.Valid p.LenientTimeClaims claims (time.Unix now) = none ∧
      claims.lookup "exp" = some (.num exp) ∧
      claims.lookup "iat" = some (.num iat) := by
  unfold ValidateAccessToken at h
  cases hparse : jwt.Parse p (strings.TrimSpace tokenString) (accessKeyFunc ts) (time.Unix now) with
  | error e => simp [hparse] at h
  | ok token =>
    obtain ⟨a, b, c, key, hparts, hheader, hclaims, hkey, hverify, hvalid, hv⟩ :=
      jwt.Parse_ok_inv p _ _ _ token hparse
    have hmethod : token.Method = "HS512" := by
      by_contra hne
      simp [accessKeyFunc, hne] at hkey
    have hkey' : key = ts.SecretKey := by
      simp [accessKeyFunc, hmethod] at hkey
      exact hkey.symm
    simp only [hparse] at h
    cases hexp : token.Claims.lookup "exp" with
    | none => simp [hexp] at h
    | some v =>
      cases v with
      | str s => simp [hexp] at h
      | num exp =>
        cases hiat : token.Claims.lookup "iat" with
        | none => simp [hexp, hiat] at h
        | some v =>
          cases v with
          | str s => simp [hexp, hiat] at h
          | num iat =>
            simp only [hexp, hiat, hv, Bool.not_true, Bool.false_eq_true, if_false,
              Except.ok.injEq] at h
            subst h
            rw [hmethod] at hheader hverify
            rw [hkey'] at hverify
            exact ⟨a, b, c, exp, iat, hparts, hheader, hclaims, hverify, hvalid, hexp, hiat⟩

namespace jwt

theorem Valid_congr (lenient : Bool) (m m' : MapClaims) (now : Int)
    (h : ∀ key, m.lookup key = m'.lookup key) : Valid lenient m now = Valid lenient m' now := by
  simp only [Valid, verifyTimeClaim, h]

theorem Valid_accessClaims (lenient : Bool) (nowExp nowIat : Time) (clientIP : String)
    (now : Int) :
    Valid lenient (accessClaims nowExp nowIat clientIP) now =
      if !verifyIat (time.Unix nowIat) now false then some (.New "Token used before issued")
      else if !verifyExp (time.Unix (time.Add nowExp consts.AccessTokenExpireTime)) now false then
        some (.New "Token is expired")
      else none := by
  have h1 : (accessClaims nowExp nowIat clientIP).lookup "nbf" = none := by
    simp [accessClaims, List.lookup]
  have h2 : (accessClaims nowExp nowIat clientIP).lookup "iat" =
      some (.num (time.Unix nowIat)) := by
    simp [accessClaims, List.lookup]
  have h3 : (accessClaims nowExp nowIat clientIP).lookup "exp" =
      some (.num (time.Unix (time.Add nowExp consts.AccessTokenExpireTime))) := by
    simp [accessClaims, List.lookup]
  simp [Valid, verifyTimeClaim, h1, h2, h3]

theorem Verify_signature (p : JwtPrims) (signingString key : String) (mac : List Byte) :
    Verify p "HS512" signingString (EncodeSegment mac) key =
      if mac = p.HMAC "HS512" key signingString then none else some ErrSignatureInvalid := by
  have hm : hmacMethods.contains "HS512" = true := by decide
  simp only [Verify, hm, if_true, DecodeSegment_EncodeSegment]

end jwt

theorem accessParse_ok_inv (p : JwtPrims) (ts : ServiceToken) (now : Int)
    (tokenString : String) (token : jwt.Token)
    (h : jwt.Parse p tokenString (accessKeyFunc ts) now = .ok token) :
    ∃ a b c,
      strings.Split tokenString '.' = [a, b, c] ∧
      (jwt.DecodeSegment a).bind p.UnmarshalHeader = some (some "HS512") ∧
      (jwt.DecodeSegment b).bind p.UnmarshalClaims = some token.Claims ∧
      jwt.Verify p "HS512" (a ++ "." ++ b) c ts.SecretKey = none ∧
      jwt.Valid p.LenientTimeClaims token.Claims now = none ∧
      token.Valid = true := by
  obtain ⟨a, b, c, key, hparts, hheader, hclaims, hkey, hverify, hvalid, hv⟩ :=
    jwt.Parse_ok_inv p _ _ _ token h
  have hmethod : token.Method = "HS512" := by
    by_contra hne
    simp [accessKeyFunc, hne] at hkey
  have hkey' : ts.SecretKey = key := by
    simpa [accessKeyFunc, hmethod] using hkey
  rw [hmethod] at hheader hverify
  rw [← hkey'] at hverify
  exact ⟨a, b, c, hparts, hheader, hclaims, hverify, hvalid, hv⟩

/-- Validation of a generated token whose header and claims the codec gives back: it
succeeds exactly when the MAC under the verification key is the MAC under the signing key
and the time claims pass. -/
theorem ValidateAccessToken_generated (p : JwtPrims) (getenv : String → String)
    (ts : ServiceToken) (nowExp nowIat now : Time) (clientIP tkn : String)
    (decoded : MapClaims)
    (hheader : p.UnmarshalHeader (p.MarshalHeader "HS512") = some (some "HS512"))
    (hclaims : p.UnmarshalClaims (p.MarshalClaims (accessClaims nowExp nowIat clientIP)) =
      some decoded)
    (hlookup : ∀ key, decoded.lookup key = (accessClaims nowExp nowIat clientIP).lookup key)
    (hgen : GenerateAccessToken (jwt.lib p) getenv nowExp nowIat clientIP = .ok tkn) :
    ValidateAccessToken p ts now tkn =
      if p.HMAC "HS512" (getenv "SECRET_KEY")
            (jwt.EncodeSegment (p.MarshalHeader "HS512") ++ "." ++
              jwt.EncodeSegment (p.MarshalClaims (accessClaims nowExp nowIat clientIP))) =
          p.HMAC "HS512" ts.SecretKey
            (jwt.EncodeSegment (p.MarshalHeader "HS512") ++ "." ++
              jwt.EncodeSegment (p.MarshalClaims (accessClaims nowExp nowIat clientIP))) ∧
          jwt.Valid p.LenientTimeClaims (accessClaims nowExp nowIat clientIP) (time.Unix now) =
            none then
        .ok decoded
      else .error errormsg.ErrTokenValidation := by
  rw [GenerateAccessToken_eq] at hgen
  simp only [Except.ok.injEq] at hgen
  subst hgen
  have hsig : ∀ c ∈ (jwt.EncodeSegment (p.HMAC "HS512" (getenv "SECRET_KEY")
      (jwt.EncodeSegment (p.MarshalHeader "HS512") ++ "." ++
        jwt.EncodeSegment (p.MarshalClaims (accessClaims nowExp nowIat clientIP))))).data,
      c ≠ '.' ∧ unicode.IsSpace c = false := fun c hc => jwt.EncodeSegment_chars _ c hc
  obtain ⟨htrim, hsplit⟩ := jwt.token_facts (p.MarshalHeader "HS512")
    (p.MarshalClaims (accessClaims nowExp nowIat clientIP)) _ hsig
  have hparse := jwt.Parse_of_parts p _ _ _ _ "HS512" ts.SecretKey decoded (accessKeyFunc ts)
    (time.Unix now) hsplit
    (by simp [jwt.DecodeSegment_EncodeSegment, hheader])
    (by simp [jwt.DecodeSegment_EncodeSegment, hclaims])
    (by decide) (by simp [accessKeyFunc])
  have hexp : decoded.lookup "exp" =
      some (.num (time.Unix (time.Add nowExp consts.AccessTokenExpireTime))) := by
    rw [hlookup]
    simp [accessClaims, List.lookup]
  have hiat : decoded.lookup "iat" = some (.num (time.Unix nowIat)) := by
    rw [hlookup]
    simp [accessClaims, List.lookup]
  unfold ValidateAccessToken
  rw [htrim, hparse, jwt.Verify_signature, jwt.Valid_congr _ _ _ _ hlookup]
  by_cases hmac : p.HMAC "HS512" (getenv "SECRET_KEY")
      (jwt.EncodeSegment (p.MarshalHeader "HS512") ++ "." ++
        jwt.EncodeSegment (p.MarshalClaims (accessClaims nowExp nowIat clientIP))) =
      p.HMAC "HS512" ts.SecretKey
        (jwt.EncodeSegment (p.MarshalHeader "HS512") ++ "." ++
          jwt.EncodeSegment (p.MarshalClaims (accessClaims nowExp nowIat clientIP)))
  · cases hvalid : jwt.Valid p.LenientTimeClaims (accessClaims nowExp nowIat clientIP)
        (time.Unix now) with
    | some e => simp [hmac, hvalid]
    | none => simp [hmac, hvalid, hexp, hiat]
  · simp [hmac]

/-! ## Lemmas on a tampered signature -/

namespace base64

theorem sextets_append (l1 l2 : List Byte) (h : l1.length % 3 = 0) :
    sextets (l1 ++ l2) = sextets l1 ++ sextets l2 := by
  induction l1 using sextets.induct with
  | case1 b0 b1 b2 rest ih =>
    have hrest : rest.length % 3 = 0 := by
      simp only [List.length_cons] at h
      omega
    simp only [List.cons_append, sextets, List.append_eq, ih hrest]
  | case2 b0 b1 => simp at h
  | case3 b0 => simp at h
  | case4 => simp [sextets]

theorem decodeQuads_append_aux (l2 : List Nat) :
    ∀ (n : Nat) (l1 : List Nat), l1.length = 4 * n →
      decodeQuads (l1 ++ l2) = decodeQuads l1 ++ decodeQuads l2 := by
  intro n
  induction n with
  | zero =>
    intro l1 h
    have : l1 = [] := List.length_eq_zero.mp (by simpa using h)
    subst this
    simp [decodeQuads]
  | succ n ih =>
    intro l1 h
    match l1, h with
    | d0 :: d1 :: d2 :: d3 :: rest, h =>
      have hrest : rest.length = 4 * n := by
        simp only [List.length_cons] at h
        omega
      simp only [List.cons_append, decodeQuads, List.append_eq, ih rest hrest]
    | [], h => simp at h
    | [_], h => simp at h; omega
    | [_, _], h => simp at h; omega
    | [_, _, _], h => simp at h; omega

theorem decodeQuads_append (l1 l2 : List Nat) (h : l1.length % 4 = 0) :
    decodeQuads (l1 ++ l2) = decodeQuads l1 ++ decodeQuads l2 :=
  decodeQuads_append_aux l2 (l1.length / 4) l1 (by omega)

/-- A list of 64 bytes is its first 63 bytes followed by its last byte. -/
theorem split_last (mac : List Byte) (hlen : mac.length = 64) :
    ∃ b, mac = mac.take 63 ++ [b] := by
  have hdrop : (mac.drop 63).length = 1 := by simp [hlen]
  match hd : mac.drop 63, hdrop with
  | [b], _ =>
    refine ⟨b, ?_⟩
    rw [← hd, List.take_append_drop]

end base64

namespace jwt

/-- The signature segment of a 64-byte MAC with its last two characters replaced by "xx":
the segment of the first 63 bytes followed by "xx". -/
theorem tampered_segment (mac : List Byte) (hlen : mac.length = 64) :
    ((EncodeSegment mac).data.take ((EncodeSegment mac).data.length - 2)) ++ "xx".data =
      (base64.sextets (mac.take 63) ++ [49, 49]).map
        (fun i => base64.encodeURL.getD i 'A') := by
  obtain ⟨b, hb⟩ := base64.split_last mac hlen
  have h63 : (mac.take 63).length = 63 := by simp [hlen]
  have hs63 : (base64.sextets (mac.take 63)).length = 84 := by
    rw [base64.sextets_length, h63]
    rfl
  have hdata : (EncodeSegment mac).data =
      (base64.sextets (mac.take 63)).map (fun i => base64.encodeURL.getD i 'A') ++
        (base64.sextets [b]).map (fun i => base64.encodeURL.getD i 'A') := by
    rw [EncodeSegment_data]
    conv_lhs => rw [hb]
    rw [base64.sextets_append _ _ (by rw [h63]), List.map_append]
  have hlast : (base64.sextets [b]).length = 2 := by simp [base64.sextets]
  rw [hdata, List.length_append, List.length_map, List.length_map, hs63, hlast,
    List.take_append_eq_append_take, List.length_map, hs63]
  simp only [Nat.reduceAdd, Nat.reduceSub, List.take_zero, List.append_nil, List.map_append]
  rw [List.take_of_length_le (by simp [hs63])]
  rfl

theorem DecodeSegment_tampered (mac : List Byte) (hlen : mac.length = 64) :
    DecodeSegment (String.mk
      (((EncodeSegment mac).data.take ((EncodeSegment mac).data.length - 2)) ++ "xx".data)) =
      some (mac.take 63 ++ [199]) := by
  have h63 : (mac.take 63).length = 63 := by simp [hlen]
  have hs63 : (base64.sextets (mac.take 63)).length = 84 := by
    rw [base64.sextets_length, h63]
    rfl
  have hlt : ∀ i ∈ base64.sextets (mac.take 63) ++ [49, 49], i < 64 := by
    intro i hi
    rcases List.mem_append.mp hi with hi | hi
    · exact base64.sextets_lt _ i hi
    · simp only [List.mem_cons, List.mem_singleton, List.not_mem_nil, or_false, or_self] at hi
      omega
  rw [tampered_segment mac hlen, DecodeSegment_body _ hlt (by simp [hs63]),
    base64.decodeQuads_append _ _ (by rw [hs63]), base64.decodeQuads_sextets]
  rfl

/-- A 64-byte MAC whose last byte is 199 has a signature segment ending in "xw". -/
theorem segment_ends_xw (mac : List Byte) (hlen : mac.length = 64)
    (hlast : mac = mac.take 63 ++ [199]) :
    "xw".data <:+ (EncodeSegment mac).data := by
  have h63 : (mac.take 63).length = 63 := by simp [hlen]
  rw [EncodeSegment_data]
  conv_rhs => rw [hlast]
  rw [base64.sextets_append _ _ (by rw [h63]), List.map_append]
  exact List.suffix_append _ _

end jwt

theorem List.take_append_sub_two {α : Type} (A B : List α) (h : 2 ≤ B.length) :
    (A ++ B).take ((A ++ B).length - 2) = A ++ B.take (B.length - 2) := by
  rw [List.take_append_eq_append_take, List.take_of_length_le (by simp only [List.length_append]; omega)]
  congr 2
  simp only [List.length_append]
  omega

theorem tamper_token (signed sig : String) (hsig : 2 ≤ sig.data.length) :
    tamper (signed ++ "." ++ sig) =
      signed ++ "." ++ String.mk (sig.data.take (sig.data.length - 2) ++ "xx".data) := by
  unfold tamper
  apply String.ext
  simp only [String.data_append]
  rw [List.take_append_sub_two _ _ hsig, List.append_assoc]

/-! ## Claims on access tokens -/

theorem time.Unix_mono (a b : Time) (h : a ≤ b) : time.Unix a ≤ time.Unix b := by
  unfold time.Unix
  exact Int.ediv_le_ediv (by decide) h

/-- C11: a token produced by `GenerateAccessToken` for a client address, with the signing
secret of the environment also configured in the service, is accepted by
`ValidateAccessToken` at every instant from the issuing reading of the clock up to the
expiry computed from the first reading, and the claims returned carry that address under
`ip`. -/
theorem ValidateAccessToken_round_trip (p : JwtPrims) (getenv : String → String)
    (nowExp nowIat now : Time) (clientIP : String)
    (hcodec : p.RoundTrip "HS512" (accessClaims nowExp nowIat clientIP))
    (hissued : nowIat ≤ now)
    (hlive : now < time.Add nowExp consts.AccessTokenExpireTime) :
    ∃ tkn claims,
      GenerateAccessToken (jwt.lib p) getenv nowExp nowIat clientIP = .ok tkn ∧
      ValidateAccessToken p (NewTokenService getenv) now tkn = .ok claims ∧
      claims.lookup "ip" = some (.str clientIP) := by
  obtain ⟨hheader, decoded, hclaims, hlookup⟩ := hcodec
  have hgen := GenerateAccessToken_eq p getenv nowExp nowIat clientIP
  refine ⟨_, decoded, hgen, ?_, ?_⟩
  · rw [ValidateAccessToken_generated p getenv (NewTokenService getenv) nowExp nowIat now
      clientIP _ decoded hheader hclaims hlookup hgen]
    have hiat : time.Unix nowIat ≤ time.Unix now := time.Unix_mono _ _ hissued
    have hexp : time.Unix now ≤ time.Unix (time.Add nowExp consts.AccessTokenExpireTime) :=
      time.Unix_mono _ _ (le_of_lt hlive)
    have hvalid : jwt.Valid p.LenientTimeClaims (accessClaims nowExp nowIat clientIP)
        (time.Unix now) = none := by
      rw [jwt.Valid_accessClaims]
      simp only [jwt.verifyIat, jwt.verifyExp]
      split_ifs <;> simp_all
    simp [NewTokenService, hvalid]
  · rw [hlookup]
    simp [accessClaims, List.lookup]

theorem ValidateAccessToken_round_trip_witness :
    ∃ tkn claims,
      GenerateAccessToken (jwt.lib miniPrims) sampleEnv sampleIssued sampleIssued
        "10.10.10.10" = .ok tkn ∧
      ValidateAccessToken miniPrims (NewTokenService sampleEnv)
        (sampleIssued + 100 * time.Second) tkn = .ok claims ∧
      claims.lookup "ip" = some (.str "10.10.10.10") :=
  ValidateAccessToken_round_trip miniPrims sampleEnv sampleIssued sampleIssued
    (sampleIssued + 100 * time.Second) "10.10.10.10"
    ⟨by decide, accessClaims sampleIssued sampleIssued "10.10.10.10", by decide,
      fun _ => rfl⟩
    (by decide) (by decide)

theorem time.expired_arith (a b n : Int) (h0 : 0 ≤ a) (h1 : a ≤ b)
    (h2 : b / 1000000000 * 1000000000 + 15 * (60 * 1000000000) + 1000000000 ≤ n) :
    (a + 15 * (60 * 1000000000)) / 1000000000 ≠ 0 ∧
      (a + 15 * (60 * 1000000000)) / 1000000000 < n / 1000000000 := by
  omega

/-- C12: expiry boundary of the access token. For a token produced by `GenerateAccessToken`
from clock readings that do not run backwards and lie after the Unix epoch, with issued-at
claim `iat` (seconds), `ValidateAccessToken` evaluated at the instant `iat` + 15 minutes +
1 second, or at any later instant, returns an error (`ErrTokenValidation`) and no claims,
whatever secret the service holds. -/
theorem ValidateAccessToken_expired (p : JwtPrims) (getenv : String → String)
    (ts : ServiceToken) (nowExp nowIat now : Time) (clientIP tkn : String)
    (hcodec : p.RoundTrip "HS512" (accessClaims nowExp nowIat clientIP))
    (hepoch : 0 ≤ nowExp) (hclock : nowExp ≤ nowIat)
    (hnow : time.Unix nowIat * time.Second + consts.AccessTokenExpireTime + time.Second ≤ now)
    (hgen : GenerateAccessToken (jwt.lib p) getenv nowExp nowIat clientIP = .ok tkn) :
    ValidateAccessToken p ts now tkn = .error errormsg.ErrTokenValidation := by
  obtain ⟨hheader, decoded, hclaims, hlookup⟩ := hcodec
  rw [ValidateAccessToken_generated p getenv ts nowExp nowIat now clientIP tkn decoded
    hheader hclaims hlookup hgen]
  obtain ⟨hne, hlt⟩ : time.Unix (time.Add nowExp consts.AccessTokenExpireTime) ≠ 0 ∧
      time.Unix (time.Add nowExp consts.AccessTokenExpireTime) < time.Unix now :=
    time.expired_arith nowExp nowIat now hepoch hclock hnow
  have hvalid : jwt.Valid p.LenientTimeClaims (accessClaims nowExp nowIat clientIP)
      (time.Unix now) ≠ none := by
    rw [jwt.Valid_accessClaims]
    simp only [jwt.verifyExp, if_neg hne, decide_eq_false (not_le.mpr hlt)]
    split_ifs <;> simp_all
  simp [hvalid]

theorem ValidateAccessToken_expired_witness :
    ∃ tkn,
      GenerateAccessToken (jwt.lib miniPrims) sampleEnv sampleIssued sampleIssued
        "10.10.10.10" = .ok tkn ∧
      ValidateAccessToken miniPrims (NewTokenService sampleEnv)
        (sampleIssued + consts.AccessTokenExpireTime + time.Second) tkn =
        .error errormsg.ErrTokenValidation :=
  ⟨_, GenerateAccessToken_eq miniPrims sampleEnv sampleIssued sampleIssued "10.10.10.10",
    ValidateAccessToken_expired miniPrims sampleEnv (NewTokenService sampleEnv)
      sampleIssued sampleIssued (sampleIssued + consts.AccessTokenExpireTime + time.Second)
      "10.10.10.10" _
      ⟨by decide, accessClaims sampleIssued sampleIssued "10.10.10.10", by decide,
        fun _ => rfl⟩
      (by decide) (by decide) (by decide)
      (GenerateAccessToken_eq miniPrims sampleEnv sampleIssued sampleIssued "10.10.10.10")⟩

/-- C13 (as stated, refuted): a well-formed token signed under HS256 with the service
secret is rejected, but the error returned is `ErrTokenValidation`, which neither is nor
wraps `ErrUnexpectedSigningMethod`. -/
theorem ValidateAccessToken_alg_counterexample :
    ∃ tkn,
      jwt.SignedString miniPrims "HS256" sampleClaims sampleService.SecretKey = .ok tkn ∧
      ValidateAccessToken miniPrims sampleService (sampleIssued + 100 * time.Second) tkn =
        .error errormsg.ErrTokenValidation ∧
      errors.Is errormsg.ErrTokenValidation errormsg.ErrUnexpectedSigningMethod = false :=
  ⟨_, rfl, by decide, by decide⟩

/-- C13 (amended): for every three-part token whose header decodes and declares a signing
algorithm other than HS512, the key function answers with an error wrapping
`ErrUnexpectedSigningMethod`, and `ValidateAccessToken` replaces it: the call fails with
`ErrTokenValidation`, which neither is nor wraps `ErrUnexpectedSigningMethod`. -/
theorem ValidateAccessToken_alg_rejected (p : JwtPrims) (ts : ServiceToken) (now : Time)
    (tokenString a b c alg : String)
    (hparts : strings.Split (strings.TrimSpace tokenString) '.' = [a, b, c])
    (hheader : (jwt.DecodeSegment a).bind p.UnmarshalHeader = some (some alg))
    (halg : alg ≠ "HS512") :
    (∀ token : jwt.Token, token.Method = alg →
      ∃ err, accessKeyFunc ts token = .error err ∧
        errors.Is err errormsg.ErrUnexpectedSigningMethod = true) ∧
    ValidateAccessToken p ts now tokenString = .error errormsg.ErrTokenValidation ∧
    errors.Is errormsg.ErrTokenValidation errormsg.ErrUnexpectedSigningMethod = false := by
  refine ⟨?_, ?_, by decide⟩
  · intro token hm
    refine ⟨.Wrapf errormsg.ErrUnexpectedSigningMethod (": " ++ token.Method), ?_, ?_⟩
    · simp [accessKeyFunc, hm, halg]
    · simp only [errors.Is, Bool.or_eq_true, decide_eq_true_eq]
      exact Or.inr rfl
  · cases hparse : jwt.Parse p (strings.TrimSpace tokenString) (accessKeyFunc ts)
        (time.Unix now) with
    | error err => exact ValidateAccessToken_of_parse_error p ts now tokenString err hparse
    | ok token =>
      obtain ⟨a', b', c', hparts', hheader', -⟩ :=
        accessParse_ok_inv p ts (time.Unix now) _ token hparse
      rw [hparts] at hparts'
      simp only [List.cons.injEq, and_true] at hparts'
      obtain ⟨rfl, rfl, rfl⟩ := hparts'
      rw [hheader] at hheader'
      simp only [Option.some.injEq] at hheader'
      exact absurd hheader' halg

theorem ValidateAccessToken_alg_rejected_witness :
    ValidateAccessToken miniPrims sampleService (sampleIssued + 100 * time.Second)
      ("eyJhbGciOiJIUzI1NiIsInR5cCI6IkpXVCJ9." ++
        "eyJleHAiOjE2MDAwMDA5MDAsImlhdCI6MTYwMDAwMDAwMCwiaXAiOiIxMC4xMC4xMC4xMCJ9.AAAA") =
      .error errormsg.ErrTokenValidation :=
  (ValidateAccessToken_alg_rejected miniPrims sampleService (sampleIssued + 100 * time.Second)
    ("eyJhbGciOiJIUzI1NiIsInR5cCI6IkpXVCJ9." ++
      "eyJleHAiOjE2MDAwMDA5MDAsImlhdCI6MTYwMDAwMDAwMCwiaXAiOiIxMC4xMC4xMC4xMCJ9.AAAA")
    "eyJhbGciOiJIUzI1NiIsInR5cCI6IkpXVCJ9"
    "eyJleHAiOjE2MDAwMDA5MDAsImlhdCI6MTYwMDAwMDAwMCwiaXAiOiIxMC4xMC4xMC4xMCJ9" "AAAA"
    "HS256" (by decide) (by decide) (by decide)).2.1

/-- C14 (as stated, refuted): the token signed under HS512 with the service secret whose
claims hold an expiry (Unix second 1600000900) but no `iat` is answered, once the expiry
has passed, with `ErrTokenValidation` and not with `ErrInvalidToken`, under either reading
of non-numeric time claims by the library. -/
theorem ValidateAccessToken_required_claims_counterexample :
    jwt.SignedString hs512Prims "HS512" sampleClaimsNoIat sampleService.SecretKey =
      .ok sampleTokenNoIat ∧
    sampleClaimsNoIat.lookup "iat" = none ∧
    (∀ lenient : Bool,
      ValidateAccessToken { hs512Prims with LenientTimeClaims := lenient } sampleService
        (sampleIssued + 901 * time.Second) sampleTokenNoIat =
        .error errormsg.ErrTokenValidation) ∧
    errormsg.ErrTokenValidation ≠ errormsg.ErrInvalidToken :=
  ⟨by decide, by decide, by decide, by decide⟩

/-- C14 (amended): for every token that `jwt.Parse` accepts (three parts, an HS512 header,
a signature that verifies under the service secret, and the registered time claims that
are present passing the library check at the time of the call) whose claims lack a numeric
`exp` or a numeric `iat`, `ValidateAccessToken` returns `ErrInvalidToken` and no claims. -/
theorem ValidateAccessToken_required_claims (p : JwtPrims) (ts : ServiceToken) (now : Time)
    (tokenString a b c : String) (claims : MapClaims)
    (hparts : strings.Split (strings.TrimSpace tokenString) '.' = [a, b, c])
    (hheader : (jwt.DecodeSegment a).bind p.UnmarshalHeader = some (some "HS512"))
    (hclaims : (jwt.DecodeSegment b).bind p.UnmarshalClaims = some claims)
    (hsig : jwt.Verify p "HS512" (a ++ "." ++ b) c ts.SecretKey = none)
    (htime : jwt.Valid p.LenientTimeClaims claims (time.Unix now) = none)
    (hmissing : (∀ exp, claims.lookup "exp" ≠ some (.num exp)) ∨
      (∀ iat, claims.lookup "iat" ≠ some (.num iat))) :
    ValidateAccessToken p ts now tokenString = .error errormsg.ErrInvalidToken := by
  have hparse := jwt.Parse_of_parts p _ a b c "HS512" ts.SecretKey claims (accessKeyFunc ts)
    (time.Unix now) hparts hheader hclaims (by decide) (by simp [accessKeyFunc])
  rw [hsig, htime] at hparse
  unfold ValidateAccessToken
  rw [hparse]
  simp only
  rcases hmissing with h | h
  · split
    · rename_i v hv
      exact absurd hv (h v)
    · rfl
  · split
    · split
      · rename_i v hv
        exact absurd hv (h v)
      · rfl
    · rfl

theorem ValidateAccessToken_required_claims_witness :
    ValidateAccessToken miniPrims sampleService (sampleIssued + 100 * time.Second)
      ("eyJhbGciOiJIUzUxMiIsInR5cCI6IkpXVCJ9." ++
        "eyJleHAiOjE2MDAwMDA5MDAsImlwIjoiMTAuMTAuMTAuMTAifQ." ++
        "Tk5OTk5OTk5OTk5OTk5OTk5OTk5OTk5OTk5OTk5OTk5OTk5OTk5OTk5OTk5OTk5OTk5OTk5OTk5OTk5OTk5OTg") =
      .error errormsg.ErrInvalidToken :=
  ValidateAccessToken_required_claims miniPrims sampleService
    (sampleIssued + 100 * time.Second)
    ("eyJhbGciOiJIUzUxMiIsInR5cCI6IkpXVCJ9." ++
      "eyJleHAiOjE2MDAwMDA5MDAsImlwIjoiMTAuMTAuMTAuMTAifQ." ++
      "Tk5OTk5OTk5OTk5OTk5OTk5OTk5OTk5OTk5OTk5OTk5OTk5OTk5OTk5OTk5OTk5OTk5OTk5OTk5OTk5OTk5OTg")
    "eyJhbGciOiJIUzUxMiIsInR5cCI6IkpXVCJ9"
    "eyJleHAiOjE2MDAwMDA5MDAsImlwIjoiMTAuMTAuMTAuMTAifQ"
    "Tk5OTk5OTk5OTk5OTk5OTk5OTk5OTk5OTk5OTk5OTk5OTk5OTk5OTk5OTk5OTk5OTk5OTk5OTk5OTk5OTk5OTg"
    sampleClaimsNoIat (by decide) (by decide) (by decide) (by decide) (by decide)
    (Or.inr (by simp [show sampleClaimsNoIat.lookup "iat" = none by decide]))

theorem time.ttl_arith (a : Int) :
    (a + 15 * (60 * 1000000000)) / 1000000000 = a / 1000000000 + 900 := by
  omega

/-- With one reading of the clock for both claims the expiry is the issue second plus 900. -/
theorem accessClaims_single_reading (now : Time) :
    time.Unix (time.Add now consts.AccessTokenExpireTime) = time.Unix now + 900 :=
  time.ttl_arith now

/-- C15 (the code diverges): `GenerateAccessToken` reads the clock once for `exp` and once
more for `iat`. With the first reading 100 ns before Unix second 1600000000 and the second
100 ns after it, the token it returns validates and carries `exp` = 1600000899 and `iat` =
1600000000: the lifetime is 899 seconds, not the 900 seconds of `AccessTokenExpireTime`. -/
theorem GenerateAccessToken_lifetime_divergence :
    GenerateAccessToken (jwt.lib hs512Prims) sampleEnv (sampleIssued - 100) (sampleIssued + 100)
      "10.10.10.10" = .ok sampleTokenShort ∧
    ValidateAccessToken hs512Prims sampleService (sampleIssued + time.Second)
      sampleTokenShort =
      .ok [("exp", .num 1600000899), ("iat", .num 1600000000), ("ip", .str "10.10.10.10")] ∧
    time.Unix consts.AccessTokenExpireTime = 900 ∧
    (1600000899 : Int) ≠ 1600000000 + time.Unix consts.AccessTokenExpireTime :=
  ⟨by decide, by decide, by decide, by decide⟩

/-- C16 (defect in the code): a tampered access token is accepted. With the secret and the
client IP of `TestTokenValidation`, the HS512 access token issued at Unix second 1600000188
ends in "xw"; with its last two characters replaced by "xx", as the test does, it is
another string that decodes to the same signature bytes, and both `jwt.Parse` with the
secret as key, which the test asserts to fail, and `ValidateAccessToken` accept it under
the same secret. -/
theorem ValidateAccessToken_tamper_accepted :
    GenerateAccessToken (jwt.lib hs512Prims) sampleEnv (1600000188 * time.Second)
      (1600000188 * time.Second) "10.10.10.10" = .ok sampleTokenXw ∧
    tamper sampleTokenXw = sampleTokenXx ∧
    sampleTokenXx ≠ sampleTokenXw ∧
    (jwt.Parse hs512Prims sampleTokenXx (fun _ => .ok sampleService.SecretKey)
      1600000189).isOk = true ∧
    ValidateAccessToken hs512Prims sampleService (1600000189 * time.Second) sampleTokenXx =
      .ok [("exp", .num 1600001088), ("iat", .num 1600000188), ("ip", .str "10.10.10.10")] :=
  ⟨by decide, by decide, by decide, by decide, by decide⟩

/-- The tokens that end in "xw" are the only ones a replacement of the last two characters
by "xx" leaves valid: for every access token produced by `GenerateAccessToken` that does
not end in "xw", the MAC being 64 bytes long, the string obtained by that replacement
fails verification under the same secret: `jwt.Parse` returns an error and
`ValidateAccessToken` returns `ErrTokenValidation`. -/
theorem ValidateAccessToken_tamper_rejected (p : JwtPrims) (getenv : String → String)
    (nowExp nowIat now : Time) (clientIP tkn : String)
    (hmac : ∀ key message, (p.HMAC "HS512" key message).length = 64)
    (hgen : GenerateAccessToken (jwt.lib p) getenv nowExp nowIat clientIP = .ok tkn)
    (hend : ¬ "xw".data <:+ tkn.data) :
    (∃ err, jwt.Parse p (strings.TrimSpace (tamper tkn)) (accessKeyFunc (NewTokenService getenv))
      (time.Unix now) = .error err) ∧
    ValidateAccessToken p (NewTokenService getenv) now (tamper tkn) =
      .error errormsg.ErrTokenValidation := by
  rw [GenerateAccessToken_eq] at hgen
  simp only [Except.ok.injEq] at hgen
  subst hgen
  have hlen := hmac (getenv "SECRET_KEY")
    (jwt.EncodeSegment (p.MarshalHeader "HS512") ++ "." ++
      jwt.EncodeSegment (p.MarshalClaims (accessClaims nowExp nowIat clientIP)))
  generalize hm : p.HMAC "HS512" (getenv "SECRET_KEY")
    (jwt.EncodeSegment (p.MarshalHeader "HS512") ++ "." ++
      jwt.EncodeSegment (p.MarshalClaims (accessClaims nowExp nowIat clientIP))) = mac
    at hlen hend
  have h63 : (mac.take 63).length = 63 := by simp [hlen]
  have hs63 : (base64.sextets (mac.take 63)).length = 84 := by
    rw [base64.sextets_length, h63]
    rfl
  have hsiglen : 2 ≤ (jwt.EncodeSegment mac).data.length := by
    rw [jwt.EncodeSegment_data, List.length_map, base64.sextets_length, hlen]
    decide
  have hlt : ∀ i ∈ base64.sextets (mac.take 63) ++ [49, 49], i < 64 := by
    intro i hi
    rcases List.mem_append.mp hi with hi | hi
    · exact base64.sextets_lt _ i hi
    · simp only [List.mem_cons, List.mem_singleton, List.not_mem_nil, or_false, or_self] at hi
      omega
  have hchars : ∀ c ∈ (String.mk ((jwt.EncodeSegment mac).data.take
      ((jwt.EncodeSegment mac).data.length - 2) ++ "xx".data)).data,
      c ≠ '.' ∧ unicode.IsSpace c = false := by
    intro c hc
    rw [jwt.tampered_segment mac hlen] at hc
    have := base64.body_facts _ hlt c hc
    exact ⟨this.2.1, this.2.2.2.2.1⟩
  obtain ⟨htrim, hsplit⟩ := jwt.token_facts (p.MarshalHeader "HS512")
    (p.MarshalClaims (accessClaims nowExp nowIat clientIP)) _ hchars
  have hparse : ∃ err, jwt.Parse p (strings.TrimSpace (tamper
      (jwt.EncodeSegment (p.MarshalHeader "HS512") ++ "." ++
        jwt.EncodeSegment (p.MarshalClaims (accessClaims nowExp nowIat clientIP)) ++ "." ++
        jwt.EncodeSegment mac))) (accessKeyFunc (NewTokenService getenv)) (time.Unix now) =
      .error err := by
    rw [tamper_token _ _ hsiglen, htrim]
    cases hres : jwt.Parse p _ (accessKeyFunc (NewTokenService getenv)) (time.Unix now) with
    | error err => exact ⟨err, rfl⟩
    | ok token =>
      exfalso
      obtain ⟨a, b, c, hparts, -, -, hverify, -⟩ :=
        accessParse_ok_inv p _ (time.Unix now) _ token hres
      rw [hsplit] at hparts
      simp only [List.cons.injEq, and_true] at hparts
      obtain ⟨rfl, rfl, rfl⟩ := hparts
      have hmethod : jwt.hmacMethods.contains "HS512" = true := by decide
      simp only [jwt.Verify, hmethod, if_true, jwt.DecodeSegment_tampered mac hlen,
        NewTokenService, hm] at hverify
      split at hverify
      · rename_i heq
        apply hend
        simp only [String.data_append]
        exact List.IsSuffix.trans (jwt.segment_ends_xw mac hlen heq.symm)
          (List.suffix_append _ _)
      · cases hverify
  obtain ⟨err, herr⟩ := hparse
  exact ⟨⟨err, herr⟩, ValidateAccessToken_of_parse_error _ _ _ _ err herr⟩

theorem ValidateAccessToken_tamper_rejected_witness :
    ∃ tkn,
      GenerateAccessToken (jwt.lib miniPrims) sampleEnv sampleIssued sampleIssued
        "10.10.10.10" = .ok tkn ∧
      ValidateAccessToken miniPrims (NewTokenService sampleEnv) (sampleIssued + time.Second)
        (tamper tkn) = .error errormsg.ErrTokenValidation :=
  ⟨_, rfl,
    (ValidateAccessToken_tamper_rejected miniPrims sampleEnv sampleIssued sampleIssued
      (sampleIssued + time.Second) "10.10.10.10" _
      (fun _ _ => List.length_replicate _ _) rfl (by decide)).2⟩

/-! ## Claims on start-up, passwords and the refresh handler -/

/-- C17 (the code diverges): with DSN and PORT set and SECRET_KEY absent from the
environment, `network.Load` and `server.NewServer` succeed, so `main` reaches the start of
the server; the token service then holds the empty key, access tokens are signed with the
empty key, and the service accepts them. -/
theorem main_starts_without_secret :
    noSecretEnv "SECRET_KEY" = "" ∧
    (app.main noSecretEnv sampleConnect sampleMigrate).isOk = true ∧
    (NewTokenService noSecretEnv).SecretKey = "" ∧
    GenerateAccessToken (jwt.lib hs512Prims) noSecretEnv sampleIssued sampleIssued
      "10.10.10.10" = .ok sampleTokenEmptyKey ∧
    jwt.SignedString hs512Prims "HS512" sampleClaims "" = .ok sampleTokenEmptyKey ∧
    ValidateAccessToken hs512Prims (NewTokenService noSecretEnv)
      (sampleIssued + time.Second) sampleTokenEmptyKey = .ok sampleClaims :=
  ⟨rfl, rfl, rfl, by decide, by decide, by decide⟩

/-- Passwords of fewer than 8 bytes are refused by `Insert` before any hashing. -/
theorem PostgresRepository.Insert_short (bc : Bcrypt) (salt : List Byte)
    (u : PostgresRepository) (created updated : Time) (newID : Int) (user : calltypes.User)
    (h : user.Password.utf8ByteSize < 8) :
    u.Insert bc salt created updated newID user =
      ⟨0, some errormsg.ErrPasswordLength, none, u⟩ := by
  simp [PostgresRepository.Insert, consts.PassMinLength, h]

/-- Passwords of fewer than 8 bytes are answered 400 by `Registrate` without a call of
`Insert`. -/
theorem Registrate_short (w : World) (newID : Int) (s : RewardService)
    (payload : RegisterPayload) (h : payload.Password.utf8ByteSize < 8) :
    Registrate w newID s (.ok payload) =
      ⟨some ⟨http.StatusBadRequest, ⟨true, errormsg.ErrPasswordLength.Error⟩, []⟩, s, []⟩ := by
  simp [Registrate, consts.AtLeastPassLength, h, httputils.ErrorJSON]

/-- C18 (the code diverges): the length test counts bytes. The password "пароль1" has 7
characters and 13 bytes: `Registrate` hands it to `Insert`, `Insert` hashes it and inserts
the row, and the answer is 202. -/
theorem Registrate_short_password_accepted :
    shortPayload.Password.length = 7 ∧
    shortPayload.Password.utf8ByteSize = 13 ∧
    (Registrate sampleWorld 3 ⟨sampleRepo⟩ (.ok shortPayload)).out =
      some ⟨http.StatusAccepted, ⟨false, "Successfully created new user, id: 3"⟩, []⟩ ∧
    (Registrate sampleWorld 3 ⟨sampleRepo⟩ (.ok shortPayload)).inserts = [shortUser] ∧
    (sampleRepo.Insert sampleWorld.bcrypt sampleWorld.salt (sampleWorld.clock 0)
        (sampleWorld.clock 1) 3 shortUser).id = 3 ∧
    (sampleRepo.Insert sampleWorld.bcrypt sampleWorld.salt (sampleWorld.clock 0)
        (sampleWorld.clock 1) 3 shortUser).err = none ∧
    (sampleRepo.Insert sampleWorld.bcrypt sampleWorld.salt (sampleWorld.clock 0)
        (sampleWorld.clock 1) 3 shortUser).hashed =
      some "$2a$10$пароль1" ∧
    ((sampleRepo.Insert sampleWorld.bcrypt sampleWorld.salt (sampleWorld.clock 0)
        (sampleWorld.clock 1) 3 shortUser).repo.find 3).isSome =
      true := by
  refine ⟨by decide, by decide, by decide, by decide, by decide, by decide, by decide, ?_⟩
  decide

theorem keyBcrypt_correct : keyBcrypt.Correct := by
  intro password cost salt hash h
  simp only [keyBcrypt, Except.ok.injEq] at h
  simp [keyBcrypt, h]

theorem keyBcrypt_keyOnly : keyBcrypt.KeyOnly := by
  intro hash password other h
  simp only [keyBcrypt, h]

/-- A bcrypt that is correct and reads the key material only accepts, against the hash of
a password, every password of the same key material. -/
theorem Bcrypt.accepts_same_key (bc : Bcrypt) (hcorrect : bc.Correct) (hkey : bc.KeyOnly)
    (password other hash : String) (cost : Nat) (salt : List Byte)
    (hgen : bc.GenerateFromPassword password cost salt = .ok hash)
    (hsame : Bcrypt.key other = Bcrypt.key password) :
    bc.CompareHashAndPassword hash other = none := by
  rw [hkey hash other password hsame]
  exact hcorrect password cost salt hash hgen

theorem PostgresRepository.Insert_hashed (bc : Bcrypt) (salt : List Byte)
    (u : PostgresRepository) (created updated : Time) (newID : Int) (user : calltypes.User)
    (h : String)
    (hins : (u.Insert bc salt created updated newID user).hashed = some h) :
    8 ≤ user.Password.utf8ByteSize ∧
      bc.GenerateFromPassword user.Password consts.BcryptCost salt = .ok h := by
  unfold PostgresRepository.Insert at hins
  split at hins
  · cases hins
  · rename_i hlen
    refine ⟨by simpa [consts.PassMinLength] using hlen, ?_⟩
    split at hins
    · cases hins
    · rename_i hashed hgen
      split at hins
      · simp only [Option.some.injEq] at hins
        rw [← hins]
        exact hgen
      · split at hins <;> simp only [Option.some.injEq] at hins <;> rw [← hins] <;> exact hgen

/-- C19 (as stated, refuted): bcrypt reads 72 bytes of key material. For the password of
72 letters a and the hash `Insert` computes for it, the different password of 73 letters
a is answered `(true, nil)`, with the stand-in `keyBcrypt` and with every bcrypt that is
correct and reads the key material only. -/
theorem PasswordMatches_truncation_counterexample :
    longerPassword ≠ longPassword ∧
    8 ≤ longPassword.utf8ByteSize ∧
    Bcrypt.key longerPassword = Bcrypt.key longPassword ∧
    (∃ h, (sampleRepo.Insert keyBcrypt [] sampleIssued sampleIssued 3 (userWith longPassword)).hashed = some h ∧
      PostgresRepository.PasswordMatches keyBcrypt longerPassword (userWith h) =
        (true, none)) ∧
    ∀ bc : Bcrypt, bc.Correct → bc.KeyOnly → ∀ salt h,
      (sampleRepo.Insert bc salt sampleIssued sampleIssued 3 (userWith longPassword)).hashed = some h →
      PostgresRepository.PasswordMatches bc longerPassword (userWith h) = (true, none) := by
  have hsame : Bcrypt.key longerPassword = Bcrypt.key longPassword := by decide
  refine ⟨by decide, by decide, hsame, ⟨_, rfl, by decide⟩, ?_⟩
  intro bc hcorrect hkey salt h hins
  have hgen := (PostgresRepository.Insert_hashed bc salt sampleRepo _ _ 3 _ h hins).2
  have hcmp := Bcrypt.accepts_same_key bc hcorrect hkey longPassword longerPassword h _ salt
    hgen hsame
  simp [PostgresRepository.PasswordMatches, userWith, hcmp]

/-- C19 (amended): let bcrypt be correct and binding on the key material it reads (the
first 72 bytes of the password followed by a NUL byte, repeated). For the hash `h` that
`Insert` computes for a password `p`, which then has at least 8 bytes, `PasswordMatches`
on `p` and a user holding `h` returns `(true, nil)`, and for every `p'` whose key material
differs from that of `p` it returns `(false, nil)`. -/
theorem PasswordMatches_round_trip (bc : Bcrypt) (hcorrect : bc.Correct)
    (hbinding : bc.KeyBinding) (salt : List Byte) (u : PostgresRepository)
    (created updated : Time) (newID : Int) (user stored : calltypes.User) (h : String)
    (hins : (u.Insert bc salt created updated newID user).hashed = some h)
    (hstored : stored.Password = h) :
    8 ≤ user.Password.utf8ByteSize ∧
    PostgresRepository.PasswordMatches bc user.Password stored = (true, none) ∧
    ∀ other, Bcrypt.key other ≠ Bcrypt.key user.Password →
      PostgresRepository.PasswordMatches bc other stored = (false, none) := by
  obtain ⟨hlen, hgen⟩ := PostgresRepository.Insert_hashed bc salt u created updated newID user h hins
  refine ⟨hlen, ?_, ?_⟩
  · simp [PostgresRepository.PasswordMatches, hstored, hcorrect _ _ _ _ hgen]
  · intro other hne
    have hcmp := hbinding _ _ _ _ other hgen hne
    have his : errors.Is Bcrypt.ErrMismatchedHashAndPassword
        Bcrypt.ErrMismatchedHashAndPassword = true := by decide
    simp [PostgresRepository.PasswordMatches, hstored, hcmp, his]

theorem PasswordMatches_round_trip_witness :
    PostgresRepository.PasswordMatches tagBcrypt "correct horse"
        (userWith "$2a$10$correct horse") = (true, none) ∧
    PostgresRepository.PasswordMatches tagBcrypt "correct house"
        (userWith "$2a$10$correct horse") = (false, none) :=
  have h := PasswordMatches_round_trip tagBcrypt tagBcrypt_correct tagBcrypt_keyBinding []
    sampleRepo sampleIssued sampleIssued 3 (userWith "correct horse")
    (userWith "$2a$10$correct horse")
    "$2a$10$correct horse" (by decide) rfl
  ⟨h.2.1, h.2.2 "correct house" (by decide)⟩

/-- C20: whenever `ValidateRefreshToken` returns an error `e` in `Refresh` (the id parses
and the refreshToken cookie is present), the handler answers 401 with the message of `e`
unchanged and no cookie, the service and its store are left as they were, and the outcome
does not depend on the token signer, the environment, the random source, the bcrypt salt
or any later reading of the clock, which only token generation and `UpdateRefreshToken`
consume. -/
theorem Refresh_validator_failure (w : World) (s : RewardService) (r : http.Request)
    (id : Int) (rawToken : String) (e : GoError)
    (hid : GetIDFromURL r "id" = .ok id)
    (hcookie : r.Cookie "refreshToken" = .ok rawToken)
    (herr : (s.Repo.ValidateRefreshToken w.bcrypt (w.clock 0) rawToken (GetClientIP r) id).err =
      some e) :
    (Refresh w s r).out = some ⟨http.StatusUnauthorized, ⟨true, e.Error⟩, []⟩ ∧
    (Refresh w s r).svc = s ∧
    ∀ w' : World, w'.bcrypt = w.bcrypt → w'.clock 0 = w.clock 0 →
      (Refresh w' s r).out = (Refresh w s r).out ∧ (Refresh w' s r).svc = s := by
  have key : ∀ w' : World, w'.bcrypt = w.bcrypt → w'.clock 0 = w.clock 0 →
      Refresh w' s r = ⟨some ⟨http.StatusUnauthorized, ⟨true, e.Error⟩, []⟩, s⟩ := by
    intro w' hb hc
    unfold Refresh
    simp only [hid, hcookie, hb, hc, herr, httputils.ErrorJSON]
  have h0 := key w rfl rfl
  refine ⟨by rw [h0], by rw [h0], fun w' hb hc => ?_⟩
  rw [key w' hb hc, h0]
  exact ⟨rfl, rfl⟩

theorem Refresh_validator_failure_witness :
    (Refresh sampleWorld ⟨sampleRepo⟩
        ⟨"10.0.0.9:5555", [("id", "1")], [("refreshToken", "10.0.0.1|abc")]⟩).out =
      some ⟨http.StatusUnauthorized, ⟨true, errormsg.ErrInvalidIP.Error⟩, []⟩ :=
  (Refresh_validator_failure sampleWorld ⟨sampleRepo⟩
    ⟨"10.0.0.9:5555", [("id", "1")], [("refreshToken", "10.0.0.1|abc")]⟩
    1 "10.0.0.1|abc" errormsg.ErrInvalidIP (by decide) (by decide) (by decide)).1

/-! ## Lemmas on validation results and the store -/

theorem PostgresRepository.validate_result (bc : Bcrypt) (u : PostgresRepository) (now : Time)
    (rawToken clientIP : String) (id : Int) :
    ((u.ValidateRefreshToken bc now rawToken clientIP id).ok = true ∧
      (u.ValidateRefreshToken bc now rawToken clientIP id).err = none) ∨
    ((u.ValidateRefreshToken bc now rawToken clientIP id).ok = false ∧
      ∃ e, (u.ValidateRefreshToken bc now rawToken clientIP id).err = some e) := by
  unfold PostgresRepository.ValidateRefreshToken
  simp only
  split
  · exact Or.inr ⟨rfl, _, rfl⟩
  · split
    · exact Or.inr ⟨rfl, _, rfl⟩
    · split
      · exact Or.inr ⟨rfl, _, rfl⟩
      · split
        · exact Or.inr ⟨rfl, _, rfl⟩
        · split
          · exact Or.inr ⟨rfl, _, rfl⟩
          · exact Or.inl ⟨rfl, rfl⟩

theorem httputils.ErrorJSON_some (e : GoError) (status : Nat) :
    httputils.ErrorJSON (some e) status = some ⟨status, ⟨true, e.Error⟩, []⟩ := rfl

theorem sql.Scan2_error_keeps_time (row : sql.Row (Option String × Option Time)) (s : String)
    (t : Time) (e : GoError) (h : (row.Scan2 s t).2.2 = some e) : (row.Scan2 s t).2.1 = t := by
  cases row with
  | failed e' => rfl
  | result first =>
    cases first with
    | none => rfl
    | some cols =>
      obtain ⟨c0, c1⟩ := cols
      cases c0 with
      | none => rfl
      | some v0 =>
        cases c1 with
        | none => rfl
        | some v1 => simp [sql.Row.Scan2, sql.assignString, sql.assignTime] at h

theorem Refresh_responds (w : World) (s : RewardService) (r : http.Request) :
    (Refresh w s r).out ≠ none := by
  unfold Refresh
  cases hid : GetIDFromURL r "id" with
  | error e => simp [httputils.ErrorJSON]
  | ok id =>
    cases hcookie : r.Cookie "refreshToken" with
    | error e => simp [httputils.ErrorJSON]
    | ok token =>
      rcases PostgresRepository.validate_result w.bcrypt s.Repo (w.clock 0) token
        (GetClientIP r) id with h | ⟨h, e, he⟩
      · simp only [h.1, h.2, Bool.not_true, Bool.false_eq_true, if_false]
        split
        · simp [httputils.ErrorJSON]
        · split <;> simp [httputils.ErrorJSON]
      · simp [he, httputils.ErrorJSON]

/-- A transport failure of the credential query is the error of the scan. -/
theorem PostgresRepository.scan_of_fault (u : PostgresRepository) (id : Int) (e : GoError)
    (hfault : u.Conn.fault .selectRefreshToken = some e) :
    (u.queryRowRefreshToken id).Scan2 "" time.zero = ("", time.zero, some e) := by
  simp [PostgresRepository.queryRowRefreshToken, PostgresRepository.queryRow, hfault,
    sql.Row.Scan2]

/-- A NULL `refresh_token` column makes the scan fail with a conversion error, which is not
`sql.ErrNoRows`. -/
theorem PostgresRepository.scan_of_null_token (u : PostgresRepository) (id : Int)
    (row : MedodsRow) (hfault : u.Conn.fault .selectRefreshToken = none)
    (hlive : u.Conn.cancelled .selectRefreshToken = false)
    (hrow : u.find id = some row) (hnull : row.refresh_token = none) :
    ∃ e, ((u.queryRowRefreshToken id).Scan2 "" time.zero).2.2 = some e ∧
      errors.Is e sql.ErrNoRows = false := by
  refine ⟨.New "sql: Scan error: converting NULL to string is unsupported", ?_, by decide⟩
  simp [PostgresRepository.queryRowRefreshToken, PostgresRepository.queryRow, hfault, hlive,
    hrow, sql.Row.Scan2, hnull, sql.assignString]

/-- An answered credential query whose scan sees the cancelled context fails with
`context.Canceled`, which is not `sql.ErrNoRows`. -/
theorem PostgresRepository.scan_of_cancelled_context (u : PostgresRepository) (id : Int)
    (hfault : u.Conn.fault .selectRefreshToken = none)
    (hseen : u.Conn.cancelled .selectRefreshToken = true) :
    ((u.queryRowRefreshToken id).Scan2 "" time.zero).2.2 = some context.Canceled ∧
      errors.Is context.Canceled sql.ErrNoRows = false := by
  rw [PostgresRepository.scan_of_cancelled u id hfault hseen]
  exact ⟨rfl, by decide⟩

theorem GetClientIP_of_addr (r : http.Request) (ip port : String) (hip : ':' ∉ ip.data)
    (haddr : r.RemoteAddr = ip ++ ":" ++ port) : GetClientIP r = ip := by
  have hdata : (ip ++ ":" ++ port).data = ip.data ++ ':' :: port.data := by
    simp [show (":" : String).data = [':'] from rfl]
  have hcontains : strings.Contains (ip ++ ":" ++ port) ':' = true := by
    simp [strings.Contains, hdata]
  have hsplit : (strings.Split (ip ++ ":" ++ port) ':').headD "" = ip := by
    simp [strings.Split, hdata, strings.splitChars_append_sep ':' ip.data port.data hip]
  unfold GetClientIP
  rw [haddr]
  simp only [hcontains, if_true]
  exact hsplit

theorem PostgresRepository.store_eq (bc : Bcrypt) (salt : List Byte) (u : PostgresRepository)
    (t : Time) (id : Int) (raw h : String)
    (hgen : bc.GenerateFromPassword raw Bcrypt.DefaultCost salt = .ok h)
    (hfault : u.Conn.fault .updateRefreshToken = none) :
    u.StoreRefreshToken bc salt t id raw =
      (⟨⟨u.Conn.medods.map (fun r =>
          if r.id = id then
            { r with refresh_token := some h,
                     refresh_token_expires := some (time.Add t consts.RefreshTokenExpireTime) }
          else r), u.Conn.fault, u.Conn.cancelled⟩⟩, none) := by
  simp [PostgresRepository.StoreRefreshToken, HashRefreshToken, hgen,
    PostgresRepository.execUpdateRefreshToken, hfault]

theorem PostgresRepository.store_failed (bc : Bcrypt) (salt : List Byte)
    (u : PostgresRepository) (t : Time) (id : Int) (raw : String) (e : GoError)
    (h : (u.StoreRefreshToken bc salt t id raw).2 = some e) :
    (u.StoreRefreshToken bc salt t id raw).1 = u := by
  unfold PostgresRepository.StoreRefreshToken HashRefreshToken at h ⊢
  cases hgen : bc.GenerateFromPassword raw Bcrypt.DefaultCost salt with
  | error e' => simp
  | ok hashed =>
    simp only [hgen] at h ⊢
    unfold PostgresRepository.execUpdateRefreshToken at h ⊢
    cases hfault : u.Conn.fault .updateRefreshToken with
    | some e' => simp
    | none => simp [hfault] at h

/-- The error of a failed credential update carries the text of the transport error. -/
theorem PostgresRepository.store_error_text (bc : Bcrypt) (salt : List Byte)
    (u : PostgresRepository) (t : Time) (id : Int) (raw h : String) (e : GoError)
    (hgen : bc.GenerateFromPassword raw Bcrypt.DefaultCost salt = .ok h)
    (hfault : u.Conn.fault .updateRefreshToken = some e) :
    u.StoreRefreshToken bc salt t id raw = (u, some (.Errorf "failed to execute query : " e)) ∧
    u.UpdateRefreshToken bc salt t id raw = (u, some (.Errorf "failed to execute query : " e)) ∧
    (GoError.Errorf "failed to execute query : " e).Error =
      "failed to execute query : " ++ e.Error := by
  simp [PostgresRepository.StoreRefreshToken, PostgresRepository.UpdateRefreshToken,
    HashRefreshToken, hgen, PostgresRepository.execUpdateRefreshToken, hfault, GoError.Error]

/-! ## Lemmas on the login and refresh sequence -/

theorem sql.ScanUser_ok (row : sql.Row MedodsRow) (u0 user : calltypes.User)
    (h : row.ScanUser u0 = (user, none)) :
    ∃ r, row = .result (some r) ∧ user.ID = r.id := by
  cases row with
  | failed e => simp [sql.Row.ScanUser] at h
  | result first =>
    cases first with
    | none => simp [sql.Row.ScanUser] at h
    | some r =>
      refine ⟨r, rfl, ?_⟩
      unfold sql.Row.ScanUser at h
      simp only at h
      repeat' split at h
      all_goals first
        | (have h1 := congrArg Prod.snd h; simp at h1; done)
        | (have h1 := congrArg (fun x => x.1.ID) h; simpa using h1.symm)

theorem PostgresRepository.GetByEmail_find (u : PostgresRepository) (email : String)
    (user : calltypes.User) (h : u.GetByEmail email = .ok user) :
    ∃ row, u.find user.ID = some row := by
  unfold PostgresRepository.GetByEmail at h
  rcases hscan : (u.queryRowByEmail email).ScanUser calltypes.User.zero with ⟨scanned, err⟩
  rw [hscan] at h
  cases err with
  | some e => simp at h
  | none =>
    simp only [Except.ok.injEq] at h
    subst h
    obtain ⟨r, hrow, hid⟩ := sql.ScanUser_ok _ _ _ hscan
    unfold PostgresRepository.queryRowByEmail PostgresRepository.queryRow at hrow
    cases hfault : u.Conn.fault .selectByEmail with
    | some e => simp [hfault] at hrow
    | none =>
      cases hlive : u.Conn.cancelled .selectByEmail with
      | true => simp [hfault, hlive] at hrow
      | false =>
        simp only [hfault, hlive, Bool.false_eq_true, if_false, sql.Row.result.injEq] at hrow
        have hmem : r ∈ u.Conn.medods := List.mem_of_find?_eq_some hrow
        have hsome : (u.find scanned.ID).isSome = true := by
          unfold PostgresRepository.find
          rw [List.find?_isSome]
          exact ⟨r, hmem, by simp [hid]⟩
        exact Option.isSome_iff_exists.mp hsome

/-- What an answer 200 of `Authenticate` tells. -/
theorem Authenticate_ok_inv (w : World) (s : RewardService) (r : http.Request)
    (p : LoginPayload) (resp : Response)
    (hout : (Authenticate w s r (.ok p)).out = some resp) (hcode : resp.Code = http.StatusOK) :
    ∃ user accessToken refreshToken repo,
      s.Repo.GetByEmail p.Email = .ok user ∧
      PostgresRepository.PasswordMatches w.bcrypt p.Password user = (true, none) ∧
      GetClientIP r ≠ "" ∧
      GenerateTokens w.jwt w.Getenv w.rand (w.clock 1) (w.clock 2) (GetClientIP r) =
        .ok (accessToken, refreshToken) ∧
      s.Repo.StoreRefreshToken w.bcrypt w.salt (w.clock 3) user.ID refreshToken =
        (repo, none) ∧
      resp.Cookies =
        [tokenCookie "accessToken" accessToken
            (time.Add (w.clock 4) consts.AccessTokenExpireTime),
         tokenCookie "refreshToken" refreshToken
            (time.Add (w.clock 5) consts.RefreshTokenExpireTime)] ∧
      (Authenticate w s r (.ok p)).data = some user.ID ∧
      (Authenticate w s r (.ok p)).stores = [(user.ID, refreshToken)] ∧
      (Authenticate w s r (.ok p)).svc = ⟨repo⟩ := by
  unfold Authenticate at hout ⊢
  by_cases hne : p.Email = "" ∨ p.Password = ""
  · simp only [hne, if_true, httputils.ErrorJSON, Option.some.injEq] at hout
    subst hout
    simp [http.StatusBadRequest, http.StatusOK] at hcode
  · simp only [hne, if_false] at hout ⊢
    cases huser : s.Repo.GetByEmail p.Email with
    | error e =>
      simp only [huser, httputils.ErrorJSON, Option.some.injEq] at hout
      subst hout
      simp [http.StatusBadRequest, http.StatusOK] at hcode
    | ok user =>
      simp only [huser] at hout ⊢
      by_cases hcond : (PostgresRepository.PasswordMatches w.bcrypt p.Password user).2.isSome =
          true ∨ (PostgresRepository.PasswordMatches w.bcrypt p.Password user).1 = false
      · simp only [hcond, if_true, httputils.ErrorJSON, Option.some.injEq] at hout
        subst hout
        simp [http.StatusBadRequest, http.StatusOK] at hcode
      · simp only [hcond, if_false] at hout ⊢
        have hmatch : PostgresRepository.PasswordMatches w.bcrypt p.Password user =
            (true, none) := by
          rcases hm : PostgresRepository.PasswordMatches w.bcrypt p.Password user with ⟨b, e⟩
          rw [hm] at hcond
          cases b <;> cases e <;> simp at hcond ⊢
        by_cases hip : GetClientIP r = ""
        · simp only [hip, if_true, httputils.ErrorJSON, Option.some.injEq] at hout
          subst hout
          simp [http.StatusBadRequest, http.StatusOK] at hcode
        · simp only [hip, if_false] at hout ⊢
          cases hgen : GenerateTokens w.jwt w.Getenv w.rand (w.clock 1) (w.clock 2)
              (GetClientIP r) with
          | error e =>
            simp only [hgen, httputils.ErrorJSON, Option.some.injEq] at hout
            subst hout
            simp [http.StatusInternalServerError, http.StatusOK] at hcode
          | ok pair =>
            obtain ⟨accessToken, refreshToken⟩ := pair
            simp only [hgen] at hout ⊢
            cases hstore : s.Repo.StoreRefreshToken w.bcrypt w.salt (w.clock 3) user.ID
                refreshToken with
            | mk repo serr =>
              cases serr with
              | some e =>
                simp only [hstore, httputils.ErrorJSON, Option.some.injEq] at hout
                subst hout
                simp [http.StatusInternalServerError, http.StatusOK] at hcode
              | none =>
                simp only [hstore, Option.some.injEq] at hout ⊢
                subst hout
                exact ⟨user, accessToken, refreshToken, repo, rfl, hmatch, hip, rfl, hstore, rfl,
                  rfl, rfl, rfl⟩

/-! ## Lemmas on the middleware and the routes -/

theorem time.stale_arith (a n : Int) (h0 : 0 ≤ a)
    (h : a + 15 * (60 * 1000000000) + 1000000000 ≤ n) :
    (a + 15 * (60 * 1000000000)) / 1000000000 ≠ 0 ∧
      (a + 15 * (60 * 1000000000)) / 1000000000 < n / 1000000000 := by
  omega

/-- An access token of `GenerateAccessToken`, issued after the Unix epoch, is rejected from
one second past the lifetime counted from its first clock reading, whatever secret the
service holds. -/
theorem ValidateAccessToken_stale (p : JwtPrims) (getenv : String → String)
    (ts : ServiceToken) (nowExp nowIat now : Time) (clientIP tkn : String)
    (hcodec : p.RoundTrip "HS512" (accessClaims nowExp nowIat clientIP))
    (hepoch : 0 ≤ nowExp)
    (hnow : time.Add nowExp consts.AccessTokenExpireTime + time.Second ≤ now)
    (hgen : GenerateAccessToken (jwt.lib p) getenv nowExp nowIat clientIP = .ok tkn) :
    ValidateAccessToken p ts now tkn = .error errormsg.ErrTokenValidation := by
  obtain ⟨hheader, decoded, hclaims, hlookup⟩ := hcodec
  rw [ValidateAccessToken_generated p getenv ts nowExp nowIat now clientIP tkn decoded
    hheader hclaims hlookup hgen]
  obtain ⟨hne, hlt⟩ : time.Unix (time.Add nowExp consts.AccessTokenExpireTime) ≠ 0 ∧
      time.Unix (time.Add nowExp consts.AccessTokenExpireTime) < time.Unix now :=
    time.stale_arith nowExp now hepoch hnow
  have hvalid : jwt.Valid p.LenientTimeClaims (accessClaims nowExp nowIat clientIP)
      (time.Unix now) ≠ none := by
    rw [jwt.Valid_accessClaims]
    simp only [jwt.verifyExp, if_neg hne, decide_eq_false (not_le.mpr hlt)]
    split_ifs <;> simp_all
  simp [hvalid]

theorem chi.ServeHTTP_mem {α : Type} (matcher : chi.Matcher) (routes : List (network.Route α))
    (method path : String) (r : http.Request) (route : network.Route α)
    (out : middleware.Gate α)
    (h : chi.ServeHTTP matcher routes method path r = some (route, out)) :
    route ∈ routes ∧ route.method = method ∧
      ∃ params, matcher route.pattern path = some params ∧
        out = route.serve { r with URLParams := params } := by
  induction routes with
  | nil => simp [chi.ServeHTTP] at h
  | cons head rest ih =>
    unfold chi.ServeHTTP at h
    by_cases hm : head.method = method
    · simp only [hm, if_true] at h
      cases hp : matcher head.pattern path with
      | none =>
        simp only [hp] at h
        obtain ⟨h1, h2, h3⟩ := ih h
        exact ⟨List.mem_cons_of_mem _ h1, h2, h3⟩
      | some params =>
        simp only [hp, Option.some.injEq, Prod.mk.injEq] at h
        obtain ⟨rfl, rfl⟩ := h
        exact ⟨List.mem_cons_self _ _, hm, params, hp, rfl⟩
    · simp only [hm, if_false] at h
      obtain ⟨h1, h2, h3⟩ := ih h
      exact ⟨List.mem_cons_of_mem _ h1, h2, h3⟩

theorem network.refresh_route {α : Type}
    (auth : (String → http.Request → α) → http.Request → middleware.Gate α)
    (svc : network.Handlers α) (route : network.Route α)
    (hmem : route ∈ network.SetupRoutes auth svc) (hpattern : route.pattern = "/refresh/{id}") :
    route.method = "GET" ∧ route.serve = auth (fun _ => svc.Refresh) := by
  simp only [network.SetupRoutes, List.mem_cons, List.mem_singleton, List.not_mem_nil,
    or_false] at hmem
  rcases hmem with h | h | h | h | h | h <;> subst h <;>
    first
    | exact ⟨rfl, rfl⟩
    | (exfalso; simp at hpattern)

theorem middleware.Auth_rejects {α : Type} (p : JwtPrims) (getenv : String → String)
    (now : Time) (next : String → http.Request → α) (r : http.Request)
    (hbad : (∃ e, r.Cookie "accessToken" = .error e) ∨
      ∃ token e, r.Cookie "accessToken" = .ok token ∧
        ValidateAccessToken p (NewTokenService getenv) now token = .error e) :
    ∃ message, middleware.Auth p getenv now next r =
      .rejected ⟨http.StatusUnauthorized, ⟨true, "Authentication failed: " ++ message⟩, []⟩ ∧
      ∀ (β : Type) (next' : String → http.Request → β) (params : List (String × String)),
        middleware.Auth p getenv now next' { r with URLParams := params } =
          .rejected ⟨http.StatusUnauthorized, ⟨true, "Authentication failed: " ++ message⟩, []⟩ := by
  have hcookie : ∀ params : List (String × String),
      http.Request.Cookie { r with URLParams := params } "accessToken" =
        r.Cookie "accessToken" := fun _ => rfl
  rcases hbad with ⟨e, he⟩ | ⟨token, e, htoken, he⟩
  · refine ⟨"missing access token", ?_, ?_⟩
    · simp [middleware.Auth, he, middleware.handleAuthError]
    · intro β next' params
      simp [middleware.Auth, hcookie, he, middleware.handleAuthError]
  · refine ⟨"invalid access token: " ++ e.Error, ?_, ?_⟩
    · simp [middleware.Auth, htoken, he, middleware.handleAuthError]
    · intro β next' params
      simp [middleware.Auth, hcookie, htoken, he, middleware.handleAuthError]

/-! ## Lemmas on the parsing of ids -/

namespace strconv

theorem foldl_digits (digits : List Char) (acc : Nat) :
    digits.foldl (fun n ch => n * 10 + (ch.toNat - '0'.toNat)) acc =
      acc * 10 ^ digits.length +
        Nat.ofDigits 10 (digits.reverse.map (fun c => c.toNat - '0'.toNat)) := by
  induction digits generalizing acc with
  | nil => simp
  | cons c cs ih =>
    simp only [List.foldl_cons, ih, List.reverse_cons, List.map_append, List.map_cons,
      List.map_nil, Nat.ofDigits_append, Nat.ofDigits_singleton, List.length_map,
      List.length_reverse, List.length_cons]
    ring

theorem value_eq (digits : List Char) :
    digits.foldl (fun n ch => n * 10 + (ch.toNat - '0'.toNat)) 0 =
      Nat.ofDigits 10 (digits.reverse.map (fun c => c.toNat - '0'.toNat)) := by
  rw [foldl_digits]
  simp

theorem all_digits (digits : List Char) :
    digits.all (fun ch => decide ('0' ≤ ch) && decide (ch ≤ '9')) = true ↔
      ∀ c ∈ digits, '0' ≤ c ∧ c ≤ '9' := by
  simp [List.all_eq_true]

/-- `Atoi` on a text that starts with "-". -/
theorem Atoi_minus (rest : List Char) :
    Atoi (String.mk ('-' :: rest)) =
      if rest = [] ∨ ¬ rest.all (fun ch => decide ('0' ≤ ch) && decide (ch ≤ '9')) then
        .error (.Errorf "strconv.Atoi: parsing: " ErrSyntax)
      else if rest.foldl (fun n ch => n * 10 + (ch.toNat - '0'.toNat)) 0 > 2 ^ 63 then
        .error (.Errorf "strconv.Atoi: parsing: " ErrRange)
      else .ok (-((rest.foldl (fun n ch => n * 10 + (ch.toNat - '0'.toNat)) 0 : Nat) : Int)) := by
  simp [Atoi]

/-- `Atoi` on a text that starts with neither "-" nor "+". -/
theorem Atoi_plain (c : Char) (rest : List Char) (h1 : c ≠ '-') (h2 : c ≠ '+') :
    Atoi (String.mk (c :: rest)) =
      if ¬ (c :: rest).all (fun ch => decide ('0' ≤ ch) && decide (ch ≤ '9')) then
        .error (.Errorf "strconv.Atoi: parsing: " ErrSyntax)
      else if (c :: rest).foldl (fun n ch => n * 10 + (ch.toNat - '0'.toNat)) 0 ≥ 2 ^ 63 then
        .error (.Errorf "strconv.Atoi: parsing: " ErrRange)
      else .ok (((c :: rest).foldl (fun n ch => n * 10 + (ch.toNat - '0'.toNat)) 0 : Nat) : Int) := by
  simp [Atoi, h1, h2]

end strconv

theorem String.length_le_utf8ByteSize (cs : List Char) :
    cs.length ≤ (String.mk cs).utf8ByteSize := by
  simp only [String.utf8ByteSize]
  induction cs with
  | nil => simp [String.utf8ByteSize.go]
  | cons c rest ih =>
    have := Char.utf8Size_pos c
    simp only [String.utf8ByteSize.go, List.length_cons]
    omega

theorem String.mk_eq_empty (cs : List Char) : String.mk cs = "" ↔ cs = [] := by
  constructor
  · intro h
    exact congrArg String.data h
  · intro h
    subst h
    rfl

/-- The text read by `decimalID` has one value. -/
theorem decimalID_unique (s : String) (n m : Int) (hn : decimalID s n) (hm : decimalID s m) :
    n = m := by
  obtain ⟨neg, digits, hdata, hne, hdig, hval, -, -⟩ := hn
  obtain ⟨neg', digits', hdata', hne', hdig', hval', -, -⟩ := hm
  have hnotminus : ∀ ds : List Char, ds ≠ [] → (∀ c ∈ ds, '0' ≤ c ∧ c ≤ '9') →
      ds.head? ≠ some '-' := by
    intro ds hds hall
    cases ds with
    | nil => exact absurd rfl hds
    | cons c cs =>
      intro h
      simp only [List.head?_cons, Option.some.injEq] at h
      have := (hall c (List.mem_cons_self _ _)).1
      rw [h] at this
      exact absurd this (by decide)
  have hsame : neg = neg' ∧ digits = digits' := by
    rw [hdata] at hdata'
    cases neg <;> cases neg'
    · simpa using hdata'
    · exfalso
      simp only [Bool.false_eq_true, if_false, List.nil_append, if_true,
        List.singleton_append] at hdata'
      exact hnotminus digits hne hdig (by rw [hdata']; rfl)
    · exfalso
      simp only [Bool.false_eq_true, if_false, List.nil_append, if_true,
        List.singleton_append] at hdata'
      exact hnotminus digits' hne' hdig' (by rw [← hdata']; rfl)
    · simpa using hdata'
  obtain ⟨rfl, rfl⟩ := hsame
  rw [hval, hval']

/-- The three outcomes of `GetIDFromURL`, by the trimmed parameter. -/
theorem GetIDFromURL_cases (r : http.Request) (paramName : String) :
    (strings.TrimSpace (chi.URLParam r paramName) = "" ∧
      GetIDFromURL r paramName = .error errormsg.ErrEmptyID) ∨
    (∃ n, decimalID (strings.TrimSpace (chi.URLParam r paramName)) n ∧
      GetIDFromURL r paramName = .ok n) ∨
    (strings.TrimSpace (chi.URLParam r paramName) ≠ "" ∧
      (¬ ∃ n, decimalID (strings.TrimSpace (chi.URLParam r paramName)) n) ∧
      GetIDFromURL r paramName = .error errormsg.ErrInvalidID) := by
  unfold GetIDFromURL
  generalize strings.TrimSpace (chi.URLParam r paramName) = idStr
  obtain ⟨cs⟩ := idStr
  simp only
  cases cs with
  | nil => exact Or.inl ⟨rfl, rfl⟩
  | cons c rest =>
    have hnonempty : String.mk (c :: rest) ≠ "" := by
      rw [Ne, String.mk_eq_empty]
      exact List.cons_ne_nil _ _
    simp only [hnonempty, if_false]
    right
    by_cases hc : c = '-'
    · subst hc
      by_cases hall : rest ≠ [] ∧ ∀ c ∈ rest, '0' ≤ c ∧ c ≤ '9'
      · obtain ⟨hrest, hdig⟩ := hall
        have hsize : (String.mk ('-' :: rest)).utf8ByteSize > 1 := by
          have := String.length_le_utf8ByteSize ('-' :: rest)
          have hlen : 0 < rest.length := List.length_pos.mpr hrest
          simp only [List.length_cons] at this
          omega
        have hloop : (String.mk ('-' :: rest)).data.any (fun c =>
            !(decide (c = '-') && decide ((String.mk ('-' :: rest)).utf8ByteSize > 1)) &&
              (decide (c < '0') || decide (c > '9'))) = false := by
          simp only [List.any_eq_false, hsize, decide_True, Bool.and_true]
          intro x hx
          simp only [List.mem_cons] at hx
          rcases hx with rfl | hx
          · simp
          · have := hdig x hx
            simp [not_lt.mpr this.1, not_lt.mpr this.2]
        have hatoi := strconv.Atoi_minus rest
        have hallb : rest.all (fun ch => decide ('0' ≤ ch) && decide (ch ≤ '9')) = true :=
          (strconv.all_digits rest).mpr hdig
        simp only [hrest, hallb, not_true_eq_false, or_self, if_false, strconv.value_eq] at hatoi
        simp only [hloop, Bool.false_eq_true, if_false, hatoi]
        by_cases hrange : Nat.ofDigits 10 (rest.reverse.map (fun c => c.toNat - '0'.toNat)) >
            2 ^ 63
        · right
          simp only [hrange, if_true, and_true]
          refine ⟨hnonempty, ?_⟩
          rintro ⟨n, neg, digits, hdata, hne, hd, hval, hlo, hhi⟩
          cases neg
          · simp only [Bool.false_eq_true, if_false, List.nil_append] at hdata
            have := (hd '-' (by rw [← hdata]; exact List.mem_cons_self _ _)).1
            exact absurd this (by decide)
          · simp only [if_true, List.singleton_append, List.cons.injEq, true_and] at hdata
            subst hdata
            simp only [if_true] at hval
            omega
        · left
          simp only [hrange, if_false]
          refine ⟨_, ⟨true, rest, rfl, hrest, hdig, by simp, ?_, ?_⟩, rfl⟩ <;> omega
      · right
        have hnot : ¬ ∃ n, decimalID (String.mk ('-' :: rest)) n := by
          rintro ⟨n, neg, digits, hdata, hne, hd, -⟩
          cases neg
          · simp only [Bool.false_eq_true, if_false, List.nil_append] at hdata
            have := (hd '-' (by rw [← hdata]; exact List.mem_cons_self _ _)).1
            exact absurd this (by decide)
          · simp only [if_true, List.singleton_append, List.cons.injEq, true_and] at hdata
            subst hdata
            exact hall ⟨hne, hd⟩
        refine ⟨hnonempty, hnot, ?_⟩
        have hatoi := strconv.Atoi_minus rest
        have hcond : rest = [] ∨
            ¬ rest.all (fun ch => decide ('0' ≤ ch) && decide (ch ≤ '9')) = true := by
          by_cases hrest : rest = []
          · exact Or.inl hrest
          · right
            rw [strconv.all_digits]
            exact fun hd => hall ⟨hrest, hd⟩
        simp only [hcond, if_true] at hatoi
        rw [hatoi]
        split <;> rfl
    · by_cases hall : ∀ x ∈ c :: rest, '0' ≤ x ∧ x ≤ '9'
      · have hplus : c ≠ '+' := by
          rintro rfl
          exact absurd (hall '+' (List.mem_cons_self _ _)).1 (by decide)
        have hloop : (String.mk (c :: rest)).data.any (fun x =>
            !(decide (x = '-') && decide ((String.mk (c :: rest)).utf8ByteSize > 1)) &&
              (decide (x < '0') || decide (x > '9'))) = false := by
          simp only [List.any_eq_false]
          intro x hx
          have := hall x hx
          simp [not_lt.mpr this.1, not_lt.mpr this.2]
        have hatoi := strconv.Atoi_plain c rest hc hplus
        have hallb : (c :: rest).all (fun ch => decide ('0' ≤ ch) && decide (ch ≤ '9')) = true :=
          (strconv.all_digits _).mpr hall
        simp only [hallb, not_true_eq_false, if_false, strconv.value_eq] at hatoi
        simp only [hloop, Bool.false_eq_true, if_false, hatoi]
        by_cases hrange :
            Nat.ofDigits 10 ((c :: rest).reverse.map (fun c => c.toNat - '0'.toNat)) ≥ 2 ^ 63
        · right
          simp only [hrange, if_true, and_true]
          refine ⟨hnonempty, ?_⟩
          rintro ⟨n, neg, digits, hdata, hne, hd, hval, hlo, hhi⟩
          cases neg
          · simp only [Bool.false_eq_true, if_false, List.nil_append] at hdata
            subst hdata
            simp only [Bool.false_eq_true, if_false, one_mul] at hval
            omega
          · simp only [if_true, List.singleton_append, List.cons.injEq] at hdata
            exact hc hdata.1
        · left
          simp only [hrange, if_false]
          refine ⟨_, ⟨false, c :: rest, rfl, List.cons_ne_nil _ _, hall, by simp, ?_, ?_⟩, rfl⟩ <;>
            omega
      · right
        have hnot : ¬ ∃ n, decimalID (String.mk (c :: rest)) n := by
          rintro ⟨n, neg, digits, hdata, hne, hd, -⟩
          cases neg
          · simp only [Bool.false_eq_true, if_false, List.nil_append] at hdata
            subst hdata
            exact hall hd
          · simp only [if_true, List.singleton_append, List.cons.injEq] at hdata
            exact hc hdata.1
        refine ⟨hnonempty, hnot, ?_⟩
        by_cases hplus : c = '+'
        · subst hplus
          have hloop : (String.mk ('+' :: rest)).data.any (fun x =>
              !(decide (x = '-') && decide ((String.mk ('+' :: rest)).utf8ByteSize > 1)) &&
                (decide (x < '0') || decide (x > '9'))) = true := by
            simp only [List.any_cons]
            simp
          simp only [hloop, if_true]
        · have hatoi := strconv.Atoi_plain c rest hc hplus
          have hallb : ¬ (c :: rest).all (fun ch => decide ('0' ≤ ch) && decide (ch ≤ '9')) =
              true := by
            rw [strconv.all_digits]
            exact hall
          simp only [hallb, not_false_eq_true, if_true] at hatoi
          rw [hatoi]
          split <;> rfl

/-! ## Claims on the handlers, the store and the routes -/

/-- C21: failure semantics of `Authenticate`, for a payload with an e-mail and a password.
When the lookup by e-mail fails the answer is 400 with the message of `ErrUserNotExist`;
when `PasswordMatches` returns false or an error it is 400 with the message of
`ErrInvalidPassword`; in both cases no cookie is set, `StoreRefreshToken` is not called
and the service is as before. And an answer 200 is given only after the lookup returned a
user and `PasswordMatches` returned `(true, nil)`: then the one call of
`StoreRefreshToken` was for that user's id and the refresh token of the cookie, and it
returned nil. -/
theorem Authenticate_failure_semantics (w : World) (s : RewardService) (r : http.Request)
    (p : LoginPayload) (hemail : p.Email ≠ "") (hpassword : p.Password ≠ "") :
    (∀ e, s.Repo.GetByEmail p.Email = .error e →
      (Authenticate w s r (.ok p)).out =
        some ⟨http.StatusBadRequest, ⟨true, errormsg.ErrUserNotExist.Error⟩, []⟩ ∧
      (Authenticate w s r (.ok p)).stores = [] ∧ (Authenticate w s r (.ok p)).svc = s) ∧
    (∀ user, s.Repo.GetByEmail p.Email = .ok user →
      ((PostgresRepository.PasswordMatches w.bcrypt p.Password user).1 = false ∨
        (PostgresRepository.PasswordMatches w.bcrypt p.Password user).2 ≠ none) →
      (Authenticate w s r (.ok p)).out =
        some ⟨http.StatusBadRequest, ⟨true, errormsg.ErrInvalidPassword.Error⟩, []⟩ ∧
      (Authenticate w s r (.ok p)).stores = [] ∧ (Authenticate w s r (.ok p)).svc = s) ∧
    (∀ resp, (Authenticate w s r (.ok p)).out = some resp → resp.Code = http.StatusOK →
      ∃ user accessToken refreshToken,
        s.Repo.GetByEmail p.Email = .ok user ∧
        PostgresRepository.PasswordMatches w.bcrypt p.Password user = (true, none) ∧
        resp.Cookies =
          [tokenCookie "accessToken" accessToken
              (time.Add (w.clock 4) consts.AccessTokenExpireTime),
           tokenCookie "refreshToken" refreshToken
              (time.Add (w.clock 5) consts.RefreshTokenExpireTime)] ∧
        (Authenticate w s r (.ok p)).stores = [(user.ID, refreshToken)] ∧
        s.Repo.StoreRefreshToken w.bcrypt w.salt (w.clock 3) user.ID refreshToken =
          ((Authenticate w s r (.ok p)).svc.Repo, none)) := by
  have hne : ¬ (p.Email = "" ∨ p.Password = "") := by simp [hemail, hpassword]
  refine ⟨?_, ?_, ?_⟩
  · intro e he
    simp [Authenticate, hne, he, httputils.ErrorJSON]
  · intro user huser hbad
    have hcond : (PostgresRepository.PasswordMatches w.bcrypt p.Password user).2.isSome = true ∨
        (PostgresRepository.PasswordMatches w.bcrypt p.Password user).1 = false := by
      rcases hbad with h | h
      · exact Or.inr h
      · exact Or.inl (Option.isSome_iff_ne_none.mpr h)
    simp [Authenticate, hne, huser, hcond, httputils.ErrorJSON]
  · intro resp hout hcode
    obtain ⟨user, accessToken, refreshToken, repo, huser, hmatch, -, -, hstore, hcookies, -,
      hstores, hsvc⟩ := Authenticate_ok_inv w s r p resp hout hcode
    refine ⟨user, accessToken, refreshToken, huser, hmatch, hcookies, hstores, ?_⟩
    rw [hsvc]
    exact hstore

theorem Authenticate_failure_semantics_witness :
    (Authenticate sampleWorld ⟨sampleRepo⟩ sampleRequest
        (.ok ⟨"nobody@example.com", "correct horse"⟩)).out =
      some ⟨http.StatusBadRequest, ⟨true, errormsg.ErrUserNotExist.Error⟩, []⟩ ∧
    (Authenticate sampleWorld ⟨sampleRepo⟩ sampleRequest
        (.ok ⟨"a@example.com", "correct house"⟩)).out =
      some ⟨http.StatusBadRequest, ⟨true, errormsg.ErrInvalidPassword.Error⟩, []⟩ :=
  ⟨((Authenticate_failure_semantics sampleWorld ⟨sampleRepo⟩ sampleRequest
      ⟨"nobody@example.com", "correct horse"⟩ (by decide) (by decide)).1
      (.Errorf "failed to fecth user's password by email: " sql.ErrNoRows) (by decide)).1,
   ((Authenticate_failure_semantics sampleWorld ⟨sampleRepo⟩ sampleRequest
      ⟨"a@example.com", "correct house"⟩ (by decide) (by decide)).2.1
      ⟨1, "a@example.com", "Anna", "Ivanova", "$2a$10$correct horse", 1,
        1500000000 * time.Second, 1500000000 * time.Second⟩ (by decide)
      (Or.inl (by decide))).1⟩

/-- C22: for a request whose id parses and whose `RemoteAddr` gives an empty client IP,
`Provide` answers 400 with the message of `ErrInvalidIP`, sets no cookie, makes no call of
`StoreRefreshToken` and leaves the service as it was; and for a `RemoteAddr` of the form
`ip:port` with `ip` free of ":", `GetClientIP` returns exactly `ip`. -/
theorem Provide_rejects_empty_ip (w : World) (s : RewardService) (r : http.Request)
    (id : Int) (hid : GetIDFromURL r "id" = .ok id) (hip : GetClientIP r = "") :
    (Provide w s r).out =
      some ⟨http.StatusBadRequest, ⟨true, errormsg.ErrInvalidIP.Error⟩, []⟩ ∧
    (Provide w s r).stores = [] ∧
    (Provide w s r).svc = s ∧
    ∀ (r' : http.Request) (ip port : String), ':' ∉ ip.data →
      r'.RemoteAddr = ip ++ ":" ++ port → GetClientIP r' = ip := by
  refine ⟨?_, ?_, ?_, fun r' ip port h1 h2 => GetClientIP_of_addr r' ip port h1 h2⟩ <;>
    simp [Provide, hid, hip, httputils.ErrorJSON]

theorem Provide_rejects_empty_ip_witness :
    (Provide sampleWorld ⟨sampleRepo⟩ ⟨":51234", [("id", "1")], []⟩).out =
      some ⟨http.StatusBadRequest, ⟨true, errormsg.ErrInvalidIP.Error⟩, []⟩ ∧
    (Provide sampleWorld ⟨sampleRepo⟩ ⟨":51234", [("id", "1")], []⟩).stores = [] :=
  have h := Provide_rejects_empty_ip sampleWorld ⟨sampleRepo⟩ ⟨":51234", [("id", "1")], []⟩ 1
    (by decide) (by decide)
  ⟨h.1, h.2.1⟩

/-- C23: persistence postcondition. When bcrypt hashes the raw token to `h` and the store
takes the statement, `StoreRefreshToken id raw` run at time `t` returns nil, and so does
`UpdateRefreshToken` with the same result: every row of account `id` then holds the
credential `(h, t + 30 days)` in place of its former one, all its other columns and all
rows of other accounts are as before, and the only values written are `h` and the expiry,
so unless `h` is the raw token itself no credential of the account is the raw token.
When the call returns an error the store is unchanged. -/
theorem StoreRefreshToken_postcondition (bc : Bcrypt) (salt : List Byte)
    (u : PostgresRepository) (t : Time) (id : Int) (raw h : String)
    (hgen : bc.GenerateFromPassword raw Bcrypt.DefaultCost salt = .ok h)
    (hfault : u.Conn.fault .updateRefreshToken = none) :
    (u.StoreRefreshToken bc salt t id raw).2 = none ∧
    u.UpdateRefreshToken bc salt t id raw = u.StoreRefreshToken bc salt t id raw ∧
    consts.RefreshTokenExpireTime = 30 * 24 * time.Hour ∧
    (u.StoreRefreshToken bc salt t id raw).1.Conn.medods =
      u.Conn.medods.map (fun r =>
        if r.id = id then
          { r with refresh_token := some h,
                   refresh_token_expires := some (time.Add t consts.RefreshTokenExpireTime) }
        else r) ∧
    (∀ row ∈ (u.StoreRefreshToken bc salt t id raw).1.Conn.medods, row.id = id →
      row.refresh_token = some h ∧
      row.refresh_token_expires = some (time.Add t consts.RefreshTokenExpireTime) ∧
      (h ≠ raw → row.refresh_token ≠ some raw)) ∧
    (∀ row ∈ (u.StoreRefreshToken bc salt t id raw).1.Conn.medods, row.id ≠ id →
      row ∈ u.Conn.medods) ∧
    (∀ row ∈ u.Conn.medods, row.id ≠ id →
      row ∈ (u.StoreRefreshToken bc salt t id raw).1.Conn.medods) ∧
    (∀ (raw' : String) (e : GoError), (u.StoreRefreshToken bc salt t id raw').2 = some e →
      (u.StoreRefreshToken bc salt t id raw').1 = u) := by
  rw [PostgresRepository.store_eq bc salt u t id raw h hgen hfault]
  refine ⟨rfl, ?_, rfl, rfl, ?_, ?_, ?_, ?_⟩
  · rw [← PostgresRepository.store_eq bc salt u t id raw h hgen hfault]
    rfl
  · intro row hrow hid
    simp only [List.mem_map] at hrow
    obtain ⟨r0, _, hr0⟩ := hrow
    by_cases h0 : r0.id = id
    · simp only [h0, if_true] at hr0
      subst hr0
      refine ⟨rfl, rfl, fun hne heq => hne ?_⟩
      simpa using heq
    · simp only [h0, if_false] at hr0
      subst hr0
      exact absurd hid h0
  · intro row hrow hid
    simp only [List.mem_map] at hrow
    obtain ⟨r0, hmem, hr0⟩ := hrow
    by_cases h0 : r0.id = id
    · simp only [h0, if_true] at hr0
      subst hr0
      exact (hid rfl).elim
    · simp only [h0, if_false] at hr0
      subst hr0
      exact hmem
  · intro row hrow hid
    simp only [List.mem_map]
    exact ⟨row, hrow, by simp [hid]⟩
  · intro raw' e he
    exact PostgresRepository.store_failed bc salt u t id raw' e he

theorem StoreRefreshToken_postcondition_witness :
    (sampleRepo.StoreRefreshToken tagBcrypt [] sampleIssued 2 "10.0.0.1|xyz").1.Conn.medods =
      sampleRepo.Conn.medods.map (fun r =>
        if r.id = 2 then
          { r with refresh_token := some "$2a$10$10.0.0.1|xyz",
                   refresh_token_expires :=
                    some (time.Add sampleIssued consts.RefreshTokenExpireTime) }
        else r) :=
  (StoreRefreshToken_postcondition tagBcrypt [] sampleRepo sampleIssued 2 "10.0.0.1|xyz"
    "$2a$10$10.0.0.1|xyz" (by decide) (by decide)).2.2.2.1

/-- C24 (the code diverges): on a store whose credential update fails with the transport
error `dial tcp 10.0.0.5:5432: connect: connection refused`, `Refresh`, `Provide` and
`Authenticate` answer 500 and set no cookie, but the message of the body is the error of
the repository, which ends in the text of the transport error. -/
theorem persist_failure_leaks_store_error :
    brokenRepo.Conn.fault .updateRefreshToken =
      some (.New "dial tcp 10.0.0.5:5432: connect: connection refused") ∧
    (Refresh sampleWorld ⟨brokenRepo⟩ sampleRequest).out =
      some ⟨http.StatusInternalServerError,
        ⟨true, "failed to execute query : " ++
          "dial tcp 10.0.0.5:5432: connect: connection refused"⟩, []⟩ ∧
    (Provide sampleWorld ⟨brokenRepo⟩ sampleRequest).out =
      some ⟨http.StatusInternalServerError,
        ⟨true, "failed to execute query : " ++
          "dial tcp 10.0.0.5:5432: connect: connection refused"⟩, []⟩ ∧
    (Authenticate sampleWorld ⟨brokenRepo⟩ sampleRequest (.ok sampleLogin)).out =
      some ⟨http.StatusInternalServerError,
        ⟨true, "failed to execute query : " ++
          "dial tcp 10.0.0.5:5432: connect: connection refused"⟩, []⟩ :=
  ⟨by decide, by decide, by decide, by decide⟩

/-- C25 (defect in the code): the end-to-end rotation is cut off by the router. Let
`Authenticate` at time `t0`, after the Unix epoch, answer 200 with the pair `(A, R)` in its
cookies, the access token being signed by the jwt library with the service secret. The
route `/refresh/{id}` is registered inside the group that uses `Auth`, and `Auth` validates
the accessToken cookie before `Refresh` is called. So at every time `t1` one second or more
past `t0 + accessTTL`, the request the router gives to that route with `A` as accessToken
cookie, whatever else it carries (`R` as refreshToken cookie and the original IP included),
is answered 401 by the middleware with the message of `ErrTokenValidation` and without
cookies: `Refresh` is not called, no new pair is issued, the credential is not rotated. -/
theorem rotation_blocked_by_Auth {α : Type} (matcher : chi.Matcher) (p : JwtPrims)
    (w : World) (s : RewardService) (rA rR : http.Request) (login : LoginPayload)
    (respA : Response) (svc : network.Handlers α) (path : String) (t0 t1 : Time)
    (A R : String)
    (hjwt : w.jwt = jwt.lib p)
    (hcodec : p.RoundTrip "HS512" (accessClaims t0 t0 (GetClientIP rA)))
    (hclock : ∀ k, w.clock k = t0) (hepoch : 0 ≤ t0)
    (hout : (Authenticate w s rA (.ok login)).out = some respA)
    (hcode : respA.Code = http.StatusOK)
    (hpair : respA.Cookies.map (fun c => (c.Name, c.Value)) =
      [("accessToken", A), ("refreshToken", R)])
    (hlate : time.Add t0 consts.AccessTokenExpireTime + time.Second ≤ t1)
    (hcookie : rR.Cookie "accessToken" = .ok A)
    (hroute : (chi.ServeHTTP matcher
      (network.SetupRoutes (middleware.Auth p w.Getenv t1) svc) "GET" path rR).map
        (fun served => served.1.pattern) = some "/refresh/{id}") :
    ∃ route : network.Route α,
      chi.ServeHTTP matcher (network.SetupRoutes (middleware.Auth p w.Getenv t1) svc)
        "GET" path rR =
        some (route, .rejected ⟨http.StatusUnauthorized,
          ⟨true, "Authentication failed: invalid access token: token validation failed"⟩,
          []⟩) ∧
      route.serve = middleware.Auth p w.Getenv t1 (fun _ => svc.Refresh) := by
  obtain ⟨user, a, t, repo, -, -, -, hgen, -, hcookies, -, -, -⟩ :=
    Authenticate_ok_inv w s rA login respA hout hcode
  rw [hcookies] at hpair
  simp only [List.map_cons, List.map_nil, tokenCookie, List.cons.injEq, Prod.mk.injEq,
    true_and, and_true] at hpair
  obtain ⟨rfl, rfl⟩ := hpair
  simp only [hclock, hjwt] at hgen
  have hsign := ((GenerateTokens_ok_iff _ _ _ _ _ _ _ _).mp hgen).1
  have hstale : ValidateAccessToken p (NewTokenService w.Getenv) t1 a =
      .error errormsg.ErrTokenValidation :=
    ValidateAccessToken_stale p w.Getenv (NewTokenService w.Getenv) t0 t0 t1 (GetClientIP rA) a
      hcodec hepoch hlate hsign
  cases hserve : chi.ServeHTTP matcher
      (network.SetupRoutes (middleware.Auth p w.Getenv t1) svc) "GET" path rR with
  | none => simp [hserve] at hroute
  | some served =>
    obtain ⟨route, out⟩ := served
    have hpattern : route.pattern = "/refresh/{id}" := by simpa [hserve] using hroute
    obtain ⟨hmem, -, params, -, hserved⟩ :=
      chi.ServeHTTP_mem matcher _ "GET" path rR route out hserve
    obtain ⟨-, hs⟩ := network.refresh_route _ svc route hmem hpattern
    have hcookie' : http.Request.Cookie { rR with URLParams := params } "accessToken" =
        .ok a := hcookie
    refine ⟨route, ?_, hs⟩
    rw [hserved, hs]
    simp only [middleware.Auth, hcookie', hstale, middleware.handleAuthError]
    rfl

theorem rotation_blocked_by_Auth_witness :
    (Authenticate loginWorld ⟨sampleRepo⟩ sampleRequest (.ok sampleLogin)).out =
      some loginResponse ∧
    (Refresh refreshWorld ⟨loggedInRepo⟩ rotationRequest).out = some rotationResponse ∧
    ∃ route : network.Route String,
      chi.ServeHTTP chi.segmentMatcher
        (network.SetupRoutes
          (middleware.Auth hs512Prims loginWorld.Getenv (sampleIssued + 24 * time.Hour))
          namedHandlers)
        "GET" "/refresh/1" routedRequest =
        some (route, .rejected ⟨http.StatusUnauthorized,
          ⟨true, "Authentication failed: invalid access token: token validation failed"⟩,
          []⟩) ∧
      route.serve =
        middleware.Auth hs512Prims loginWorld.Getenv (sampleIssued + 24 * time.Hour)
          (fun _ => namedHandlers.Refresh) :=
  ⟨by decide, by decide,
    rotation_blocked_by_Auth chi.segmentMatcher hs512Prims loginWorld ⟨sampleRepo⟩
      sampleRequest routedRequest sampleLogin loginResponse namedHandlers "/refresh/1"
      sampleIssued (sampleIssued + 24 * time.Hour) issuedAccessToken issuedRefreshToken
      rfl
      ⟨by decide, accessClaims sampleIssued sampleIssued "10.0.0.1", by decide, fun _ => rfl⟩
      (fun _ => rfl) (by decide) (by decide) (by decide) (by decide) (by decide) (by decide)
      (by decide)⟩

/-- C26: `ValidateRefreshToken` returns either `(true, nil)` or `(false, err)` with `err`
not nil, for every bcrypt, store, clock, token, client address and id; so the `!ok` branch
of `Refresh`, reached only with a nil error, is never taken, and `Refresh` always leaves a
response (it never calls `err.Error()` on a nil error). -/
theorem Refresh_no_nil_error (w : World) (s : RewardService) (r : http.Request)
    (bc : Bcrypt) (u : PostgresRepository) (now : Time) (rawToken clientIP : String)
    (id : Int) :
    (((u.ValidateRefreshToken bc now rawToken clientIP id).ok = true ∧
        (u.ValidateRefreshToken bc now rawToken clientIP id).err = none) ∨
      ((u.ValidateRefreshToken bc now rawToken clientIP id).ok = false ∧
        (u.ValidateRefreshToken bc now rawToken clientIP id).err ≠ none)) ∧
    ¬ ((u.ValidateRefreshToken bc now rawToken clientIP id).err = none ∧
        (u.ValidateRefreshToken bc now rawToken clientIP id).ok = false) ∧
    (Refresh w s r).out ≠ none := by
  refine ⟨?_, ?_, ?_⟩
  · rcases PostgresRepository.validate_result bc u now rawToken clientIP id with h | ⟨h, e, he⟩
    · exact Or.inl h
    · exact Or.inr ⟨h, by simp [he]⟩
  · rcases PostgresRepository.validate_result bc u now rawToken clientIP id with h | ⟨h, e, he⟩
    · simp [h.1]
    · simp [he]
  · exact Refresh_responds w s r

/-- C27: parsing of ids. With `s'` the URL parameter trimmed of surrounding white space,
`GetIDFromURL` returns `(0, ErrEmptyID)` exactly when `s'` is empty; it returns `(n, nil)`
exactly when `s'` is an optional leading "-" followed by one or more ASCII decimal digits
whose value `n` fits in `int`; it returns `(0, ErrInvalidID)` in every other case; and it
returns no other error. -/
theorem GetIDFromURL_parsing (r : http.Request) (paramName : String) :
    (GetIDFromURL r paramName = .error errormsg.ErrEmptyID ↔
      strings.TrimSpace (chi.URLParam r paramName) = "") ∧
    (∀ n : Int, GetIDFromURL r paramName = .ok n ↔
      decimalID (strings.TrimSpace (chi.URLParam r paramName)) n) ∧
    (GetIDFromURL r paramName = .error errormsg.ErrInvalidID ↔
      strings.TrimSpace (chi.URLParam r paramName) ≠ "" ∧
      ¬ ∃ n, decimalID (strings.TrimSpace (chi.URLParam r paramName)) n) ∧
    (∀ e, GetIDFromURL r paramName = .error e →
      e = errormsg.ErrEmptyID ∨ e = errormsg.ErrInvalidID) := by
  have hdistinct : errormsg.ErrInvalidID ≠ errormsg.ErrEmptyID := by decide
  have hempty : ∀ n, ¬ decimalID "" n := by
    rintro n ⟨neg, digits, hdata, hne, -⟩
    cases neg
    · simp only [Bool.false_eq_true, if_false, List.nil_append] at hdata
      exact hne hdata.symm
    · simp only [if_true, List.singleton_append] at hdata
      cases hdata
  rcases GetIDFromURL_cases r paramName with ⟨hs, hres⟩ | ⟨m, hm, hres⟩ | ⟨hs, hnone, hres⟩
  · refine ⟨by simp [hres, hs], ?_, ?_, ?_⟩
    · intro n
      rw [hres, hs]
      simp only [reduceCtorEq, false_iff]
      exact hempty n
    · rw [hres, hs]
      simp [hdistinct.symm]
    · intro e he
      rw [hres] at he
      exact Or.inl (by simpa using he.symm)
  · have hs : strings.TrimSpace (chi.URLParam r paramName) ≠ "" := by
      intro h
      rw [h] at hm
      exact hempty m hm
    refine ⟨by simp [hres, hs], ?_, ?_, ?_⟩
    · intro n
      rw [hres]
      constructor
      · intro h
        simp only [Except.ok.injEq] at h
        rw [← h]
        exact hm
      · intro h
        rw [decimalID_unique _ n m h hm]
    · rw [hres]
      simp only [reduceCtorEq, false_iff, not_and, not_not]
      exact fun _ => ⟨m, hm⟩
    · intro e he
      rw [hres] at he
      cases he
  · refine ⟨?_, ?_, ?_, ?_⟩
    · rw [hres]
      simp [hs, hdistinct]
    · intro n
      rw [hres]
      simp only [reduceCtorEq, false_iff]
      exact fun h => hnone ⟨n, h⟩
    · rw [hres]
      simp [hs, hnone]
    · intro e he
      rw [hres] at he
      exact Or.inr (by simpa using he.symm)

/-- C28: for a two-part token whose embedded IP is the client IP, when the scan of the
stored credential fails with an error that is not `sql.ErrNoRows` (a transport failure, a
NULL column), `ValidateRefreshToken` goes on with the zero `expiresAt` and, at every time
after the zero time, returns `(false, ErrTokenExpired)`: the scan error is not reported. -/
theorem ValidateRefreshToken_swallowed_error (bc : Bcrypt) (u : PostgresRepository)
    (now : Time) (rawToken clientIP suffix : String) (id : Int) (e : GoError)
    (hparts : strings.Split rawToken '|' = [clientIP, suffix])
    (hscan : ((u.queryRowRefreshToken id).Scan2 "" time.zero).2.2 = some e)
    (hother : errors.Is e sql.ErrNoRows = false)
    (hnow : time.After now time.zero = true) :
    ((u.queryRowRefreshToken id).Scan2 "" time.zero).2.1 = time.zero ∧
    u.ValidateRefreshToken bc now rawToken clientIP id =
      ⟨false, some errormsg.ErrTokenExpired, [.selectRefreshToken], none⟩ := by
  have hzero := sql.Scan2_error_keeps_time _ _ _ e hscan
  refine ⟨hzero, ?_⟩
  rw [PostgresRepository.validate_of_parts bc u now rawToken clientIP suffix id hparts]
  simp [hscan, hother, hzero, hnow]

theorem ValidateRefreshToken_swallowed_error_witness :
    sampleRepo.ValidateRefreshToken tagBcrypt sampleIssued "10.0.0.1|abc" "10.0.0.1" 2 =
      ⟨false, some errormsg.ErrTokenExpired, [.selectRefreshToken], none⟩ :=
  (ValidateRefreshToken_swallowed_error tagBcrypt sampleRepo sampleIssued "10.0.0.1|abc"
    "10.0.0.1" "abc" 2 (.New "sql: Scan error: converting NULL to string is unsupported")
    (by decide) (by decide) (by decide) (by decide)).2

/-- C29: the decision of the `Auth` middleware does not depend on the client address. For
every request and every `RemoteAddr` put in its place the middleware gives the same
answer (the same 401 response, or none and the handler is called), and whenever
`ValidateAccessToken`, which gets the cookie value only, accepts the token, the request
goes on to the handler whatever the `ip` claim of the token and the address of the caller
are. -/
theorem Auth_ignores_client_address {α : Type} (p : JwtPrims) (getenv : String → String)
    (now : Time) (next : String → http.Request → α) (r : http.Request) :
    (∀ addr : String,
      (middleware.Auth p getenv now next { r with RemoteAddr := addr }).answer =
        (middleware.Auth p getenv now next r).answer) ∧
    (∀ (token : String) (claims : MapClaims),
      r.Cookie "accessToken" = .ok token →
      ValidateAccessToken p (NewTokenService getenv) now token = .ok claims →
      ∀ addr : String,
        (middleware.Auth p getenv now next { r with RemoteAddr := addr }).answer = none) := by
  have hcookie : ∀ addr : String,
      http.Request.Cookie { r with RemoteAddr := addr } "accessToken" =
        r.Cookie "accessToken" := fun _ => rfl
  constructor
  · intro addr
    unfold middleware.Auth
    rw [hcookie]
    cases hc : r.Cookie "accessToken" with
    | error e => rfl
    | ok token =>
      simp only
      cases hv : ValidateAccessToken p (NewTokenService getenv) now token with
      | error e => rfl
      | ok claims => rfl
  · intro token claims hc hv addr
    unfold middleware.Auth
    rw [hcookie, hc]
    simp only [hv]
    rfl

theorem Auth_ignores_client_address_witness :
    (middleware.Auth hs512Prims sampleEnv (sampleIssued + time.Second)
      (fun _ r => Refresh sampleWorld ⟨sampleRepo⟩ r)
      { gatedRequest with RemoteAddr := "198.51.100.9:5555" }).answer = none :=
  (Auth_ignores_client_address hs512Prims sampleEnv (sampleIssued + time.Second)
    (fun _ r => Refresh sampleWorld ⟨sampleRepo⟩ r) gatedRequest).2 sampleToken sampleClaims
    (by decide) (by decide) "198.51.100.9:5555"

/-- C30: `SetupRoutes` registers `/refresh/{id}` inside the group that uses `Auth`: the
route serves a request through `Auth` around `svc.Refresh`. So every request the router
gives to this route that has no accessToken cookie, or one that `ValidateAccessToken`
rejects, is answered 401 by the middleware, without a cookie, and the answer is the same
whatever handler stands behind the middleware: `Refresh` is not called, so no
refresh-token validation and no rotation happen. -/
theorem Refresh_gated_by_Auth {α : Type} (matcher : chi.Matcher) (p : JwtPrims)
    (getenv : String → String) (now : Time) (svc : network.Handlers α)
    (method path : String) (r : http.Request)
    (hroute : (chi.ServeHTTP matcher
      (network.SetupRoutes (middleware.Auth p getenv now) svc) method path r).map
        (fun served => served.1.pattern) = some "/refresh/{id}")
    (hbad : (∃ e, r.Cookie "accessToken" = .error e) ∨
      ∃ token e, r.Cookie "accessToken" = .ok token ∧
        ValidateAccessToken p (NewTokenService getenv) now token = .error e) :
    ∃ (route : network.Route α) (resp : Response),
      chi.ServeHTTP matcher (network.SetupRoutes (middleware.Auth p getenv now) svc)
        method path r = some (route, .rejected resp) ∧
      route.serve = middleware.Auth p getenv now (fun _ => svc.Refresh) ∧
      resp.Code = http.StatusUnauthorized ∧ resp.Cookies = [] ∧
      ∀ (β : Type) (next : String → http.Request → β) (params : List (String × String)),
        middleware.Auth p getenv now next { r with URLParams := params } = .rejected resp := by
  cases hserve : chi.ServeHTTP matcher
      (network.SetupRoutes (middleware.Auth p getenv now) svc) method path r with
  | none => simp [hserve] at hroute
  | some served =>
    obtain ⟨route, out⟩ := served
    have hpattern : route.pattern = "/refresh/{id}" := by simpa [hserve] using hroute
    obtain ⟨hmem, -, params, -, hout⟩ :=
      chi.ServeHTTP_mem matcher _ method path r route out hserve
    obtain ⟨-, hs⟩ := network.refresh_route _ svc route hmem hpattern
    obtain ⟨message, -, hall⟩ :=
      middleware.Auth_rejects p getenv now (fun _ => svc.Refresh) r hbad
    refine ⟨route, _, ?_, hs, rfl, rfl, hall⟩
    rw [hout, hs, hall α _ params]

theorem Refresh_gated_by_Auth_witness :
    ∃ resp : Response,
      resp.Code = http.StatusUnauthorized ∧
      middleware.Auth hs512Prims sampleEnv (sampleIssued + 901 * time.Second)
        (fun _ r => Refresh sampleWorld ⟨sampleRepo⟩ r)
        { gatedRequest with URLParams := [("id", "1")] } = .rejected resp :=
  have h := Refresh_gated_by_Auth chi.segmentMatcher hs512Prims sampleEnv
    (sampleIssued + 901 * time.Second) namedHandlers "GET" "/refresh/1" gatedRequest
    (by decide)
    (Or.inr ⟨sampleToken, errormsg.ErrTokenValidation, by decide, by decide⟩)
  h.elim fun _ h1 => h1.elim fun resp hresp => ⟨resp, hresp.2.2.1, hresp.2.2.2.2 _ _ _⟩

